import Mathlib

/-! Telemetry router of `flight/Modules/TransmitterControls/transmittercontrols.c`.

A shallow embedding of the router module: `processObjEvent` (the event
dispatcher driven by the Tx task), one iteration of `transmitterRxTask` and of
`transmitterTxTask`, `transmitData`, `TransmitterControlsInitialize` and
`TransmitterControlsStart`, and the runs of the router as sequences of atomic
steps of its tasks.

The UAVTalk transport, the UAVObject store, the PIOS drivers and the FreeRTOS
primitives are external to the file.  Their behaviour is a parameter
(`Externals`): deterministic state machines over an arbitrary state type `X`.
Every call the router makes to them is recorded, with its arguments and its
result, in a ghost `trace` so that theorems can count and inspect the calls.

Three smaller embeddings follow the definitions of the router: the mixer
curve widget (`MixerCurveWidget`), the board supply alarm of the battery
module (`Battery`) and the slot list of a signal (`CL_Signal_v3`).
-/

namespace TransmitterControls

/-! ## Constants of the module -/

/-- Timeout handed to every acknowledged transport operation: `#define REQ_TIMEOUT_MS 250`. -/
def REQ_TIMEOUT_MS : Nat := 250

/-- Bound of the send loops: `#define MAX_RETRIES 2`. -/
def MAX_RETRIES : Nat := 2

/-- Period of the poll event: `#define RECEIVER_READ_PERIOD_MS 50`. -/
def RECEIVER_READ_PERIOD_MS : Nat := 50

/-- Conversion of a C integer to `uint32_t`. -/
def wrap32 (z : Int) : Nat := (z % 4294967296).toNat

/-! ## Data model -/

/-- Tag of a queued event.  The enumeration is declared in the UAVObject
manager header; only the four labels of the `switch` in `processObjEvent`
are distinguished, every other value of the field is `EV_OTHER`. -/
inductive UAVObjEventType
  | EV_UPDATED
  | EV_UPDATED_MANUAL
  | EV_UPDATE_REQ
  | EV_TRANSMIT_REQ
  | EV_OTHER (code : Nat)
  deriving DecidableEq

/-- The queued event `UAVObjEvent`: object pointer (0 is the null pointer),
instance id and tag. -/
structure UAVObjEvent where
  obj : Nat
  instId : Nat
  event : UAVObjEventType
  deriving DecidableEq

/-- Result of the transport decoder after one byte.  Only
`UAVTALK_STATE_COMPLETE` is tested by the router. -/
inductive UAVTalkRxState
  | UAVTALK_STATE_COMPLETE
  | UAVTALK_STATE_ERROR
  | UAVTALK_STATE_OTHER (code : Nat)
  deriving DecidableEq

/-- Object metadata `UAVObjMetadata`: the two fields the module names and the
remaining ones kept opaque. -/
structure UAVObjMetadata where
  access : Nat
  telemetryAcked : Nat
  rest : List Nat
  deriving DecidableEq

/-- Connection argument given to `UAVTalkProcessInputStream`: either the
session handle `comm->com` or the address of that field, `&(comm->com)`, of
the link with the given index. -/
inductive ConnArg
  | handle (com : Nat)
  | addrOfCom (num : Nat)
  deriving DecidableEq

/-- Text sent to the debug port on a diagnostic tick. -/
inductive DebugOut
  | rcvrHeader
  | hexPair (old val : Nat)
  | newline
  deriving DecidableEq

/-- Ghost record of one call to an external collaborator, with the arguments
the router passed and the value it got back. -/
inductive Call
  | wdgUpdateFlag
  | sendObject (com obj instId acked timeout : Nat) (ret : Int)
  | sendObjectRequest (com obj instId timeout : Nat) (ret : Int)
  | sendPacket (com obj : Nat) (packet : List Nat) (ret : Int)
  | processInputStream (conn : ConnArg) (byte : Nat) (ret : UAVTalkRxState)
  | getPacket (com : Nat) (ret : Nat)
  | getMetadata (obj : Nat) (ret : UAVObjMetadata)
  | setMetadata (obj : Nat) (md : UAVObjMetadata)
  | gcsReceiverSet (channels : List Nat)
  | rcvrRead (group channel : Nat) (ret : Nat)
  | debugString (s : DebugOut)
  | freeHeapSize
  | comReceiveBuffer (port len timeout : Nat) (ret : List Nat)
  | comSendBuffer (port : Nat) (data : List Nat) (length : Int) (ret : Int)
  | queueSend (num : Nat) (ev : UAVObjEvent) (ok : Bool)
  | taskDelay (ticks : Nat)
  | gcsReceiverInitialize
  | initializeMultiBuffer (callback size buffers : Nat) (ret : Nat)
  | periodicQueueCreate (ev : UAVObjEvent) (num period : Nat)
  | adcConfig
  | queueReceive (num : Nat) (ev : UAVObjEvent)
  | wdgRegisterFlag
  | taskCreate (tx : Bool) (num : Nat)
  deriving DecidableEq

/-- Per-link state `struct RouterCommsStruct`.  The queue handle is identified
with the content of the queue it designates; `relay_comm` is the index in
`comms` the pointer refers to.  The semaphore and task handles are not used by
the embedded functions. -/
structure RouterComms where
  num : Nat
  port : Nat
  txqueue : List UAVObjEvent
  com : Nat
  relay_comm : Fin 2

/-- Byte memory of the packet buffers: the content found at each address. -/
abbrev Mem := Nat → List Nat

/-- The external collaborators and the constants declared outside the file.
`X` is the joint state of transport, object store and drivers.  The send
operations of the transport read the packet they are given and do not write
router-visible memory; the decoder may (it fills its receive buffer).  No
collaborator writes the static variables of the module.
`ppmGroup` stands for `pios_rcvr_group_map[MANUALCONTROLSETTINGS_CHANNELGROUPS_PPM]`,
`channelBits` for the width of the elements of `GCSReceiverData.Channel`
(declared in the generated object header), `GCSReceiverHandle` for the value
of `GCSReceiverHandle()`.  Return values of type `int32_t` are integers,
`uint32_t` values and pointers are naturals. -/
structure Externals (X : Type) where
  TELEM_QUEUE_SIZE : Nat
  GCSRECEIVER_CHANNEL_NUMELEM : Nat
  channelBits : Nat
  ACCESS_READWRITE : Nat
  ppmGroup : Nat
  GCSReceiverHandle : Nat
  PIOS_COM_TELEM_GCS : Nat
  PIOS_COM_TELEM_OUT : Nat
  UAVTalkSendObject : X → Nat → Nat → Nat → Nat → Nat → Int × X
  UAVTalkSendObjectRequest : X → Nat → Nat → Nat → Nat → Int × X
  UAVTalkSendPacket : X → Nat → Nat → List Nat → Int × X
  UAVTalkProcessInputStream : X → Mem → ConnArg → Nat → UAVTalkRxState × X × Mem
  UAVTalkGetPacket : X → Nat → Nat × X
  UAVTalkInitializeMultiBuffer : X → Nat → Nat → Nat → Nat × X
  UAVObjGetMetadata : X → Nat → UAVObjMetadata
  UAVObjSetMetadata : X → Nat → UAVObjMetadata → X
  GCSReceiverSet : X → List Nat → X
  PIOS_RCVR_Read : X → Nat → Nat → Nat
  PIOS_COM_ReceiveBuffer : X → Nat → Nat → Nat → List Nat × X
  PIOS_COM_SendBufferNonBlocking : X → Nat → List Nat → Int → Int × X

/-- Whole state the module acts on: its static variables (`cntr`, `txErrors`,
`txRetries`, `comms`), the packet memory, the state of the external
collaborators and the ghost trace of calls made so far. -/
structure World (X : Type) where
  cntr : Nat
  txErrors : Nat
  txRetries : Nat
  comms : Fin 2 → RouterComms
  mem : Mem
  ext : X
  trace : List Call

/-- Indeterminate content of the automatic variables `processObjEvent` reads
before writing them: the outer `metadata` and the array `rcvr.Channel`. -/
structure Stack where
  metadata : UAVObjMetadata
  rcvrChannel : Nat → Nat

variable {X : Type}

/-- The 32-bit static counters hold 32-bit values. -/
def World.wf (w : World X) : Prop :=
  w.cntr < 4294967296 ∧ w.txErrors < 4294967296 ∧ w.txRetries < 4294967296

/-- Append one record to the ghost trace. -/
def logCall (w : World X) (c : Call) : World X :=
  { w with trace := w.trace ++ [c] }

/-- A call that leaves the collaborators in state `x`, recorded as `c`. -/
def extCall (w : World X) (x : X) (c : Call) : World X :=
  { w with ext := x, trace := w.trace ++ [c] }

/-- Replace the packet memory. -/
def setMem (w : World X) (m : Mem) : World X :=
  { w with mem := m }

/-- Assign the static tick counter `cntr`. -/
def setCntr (w : World X) (n : Nat) : World X :=
  { w with cntr := n }

/-- Replace the link states. -/
def setComms (w : World X) (comms : Fin 2 → RouterComms) : World X :=
  { w with comms := comms }

/-- Store of a zero in the first byte of the buffer at `p`: `*((char*)p) = 0`. -/
def zeroFirstByte (m : Mem) (p : Nat) : Mem :=
  fun a => if a = p then (m a).set 0 0 else m a

/-- Replace the state of one link. -/
def setComm (comms : Fin 2 → RouterComms) (i : Fin 2) (r : RouterComms) : Fin 2 → RouterComms :=
  fun j => if j = i then r else comms j

/-- Modelled from the spec: the FreeRTOS queue primitive `xQueueSend` with a
zero wait is not among the sources; following "enqueue(event) -> bool (false
if queue full)" it appends at the tail when the queue holds fewer than
`capacity` events and otherwise fails leaving the queue as it was. -/
def xQueueSend (capacity : Nat) (q : List UAVObjEvent) (ev : UAVObjEvent) : Bool × List UAVObjEvent :=
  if q.length < capacity then (true, q ++ [ev]) else (false, q)

/-! ## The send loops of `processObjEvent` -/

/-- The loop `while (retries < MAX_RETRIES && success == -1) { success = body; ++retries; }`.
The first argument bounds the number of iterations; `retryLoop_exit` shows
that `MAX_RETRIES` iterations always reach the exit of the loop. -/
def retryLoop {W : Type} (body : W → Int × W) : Nat → Int → Int → W → Int × Int × W
  | 0, retries, success, w => (retries, success, w)
  | fuel + 1, retries, success, w =>
    if retries < (MAX_RETRIES : Int) ∧ success = -1 then
      retryLoop body fuel (retries + 1) (body w).1 (body w).2
    else (retries, success, w)

/-- One attempt `UAVTalkSendObject(com, obj, instId, acked, timeout)`. -/
def callSendObject (E : Externals X) (com obj instId acked timeout : Nat) (w : World X) :
    Int × World X :=
  let r := E.UAVTalkSendObject w.ext com obj instId acked timeout
  (r.1, extCall w r.2 (Call.sendObject com obj instId acked timeout r.1))

/-- One attempt `UAVTalkSendObjectRequest(com, obj, instId, timeout)`. -/
def callSendObjectRequest (E : Externals X) (com obj instId timeout : Nat) (w : World X) :
    Int × World X :=
  let r := E.UAVTalkSendObjectRequest w.ext com obj instId timeout
  (r.1, extCall w r.2 (Call.sendObjectRequest com obj instId timeout r.1))

/-- One iteration of the forward loop: `success = UAVTalkSendPacket(com, obj);
*((char*)obj) = 0;`.  The packet handed to the transport is the content of the
buffer at the time of the call. -/
def callSendPacket (E : Externals X) (com obj : Nat) (w : World X) : Int × World X :=
  let r := E.UAVTalkSendPacket w.ext com obj (w.mem obj)
  (r.1, setMem (extCall w r.2 (Call.sendPacket com obj (w.mem obj) r.1)) (zeroFirstByte w.mem obj))

/-- The statement `txRetries += (retries - 1);`. -/
def addRetries (w : World X) (retries : Int) : World X :=
  { w with txRetries := wrap32 ((w.txRetries : Int) + (retries - 1)) }

/-- The statement `if (success == -1) { ++txErrors; }`. -/
def countError (w : World X) (success : Int) : World X :=
  if success = -1 then { w with txErrors := wrap32 ((w.txErrors : Int) + 1) } else w

/-- The receiver loop of the poll branch, `for (i = 0; i < NUMELEM; ++i)`:
read input channel `i+1` of the PPM group, print on a diagnostic tick, store
in `rcvr.Channel[i]`.  First argument: iterations left. -/
def readChannels (E : Externals X) (debug : Bool) :
    Nat → Nat → (Nat → Nat) → World X → (Nat → Nat) × World X
  | 0, _, rcvr, w => (rcvr, w)
  | n + 1, i, rcvr, w =>
    let val := E.PIOS_RCVR_Read w.ext E.ppmGroup (i + 1) % 4294967296
    let w1 := logCall w (Call.rcvrRead E.ppmGroup (i + 1) val)
    let w2 := if debug then
        logCall (logCall w1 (Call.debugString (DebugOut.hexPair (rcvr i) val))) Call.freeHeapSize
      else w1
    readChannels E debug n (i + 1) (fun j => if j = i then val % 2 ^ E.channelBits else rcvr j) w2

/-- The poll branch of `processObjEvent` up to and including `GCSReceiverSet`:
tick counter, receiver read-out, metadata update and commit of the sample. -/
def pollSample (E : Externals X) (stk : Stack) (w : World X) : World X :=
  let debug : Bool := decide (w.cntr = 20)
  let w1 := setCntr w (wrap32 (((if w.cntr = 20 then 0 else w.cntr : Nat) : Int) + 1))
  let w2 := if debug then logCall w1 (Call.debugString DebugOut.rcvrHeader) else w1
  let rw := readChannels E debug E.GCSRECEIVER_CHANNEL_NUMELEM 0 stk.rcvrChannel w2
  let w3 := if debug then logCall rw.2 (Call.debugString DebugOut.newline) else rw.2
  let md := E.UAVObjGetMetadata w3.ext E.GCSReceiverHandle
  let w4 := logCall w3 (Call.getMetadata E.GCSReceiverHandle md)
  let md1 : UAVObjMetadata := { md with access := E.ACCESS_READWRITE }
  let w5 := extCall w4 (E.UAVObjSetMetadata w4.ext E.GCSReceiverHandle md1)
    (Call.setMetadata E.GCSReceiverHandle md1)
  let data := (List.range E.GCSRECEIVER_CHANNEL_NUMELEM).map rw.1
  extCall w5 (E.GCSReceiverSet w5.ext data) (Call.gcsReceiverSet data)

/-- The array `rcvr.Channel` at the end of the receiver loop of `pollSample`. -/
def pollChannels (E : Externals X) (stk : Stack) (w : World X) : Nat → Nat :=
  (readChannels E (decide (w.cntr = 20)) E.GCSRECEIVER_CHANNEL_NUMELEM 0 stk.rcvrChannel
    (if decide (w.cntr = 20) = true then
      logCall (setCntr w (wrap32 (((if w.cntr = 20 then 0 else w.cntr : Nat) : Int) + 1)))
        (Call.debugString DebugOut.rcvrHeader)
    else setCntr w (wrap32 (((if w.cntr = 20 then 0 else w.cntr : Nat) : Int) + 1)))).1

/-- The world `pollSample` is in just before it calls `GCSReceiverSet`. -/
def pollPrepared (E : Externals X) (stk : Stack) (w : World X) : World X :=
  let debug : Bool := decide (w.cntr = 20)
  let w1 := setCntr w (wrap32 (((if w.cntr = 20 then 0 else w.cntr : Nat) : Int) + 1))
  let w2 := if debug then logCall w1 (Call.debugString DebugOut.rcvrHeader) else w1
  let rw := readChannels E debug E.GCSRECEIVER_CHANNEL_NUMELEM 0 stk.rcvrChannel w2
  let w3 := if debug then logCall rw.2 (Call.debugString DebugOut.newline) else rw.2
  let md := E.UAVObjGetMetadata w3.ext E.GCSReceiverHandle
  let w4 := logCall w3 (Call.getMetadata E.GCSReceiverHandle md)
  let md1 : UAVObjMetadata := { md with access := E.ACCESS_READWRITE }
  extCall w4 (E.UAVObjSetMetadata w4.ext E.GCSReceiverHandle md1)
    (Call.setMetadata E.GCSReceiverHandle md1)

/-- The sample of a poll tick as it is stored in the receiver object: for each
channel `i` the value read from input channel `i + 1` of the PPM group,
converted to `uint32_t` and then to the type of the elements of `Channel`. -/
def pollData (E : Externals X) (x : X) : List Nat :=
  (List.range E.GCSRECEIVER_CHANNEL_NUMELEM).map
    (fun i => E.PIOS_RCVR_Read x E.ppmGroup (i + 1) % 4294967296 % 2 ^ E.channelBits)

/-- The tick counter after a poll tick that found it at `n`:
`if (cntr == 20) cntr = 0; ++cntr;`. -/
def nextCntr (n : Nat) : Nat :=
  wrap32 (((if n = 20 then 0 else n : Nat) : Int) + 1)

/-- The world `pollSample` is in after the receiver loop and, on a diagnostic
tick, the end of the printed line. -/
def pollRead (E : Externals X) (stk : Stack) (w : World X) : World X :=
  let debug : Bool := decide (w.cntr = 20)
  let w1 := setCntr w (nextCntr w.cntr)
  let w2 := if debug then logCall w1 (Call.debugString DebugOut.rcvrHeader) else w1
  let rw := readChannels E debug E.GCSRECEIVER_CHANNEL_NUMELEM 0 stk.rcvrChannel w2
  if debug then logCall rw.2 (Call.debugString DebugOut.newline) else rw.2

/-- The function `processObjEvent(ev, comm)`, `comm` being `comms + c`, compiled
with `RECEIVER_INPUT` defined as in the file. -/
def processObjEvent (E : Externals X) (stk : Stack) (ev : UAVObjEvent) (c : Fin 2)
    (w : World X) : World X :=
  let w0 := logCall w Call.wdgUpdateFlag
  let com := (w0.comms c).com
  if ev.obj = 0 then
    let r := retryLoop (callSendObject E com E.GCSReceiverHandle 0 0 REQ_TIMEOUT_MS)
      MAX_RETRIES 0 (-1) (pollSample E stk w0)
    addRetries r.2.2 r.1
  else
    match ev.event with
    | UAVObjEventType.EV_UPDATED | UAVObjEventType.EV_UPDATED_MANUAL =>
      let r := retryLoop
        (callSendObject E com ev.obj ev.instId stk.metadata.telemetryAcked REQ_TIMEOUT_MS)
        MAX_RETRIES 0 (-1) w0
      countError (addRetries r.2.2 r.1) r.2.1
    | UAVObjEventType.EV_UPDATE_REQ =>
      let r := retryLoop (callSendObjectRequest E com ev.obj ev.instId REQ_TIMEOUT_MS)
        MAX_RETRIES 0 (-1) w0
      countError (addRetries r.2.2 r.1) r.2.1
    | UAVObjEventType.EV_TRANSMIT_REQ =>
      let r := retryLoop (callSendPacket E com ev.obj) MAX_RETRIES 0 (-1) w0
      countError (addRetries r.2.2 r.1) r.2.1
    | UAVObjEventType.EV_OTHER _ => w0

/-- The list of calls `processObjEvent` adds to the trace for one event. -/
def dispatchLog (E : Externals X) (stk : Stack) (ev : UAVObjEvent) (c : Fin 2)
    (w : World X) : List Call :=
  (processObjEvent E stk ev c w).trace.drop w.trace.length

/-- Results of the transport send operations found in a list of calls, in
call order: one entry per attempt. -/
def sendResults : List Call → List Int
  | [] => []
  | Call.sendObject _ _ _ _ _ r :: cs => r :: sendResults cs
  | Call.sendObjectRequest _ _ _ _ r :: cs => r :: sendResults cs
  | Call.sendPacket _ _ _ r :: cs => r :: sendResults cs
  | _ :: cs => sendResults cs

/-- The packets handed to `UAVTalkSendPacket` in a list of calls, in call order. -/
def packetsHanded : List Call → List (List Nat)
  | [] => []
  | Call.sendPacket _ _ p _ :: cs => p :: packetsHanded cs
  | _ :: cs => packetsHanded cs

/-- The acknowledgement arguments given to `UAVTalkSendObject` in a list of
calls, in call order. -/
def ackArgs : List Call → List Nat
  | [] => []
  | Call.sendObject _ _ _ a _ _ :: cs => a :: ackArgs cs
  | _ :: cs => ackArgs cs

/-- The connection arguments of the decoder calls in a list of calls, in call order. -/
def decoderCalls : List Call → List ConnArg
  | [] => []
  | Call.processInputStream conn _ _ :: cs => conn :: decoderCalls cs
  | _ :: cs => decoderCalls cs

/-- Result and successor state of attempt number `n + 1` when `body` is
repeated from state `x`. -/
def nthAttempt {W : Type} (body : W → Int × W) : Nat → W → Int × W
  | 0, x => body x
  | n + 1, x => nthAttempt body n (body x).2

/-- Statistics visible through a link handle.  `RouterCommsStruct` has no
counter field: the only counters are the file-scope statics `txRetries` and
`txErrors`, so the snapshot of either link reads those two variables. -/
def linkStats (w : World X) (_link : Fin 2) : Nat × Nat :=
  (w.txRetries, w.txErrors)

/-- The tags `processObjEvent` sends through the transport when the object is
not null: the four `case` labels of its `switch`. -/
def UAVObjEventType.isSent : UAVObjEventType → Bool
  | UAVObjEventType.EV_OTHER _ => false
  | _ => true

/-- The transport fails the first `k` attempts of the object send with the
given arguments, started in state `x`, and succeeds at attempt `k + 1`. -/
def failsThenSucceeds (E : Externals X) (com obj instId acked : Nat) (k : Nat) (x : X) : Prop :=
  (∀ i, i < k →
    (nthAttempt (fun y => E.UAVTalkSendObject y com obj instId acked REQ_TIMEOUT_MS) i x).1 = -1) ∧
  (nthAttempt (fun y => E.UAVTalkSendObject y com obj instId acked REQ_TIMEOUT_MS) k x).1 ≠ -1

/-- Frame relation used in the proofs: `b` is reached from `a` by calls none
of which is a transport send, leaving the counters, the links and the packet
memory as they were. -/
def Quiet (a b : World X) : Prop :=
  ∃ l, b.trace = a.trace ++ l ∧ sendResults l = [] ∧ b.txRetries = a.txRetries ∧
    b.txErrors = a.txErrors ∧ b.comms = a.comms ∧ b.mem = a.mem

/-! ## Receive task, transmit task, send callback, initialisation -/

/-- Body of the `for` loop of `transmitterRxTask` for one received byte. -/
def rxByte (E : Externals X) (c : Fin 2) (b : Nat) (w : World X) : World X :=
  let com := (w.comms c).com
  let relay := (w.comms c).relay_comm
  let r1 := E.UAVTalkProcessInputStream w.ext w.mem (ConnArg.addrOfCom c.val) b
  let w1 := setMem (extCall w r1.2.1 (Call.processInputStream (ConnArg.addrOfCom c.val) b r1.1)) r1.2.2
  let r2 := E.UAVTalkProcessInputStream w1.ext w1.mem (ConnArg.handle com) b
  let w2 := setMem (extCall w1 r2.2.1 (Call.processInputStream (ConnArg.handle com) b r2.1)) r2.2.2
  if r2.1 = UAVTalkRxState.UAVTALK_STATE_COMPLETE then
    let p := E.UAVTalkGetPacket w2.ext com
    let ev : UAVObjEvent := { obj := p.1, instId := 0, event := UAVObjEventType.EV_TRANSMIT_REQ }
    let q := xQueueSend E.TELEM_QUEUE_SIZE (w2.comms relay).txqueue ev
    let w3 := extCall w2 p.2 (Call.getPacket com p.1)
    let w4 := logCall
      (setComms w3 (setComm w3.comms relay { (w3.comms relay) with txqueue := q.2 }))
      (Call.queueSend relay.val ev q.1)
    if q.1 = true then w4 else setMem w4 (zeroFirstByte w4.mem p.1)
  else w2

/-- What the decoder answers in `rxByte` to the call on the session handle of
link `c` for byte `b` (the call whose result is stored in `state`): the
reported state, and the collaborator state and memory it leaves. -/
def sessionDecode (E : Externals X) (c : Fin 2) (b : Nat) (w : World X) :
    UAVTalkRxState × X × Mem :=
  let r1 := E.UAVTalkProcessInputStream w.ext w.mem (ConnArg.addrOfCom c.val) b
  E.UAVTalkProcessInputStream r1.2.1 r1.2.2 (ConnArg.handle (w.comms c).com) b

/-- The calls `rxByte` adds to the trace for one byte. -/
def rxByteLog (E : Externals X) (c : Fin 2) (b : Nat) (w : World X) : List Call :=
  (rxByte E c b w).trace.drop w.trace.length

/-- The world `rxByte` is in after its two decoder calls for byte `b`. -/
def rxDecoded (E : Externals X) (c : Fin 2) (b : Nat) (w : World X) : World X :=
  setMem (extCall (setMem (extCall w
      (E.UAVTalkProcessInputStream w.ext w.mem (ConnArg.addrOfCom c.val) b).2.1
      (Call.processInputStream (ConnArg.addrOfCom c.val) b
        (E.UAVTalkProcessInputStream w.ext w.mem (ConnArg.addrOfCom c.val) b).1))
      (E.UAVTalkProcessInputStream w.ext w.mem (ConnArg.addrOfCom c.val) b).2.2)
      (sessionDecode E c b w).2.1
      (Call.processInputStream (ConnArg.handle (w.comms c).com) b (sessionDecode E c b w).1))
    (sessionDecode E c b w).2.2

/-- The forward event `rxByte` builds when the decoder reports a complete
packet: `ev.obj = UAVTalkGetPacket(comm->com); ev.instId = 0; ev.event = EV_TRANSMIT_REQ`. -/
def rxForwardEvent (E : Externals X) (c : Fin 2) (b : Nat) (w : World X) : UAVObjEvent :=
  { obj := (E.UAVTalkGetPacket (sessionDecode E c b w).2.1 (w.comms c).com).1,
    instId := 0, event := UAVObjEventType.EV_TRANSMIT_REQ }

/-- The world `rxByte` is in after `UAVTalkGetPacket`, before the hand-over to
the queue of the relay peer. -/
def rxGotPacket (E : Externals X) (c : Fin 2) (b : Nat) (w : World X) : World X :=
  extCall (rxDecoded E c b w)
    (E.UAVTalkGetPacket (sessionDecode E c b w).2.1 (w.comms c).com).2
    (Call.getPacket (w.comms c).com
      (E.UAVTalkGetPacket (sessionDecode E c b w).2.1 (w.comms c).com).1)

/-- One iteration of the `while (1)` loop of `transmitterRxTask`; `inputPort`
is the value of `comm->port` captured when the task started.  The receive
buffer `serial_data` holds one byte. -/
def transmitterRxTaskIter (E : Externals X) (c : Fin 2) (inputPort : Nat) (w : World X) :
    World X :=
  if inputPort ≠ 0 then
    let r := E.PIOS_COM_ReceiveBuffer w.ext inputPort 1 500
    let serial_data := r.1.take 1
    let w1 := extCall w r.2 (Call.comReceiveBuffer inputPort 1 500 serial_data)
    serial_data.foldl (fun v b => rxByte E c b v) w1
  else logCall w (Call.taskDelay 5)

/-- The first `n` iterations of the task loop with a captured port. -/
def rxTaskRun (E : Externals X) (c : Fin 2) (inputPort : Nat) : Nat → World X → World X
  | 0, w => w
  | n + 1, w => rxTaskRun E c inputPort n (transmitterRxTaskIter E c inputPort w)

/-- The first `n` iterations of `transmitterRxTask(comms + c)`. -/
def transmitterRxTask (E : Externals X) (c : Fin 2) (n : Nat) (w : World X) : World X :=
  rxTaskRun E c (w.comms c).port n w

/-- One iteration of the loop of `transmitterTxTask(comms + c)`: take the event
at the head of the link's own queue (`xQueueReceive`, recorded in the trace)
and process it.  On an empty queue `xQueueReceive` blocks and nothing happens. -/
def transmitterTxTaskIter (E : Externals X) (stk : Stack) (c : Fin 2) (w : World X) : World X :=
  match (w.comms c).txqueue with
  | [] => w
  | ev :: rest =>
    processObjEvent E stk ev c
      (logCall (setComms w (setComm w.comms c { (w.comms c) with txqueue := rest }))
        (Call.queueReceive c.val ev))

/-- The send callback `transmitData(comms + c, data, length)`.  The driver is
given the buffer found at `data` and the length. -/
def transmitData (E : Externals X) (c : Fin 2) (data : Nat) (length : Int) (w : World X) :
    Int × World X :=
  let outputPort := (w.comms c).port
  if outputPort ≠ 0 then
    let r := E.PIOS_COM_SendBufferNonBlocking w.ext outputPort (w.mem data) length
    (r.1, extCall w r.2 (Call.comSendBuffer outputPort (w.mem data) length r.1))
  else (-1, w)

/-- The callback `transmitData1`. -/
def transmitData1 (E : Externals X) (data : Nat) (length : Int) (w : World X) : Int × World X :=
  transmitData E 0 data length w

/-- The callback `transmitData2`. -/
def transmitData2 (E : Externals X) (data : Nat) (length : Int) (w : World X) : Int × World X :=
  transmitData E 1 data length w

/-- The function `TransmitterControlsInitialize`.  Callbacks are named by their
number (1 for `transmitData1`, 2 for `transmitData2`); the periodic event is
the all-zero event. -/
def TransmitterControlsInitialize (E : Externals X) (w : World X) : Int × World X :=
  let c0 := E.UAVTalkInitializeMultiBuffer w.ext 1 256 3
  let c1 := E.UAVTalkInitializeMultiBuffer c0.2 2 256 3
  let ev : UAVObjEvent := { obj := 0, instId := 0, event := UAVObjEventType.EV_OTHER 0 }
  let link0 : RouterComms :=
    { num := 0, port := E.PIOS_COM_TELEM_GCS, txqueue := [], com := c0.1, relay_comm := 1 }
  let link1 : RouterComms :=
    { num := 1, port := E.PIOS_COM_TELEM_OUT, txqueue := [], com := c1.1, relay_comm := 0 }
  (0, { w with comms := fun i => if i = 0 then link0 else link1,
               ext := c1.2,
               trace := w.trace ++ [Call.gcsReceiverInitialize,
                 Call.initializeMultiBuffer 1 256 3 c0.1,
                 Call.initializeMultiBuffer 2 256 3 c1.1,
                 Call.periodicQueueCreate ev 1 RECEIVER_READ_PERIOD_MS,
                 Call.adcConfig] })

/-- The function `TransmitterControlsStart`: register the watchdog flag and
create the four tasks, a transmit and a receive task with parameter `comms`
and a transmit and a receive task with parameter `comms + 1`. -/
def TransmitterControlsStart (w : World X) : Int × World X :=
  (0, logCall (logCall (logCall (logCall (logCall w Call.wdgRegisterFlag)
    (Call.taskCreate true 0)) (Call.taskCreate false 0)) (Call.taskCreate true 1))
    (Call.taskCreate false 1))

/-- State of the module when the program starts: the statics are zero (`cntr`,
`txErrors`, `txRetries`, the array `comms`, whose null peer pointers are
replaced by `TransmitterControlsInitialize` before any use), nothing has
been called yet. -/
def startWorld (x : X) (m : Mem) : World X :=
  { cntr := 0, txErrors := 0, txRetries := 0,
    comms := fun _ => { num := 0, port := 0, txqueue := [], com := 0, relay_comm := 0 },
    mem := m, ext := x, trace := [] }

/-- Modelled from the spec: a producer outside the file (the change
notification of the object store, the periodic event created by
`TransmitterControlsInitialize`) hands an event to the queue of link `c`;
following "enqueue(event) -> bool (false if queue full)" the event is accepted
at the tail or dropped. -/
def produce (E : Externals X) (c : Fin 2) (ev : UAVObjEvent) (w : World X) : World X :=
  logCall
    (setComms w (setComm w.comms c
      { (w.comms c) with
        txqueue := (xQueueSend E.TELEM_QUEUE_SIZE (w.comms c).txqueue ev).2 }))
    (Call.queueSend c.val ev (xQueueSend E.TELEM_QUEUE_SIZE (w.comms c).txqueue ev).1)

/-- One atomic step of the running router: an iteration of the transmit task
of a link, an iteration of the receive task of a link (with the port it
captured), an event handed in by an outside producer, or a call of the send
callback of a link by the transport. -/
inductive RouterStep
  | txIter (stk : Stack) (c : Fin 2)
  | rxIter (c : Fin 2) (inputPort : Nat)
  | produce (c : Fin 2) (ev : UAVObjEvent)
  | send (c : Fin 2) (data : Nat) (length : Int)

/-- Effect of one step. -/
def routerStep (E : Externals X) (w : World X) : RouterStep → World X
  | RouterStep.txIter stk c => transmitterTxTaskIter E stk c w
  | RouterStep.rxIter c inputPort => transmitterRxTaskIter E c inputPort w
  | RouterStep.produce c ev => produce E c ev w
  | RouterStep.send c data length => (transmitData E c data length w).2

/-- Effect of a sequence of steps, in order. -/
def runSteps (E : Externals X) (w : World X) (steps : List RouterStep) : World X :=
  steps.foldl (routerStep E) w

/-- The events accepted by the queue of link `num` in a list of calls, in call
order: the successful `xQueueSend` calls on that queue. -/
def accepted (num : Nat) : List Call → List UAVObjEvent
  | [] => []
  | Call.queueSend n ev ok :: cs =>
    if n = num ∧ ok = true then ev :: accepted num cs else accepted num cs
  | _ :: cs => accepted num cs

/-- The events taken from the queue of link `num` by its transmit task in a
list of calls, in call order: the `xQueueReceive` calls on that queue. -/
def received (num : Nat) : List Call → List UAVObjEvent
  | [] => []
  | Call.queueReceive n ev :: cs => if n = num then ev :: received num cs else received num cs
  | _ :: cs => received num cs

/-- Every `xQueueSend` attempt found in a list of calls: queue, event, success. -/
def queueSends : List Call → List (Nat × UAVObjEvent × Bool)
  | [] => []
  | Call.queueSend n ev ok :: cs => (n, ev, ok) :: queueSends cs
  | _ :: cs => queueSends cs

/-- The port reads found in a list of calls. -/
def portReads : List Call → List Nat
  | [] => []
  | Call.comReceiveBuffer port _ _ _ :: cs => port :: portReads cs
  | _ :: cs => portReads cs

/-- The records of queue operations. -/
def Call.isQueueOp : Call → Bool
  | Call.queueSend _ _ _ => true
  | Call.queueReceive _ _ => true
  | _ => false

/-- Frame relation used in the proofs: `b` is reached from `a` by calls none
of which is a queue operation, the links being left as they were. -/
def Calm (a b : World X) : Prop :=
  ∃ l, b.trace = a.trace ++ l ∧ (∀ x ∈ l, Call.isQueueOp x = false) ∧ b.comms = a.comms

/-- The calls one iteration of the transmit task adds to the trace. -/
def txIterLog (E : Externals X) (stk : Stack) (c : Fin 2) (w : World X) : List Call :=
  (transmitterTxTaskIter E stk c w).trace.drop w.trace.length

/-- Replace the two statistics counters. -/
def setStats (w : World X) (retries errors : Nat) : World X :=
  { w with txRetries := retries, txErrors := errors }

/-- The three send operations of the transport. -/
inductive SendKind
  | object
  | request
  | packet
  deriving DecidableEq

/-- The transport sends found in a list of calls, in call order, each with its
kind, the session it was made on, the object and, where the operation has
one, the instance id and the timeout. -/
def sendOps : List Call → List (SendKind × Nat × Nat × Option Nat × Option Nat)
  | [] => []
  | Call.sendObject com obj instId _ timeout _ :: cs =>
    (SendKind.object, com, obj, some instId, some timeout) :: sendOps cs
  | Call.sendObjectRequest com obj instId timeout _ :: cs =>
    (SendKind.request, com, obj, some instId, some timeout) :: sendOps cs
  | Call.sendPacket com obj _ _ :: cs => (SendKind.packet, com, obj, none, none) :: sendOps cs
  | _ :: cs => sendOps cs

/-- The ports written through the port driver in a list of calls. -/
def portWrites : List Call → List Nat
  | [] => []
  | Call.comSendBuffer port _ _ _ :: cs => port :: portWrites cs
  | _ :: cs => portWrites cs

/-- The calls made only on a diagnostic tick: the strings sent to the debug
port and the query of the free heap size. -/
def Call.isDebug : Call → Bool
  | Call.debugString _ => true
  | Call.freeHeapSize => true
  | _ => false

/-- A list of calls without the calls of the diagnostic mode. -/
def nonDebug (l : List Call) : List Call :=
  l.filter (fun x => !Call.isDebug x)

/-- The strings sent to the debug port in a list of calls. -/
def debugOutput : List Call → List DebugOut
  | [] => []
  | Call.debugString d :: cs => d :: debugOutput cs
  | _ :: cs => debugOutput cs

/-- The channel values committed to the object store in a list of calls. -/
def committed : List Call → List (List Nat)
  | [] => []
  | Call.gcsReceiverSet data :: cs => data :: committed cs
  | _ :: cs => committed cs

/-- Frame relation used in the proofs: `b` is reached from `a` by calls that
all satisfy `P`. -/
def Logged (P : Call → Prop) (a b : World X) : Prop :=
  ∃ l, b.trace = a.trace ++ l ∧ ∀ x ∈ l, P x

/-- Relation used in the proofs: two states agree on the links, the memory,
the collaborators and on what is left of their traces by `f`. -/
def Alike (f : List Call → List Call) (a b : World X) : Prop :=
  a.comms = b.comms ∧ a.mem = b.mem ∧ a.ext = b.ext ∧ f a.trace = f b.trace

/-- A sequence of dispatches: each event is processed on its link with the
stack content found at the time. -/
def dispatchAll (E : Externals X) (w : World X) (evs : List (Stack × UAVObjEvent × Fin 2)) :
    World X :=
  evs.foldl (fun v e => processObjEvent E e.1 e.2.1 e.2.2 v) w

/-- Number of poll ticks (events with a null object) in a sequence of dispatches. -/
def pollCount (evs : List (Stack × UAVObjEvent × Fin 2)) : Nat :=
  (evs.filter (fun e => decide (e.2.1.obj = 0))).length

/-- The calls `transmitData` adds to the trace. -/
def transmitLog (E : Externals X) (c : Fin 2) (data : Nat) (length : Int) (w : World X) :
    List Call :=
  (transmitData E c data length w).2.trace.drop w.trace.length

/-! ## Test doubles used to evaluate the module on concrete inputs -/

/-- State of the scripted collaborators: results the next transport sends
return (every send fails with -1 once the script is used up), bytes waiting at
the port, bytes gathered by the decoder, and the `telemetryAcked` flag the
object store reports. -/
structure StubState where
  script : List Int
  input : List Nat
  rx : List Nat
  acked : Nat
  deriving DecidableEq

/-- Result of the next scripted send and the state after it. -/
def StubState.pop (x : StubState) : Int × StubState :=
  (x.script.headD (-1), { x with script := x.script.tail })

/-- Scripted collaborators.  The port delivers the waiting bytes.  The decoder
gathers the bytes given on a session handle, reports a complete packet on the fourth byte and places it at address
500; a call on anything that is not a session handle is rejected and changes
nothing.  Queues hold `cap` events. -/
def stubExt (cap : Nat) : Externals StubState where
  TELEM_QUEUE_SIZE := cap
  GCSRECEIVER_CHANNEL_NUMELEM := 2
  channelBits := 16
  ACCESS_READWRITE := 0
  ppmGroup := 7
  GCSReceiverHandle := 900
  PIOS_COM_TELEM_GCS := 1
  PIOS_COM_TELEM_OUT := 2
  UAVTalkSendObject := fun x _ _ _ _ _ => x.pop
  UAVTalkSendObjectRequest := fun x _ _ _ _ => x.pop
  UAVTalkSendPacket := fun x _ _ _ => x.pop
  UAVTalkProcessInputStream := fun x m conn b =>
    match conn with
    | ConnArg.addrOfCom _ => (UAVTalkRxState.UAVTALK_STATE_ERROR, x, m)
    | ConnArg.handle _ =>
      if (x.rx ++ [b]).length = 4 then
        (UAVTalkRxState.UAVTALK_STATE_COMPLETE, { x with rx := [] },
          fun a => if a = 500 then x.rx ++ [b] else m a)
      else (UAVTalkRxState.UAVTALK_STATE_OTHER 1, { x with rx := x.rx ++ [b] }, m)
  UAVTalkGetPacket := fun x _ => (500, x)
  UAVTalkInitializeMultiBuffer := fun x cb _ _ => (10 + cb, x)
  UAVObjGetMetadata := fun x _ => { access := 1, telemetryAcked := x.acked, rest := [] }
  UAVObjSetMetadata := fun x _ _ => x
  GCSReceiverSet := fun x _ => x
  PIOS_RCVR_Read := fun _ _ ch => 1000 + ch
  PIOS_COM_ReceiveBuffer := fun x _ len _ => (x.input.take len, { x with input := x.input.drop len })
  PIOS_COM_SendBufferNonBlocking := fun x _ _ _ => (0, x)

/-- Stack content used in the evaluations: `telemetryAcked` happens to be 0. -/
def stubStack : Stack :=
  { metadata := { access := 0, telemetryAcked := 0, rest := [] }, rcvrChannel := fun _ => 0 }

/-- State of the module before initialisation, with the packet
`[0xAA, 0x01, 0x00, 0xBB]` in the buffer at address 100 and the same four
bytes waiting at the port. -/
def bootWorld (script : List Int) : World StubState :=
  { cntr := 0, txErrors := 0, txRetries := 0,
    comms := fun _ => { num := 0, port := 0, txqueue := [], com := 0, relay_comm := 0 },
    mem := fun a => if a = 100 then [170, 1, 0, 187] else [],
    ext := { script := script, input := [170, 1, 0, 187], rx := [], acked := 1 },
    trace := [] }

/-- State of the module after `TransmitterControlsInitialize` with a send script. -/
def stubWorld (script : List Int) : World StubState :=
  (TransmitterControlsInitialize (stubExt 4) (bootWorld script)).2

/-- An object-change event on the object at address 100. -/
def evUpdated : UAVObjEvent :=
  { obj := 100, instId := 0, event := UAVObjEventType.EV_UPDATED }

/-- An update-request event on the object at address 100. -/
def evRequest : UAVObjEvent :=
  { obj := 100, instId := 0, event := UAVObjEventType.EV_UPDATE_REQ }

/-- A forward event carrying the packet buffer at address 100. -/
def evForward : UAVObjEvent :=
  { obj := 100, instId := 0, event := UAVObjEventType.EV_TRANSMIT_REQ }

/-- The poll tick: the all-zero event registered by `TransmitterControlsInitialize`. -/
def evPoll : UAVObjEvent :=
  { obj := 0, instId := 0, event := UAVObjEventType.EV_OTHER 0 }

/-- Another possible stack content: `telemetryAcked` happens to be 1. -/
def stubStackAcked : Stack :=
  { metadata := { access := 0, telemetryAcked := 1, rest := [] }, rcvrChannel := fun _ => 0 }

/-- State reached from the initialised module when the receive task of link 0
has processed the bytes `0xAA, 0x01, 0x00`. -/
def afterThreeBytes : World StubState :=
  [170, 1, 0].foldl (fun v b => rxByte (stubExt 4) 0 b v) (stubWorld [])

/-- Scripted collaborators with the ground-station telemetry port not
configured: the port of link 0 is the disabled sentinel 0. -/
def stubExtNoGcs (cap : Nat) : Externals StubState :=
  { stubExt cap with PIOS_COM_TELEM_GCS := 0 }

/-- State of the module after `TransmitterControlsInitialize` when the port of
link 0 is disabled. -/
def disabledWorld (script : List Int) : World StubState :=
  (TransmitterControlsInitialize (stubExtNoGcs 4) (bootWorld script)).2

/-- State in which the queue of link 1, of capacity 1, is full (it holds an
object-change event handed in by a producer) and the receive task of link 0
has processed the bytes `0xAA, 0x01, 0x00`. -/
def fullQueueWorld : World StubState :=
  [170, 1, 0].foldl (fun v b => rxByte (stubExt 1) 0 b v)
    (produce (stubExt 1) 1 evUpdated (TransmitterControlsInitialize (stubExt 1) (bootWorld [])).2)

/-- A run of the router: a producer hands two events to link 1 and one to
link 0, the receive task of link 0 reads the four waiting bytes, the transmit
task of link 1 runs twice and that of link 0 once. -/
def sampleRun : List RouterStep :=
  [RouterStep.produce 1 evUpdated, RouterStep.produce 1 evPoll, RouterStep.produce 0 evRequest,
    RouterStep.rxIter 0 1, RouterStep.txIter stubStack 1, RouterStep.rxIter 0 1,
    RouterStep.rxIter 0 1, RouterStep.rxIter 0 1, RouterStep.txIter stubStack 0,
    RouterStep.txIter stubStack 1, RouterStep.send 1 100 4]

end TransmitterControls

/-! ## Mixer curve widget of `ground/openpilotgcs/src/plugins/uavobjectwidgetutils/mixercurvewidget.cpp`

The `double` and `qreal` values are taken as rationals: every operation is
exact.  A division is meaningful when its divisor is not zero, which the
statements about the widget assume of the range and of the plot height. -/

namespace MixerCurveWidget

/-- Modelled from the spec: the class `Node` (`mixercurvepoint.h`) is not
among the sources; a node is taken to be the position last given to `setPos`,
which `pos()` returns. -/
structure Node where
  x : ℚ
  y : ℚ
  deriving DecidableEq

/-- The members of the widget the embedded functions read or write: the range
`curveMin`, `curveMax`, the width and height of `plot->boundingRect()`, and
`nodeList`. -/
structure Widget where
  curveMin : ℚ
  curveMax : ℚ
  plotWidth : ℚ
  plotHeight : ℚ
  nodeList : List Node
  deriving DecidableEq

/-- The two statements `if (val>curveMax) val=curveMax; if (val<curveMin) val=curveMin;`. -/
def clampVal (s : Widget) (val : ℚ) : ℚ :=
  let val1 := if val > s.curveMax then s.curveMax else val
  if val1 < s.curveMin then s.curveMin else val1

/-- The quotient `plot->boundingRect().width()/(points.length()-1)`; the
subtraction is on `int`. -/
def nodeSpacing (s : Widget) (points : List ℚ) : ℚ :=
  s.plotWidth / (((points.length : Int) - 1 : Int) : ℚ)

/-- The function `MixerCurveWidget::initCurve(points)`: with fewer than two points
nothing changes; otherwise the node list is emptied and one node is created
per point, at `(w*i, h-val*h)` where `val` is the point clamped to the range,
then `val+=curveMin; val/=(curveMax-curveMin);`. -/
def initCurve (s : Widget) (points : List ℚ) : Widget :=
  if points.length < 2 then s
  else
    { s with
      nodeList := points.enum.map (fun ip =>
        { x := nodeSpacing s points * (ip.1 : ℚ),
          y := s.plotHeight -
            (clampVal s ip.2 + s.curveMin) / (s.curveMax - s.curveMin) * s.plotHeight }) }

/-- The function `MixerCurveWidget::getCurve()`: for each node, in list order,
`((curveMax-curveMin)*(h-node->pos().y())/h)+curveMin`. -/
def getCurve (s : Widget) : List ℚ :=
  s.nodeList.map (fun node =>
    ((s.curveMax - s.curveMin) * (s.plotHeight - node.y) / s.plotHeight) + s.curveMin)

/-- The function `MixerCurveWidget::setCurve(points)`: with an empty node list it is
`initCurve`; otherwise node `i` is moved to `(w*i, h-val*h)` for each point
`i`, where `val` is the point clamped to the range, then
`val-=curveMin; val/=(curveMax-curveMin);`.  There is no result when
`nodeList.at(i)` is out of range. -/
def setCurve (s : Widget) (points : List ℚ) : Option Widget :=
  if s.nodeList.length < 1 then some (initCurve s points)
  else
    (points.enum.foldl (fun (acc : Option (List Node)) ip =>
        acc.bind (fun l =>
          if ip.1 < l.length then
            some (l.set ip.1
              { x := nodeSpacing s points * (ip.1 : ℚ),
                y := s.plotHeight -
                  (clampVal s ip.2 - s.curveMin) / (s.curveMax - s.curveMin) * s.plotHeight })
          else none))
      (some s.nodeList)).map (fun l => { s with nodeList := l })

/-- The function `MixerCurveWidget::setRange(min, max)`. -/
def setRange (s : Widget) (min max : ℚ) : Widget :=
  { s with curveMin := min, curveMax := max }

/-- The widget as the constructor leaves it, `curveMin=0.0; curveMax=1.0;` and
no node, with a plot of the given size. -/
def newWidget (width height : ℚ) : Widget :=
  { curveMin := 0, curveMax := 1, plotWidth := width, plotHeight := height, nodeList := [] }

end MixerCurveWidget

/-! ## Board supply alarm of `flight/Modules/Battery/battery.c` -/

namespace Battery

/-- The constant `BATTERY_BOARD_VOLTAGE_WARNING`, 4.5. -/
def BATTERY_BOARD_VOLTAGE_WARNING : ℚ := 9 / 2

/-- The constant `BATTERY_BOARD_VOLTAGE_CRITICAL`, 3.5. -/
def BATTERY_BOARD_VOLTAGE_CRITICAL : ℚ := 7 / 2

/-- The constant `BATTERY_BOARD_VOLTAGE_ERROR`, 1.0. -/
def BATTERY_BOARD_VOLTAGE_ERROR : ℚ := 1

/-- Severities given to `AlarmsSet` by `onTimer`. -/
inductive Severity
  | SYSTEMALARMS_ALARM_WARNING
  | SYSTEMALARMS_ALARM_CRITICAL
  | SYSTEMALARMS_ALARM_ERROR
  deriving DecidableEq

/-- A call on the alarm `SYSTEMALARMS_ALARM_POWER`: `AlarmsSet` with a severity
or `AlarmsClear`. -/
inductive PowerAlarm
  | AlarmsSet (severity : Severity)
  | AlarmsClear
  deriving DecidableEq

/-- The static variables of `onTimer` that its statements on the board supply
read or write: the field `BoardSupplyVoltage` of `flightBatteryData` and the
two flags.  A `float` that is a number is a rational. -/
structure Statics where
  BoardSupplyVoltage : ℚ
  BoardPowerWarning : Bool
  BoardPowerOk : Bool
  deriving DecidableEq

/-- What one tick finds: whether `HAS_SENSOR(FLIGHTBATTERYSETTINGS_SENSORTYPE_BOARDVOLTAGE)`
holds in the settings it reads, and the value of
`((float)PIOS_ADC_PinGet(4)) * PIOS_ADC_VOLTAGE_SCALE * 6.1` as stored in a `float`. -/
structure Tick where
  hasBoardSensor : Bool
  boardVolts : ℚ
  deriving DecidableEq

/-- The statics when the program starts: zero-initialised data, both flags
`false`. -/
def startStatics : Statics :=
  { BoardSupplyVoltage := 0, BoardPowerWarning := false, BoardPowerOk := false }

/-- The function `onTimer`, its statements on the board supply: the assignment to
`BoardSupplyVoltage` and the last `if` of the function.  The statements in
between compute the battery voltage, current and flight time and set the
alarms `BATTERY` and `FLIGHTTIME`; they neither read nor write the three
variables of `Statics` and make no call on the alarm `POWER`.  The result is
the statics after the tick and the calls made on the alarm `POWER`. -/
def onTimer (s : Statics) (t : Tick) : Statics × List PowerAlarm :=
  let v : ℚ := if t.hasBoardSensor then t.boardVolts else -1
  if t.hasBoardSensor then
    if v ≠ -1 ∧ v < BATTERY_BOARD_VOLTAGE_ERROR then
      ({ BoardSupplyVoltage := v, BoardPowerWarning := false, BoardPowerOk := false },
        [PowerAlarm.AlarmsSet Severity.SYSTEMALARMS_ALARM_ERROR])
    else if s.BoardPowerOk = true ∧ v < BATTERY_BOARD_VOLTAGE_CRITICAL then
      ({ BoardSupplyVoltage := v, BoardPowerWarning := true, BoardPowerOk := s.BoardPowerOk },
        [PowerAlarm.AlarmsSet Severity.SYSTEMALARMS_ALARM_CRITICAL])
    else if s.BoardPowerOk = true ∧ v < BATTERY_BOARD_VOLTAGE_WARNING then
      ({ BoardSupplyVoltage := v, BoardPowerWarning := true, BoardPowerOk := s.BoardPowerOk },
        [PowerAlarm.AlarmsSet Severity.SYSTEMALARMS_ALARM_WARNING])
    else
      ({ BoardSupplyVoltage := v, BoardPowerWarning := s.BoardPowerWarning,
          BoardPowerOk := s.BoardPowerOk || decide (v > BATTERY_BOARD_VOLTAGE_WARNING) },
        [if s.BoardPowerWarning = true then
            PowerAlarm.AlarmsSet Severity.SYSTEMALARMS_ALARM_WARNING
          else PowerAlarm.AlarmsClear])
  else
    ({ BoardSupplyVoltage := v, BoardPowerWarning := s.BoardPowerWarning,
        BoardPowerOk := s.BoardPowerOk }, [])

/-- The statics after a sequence of ticks. -/
def runTicks (s : Statics) (ticks : List Tick) : Statics :=
  ticks.foldl (fun v t => (onTimer v t).1) s

/-- The test `BoardSupplyVoltage != -1 && BoardSupplyVoltage < BATTERY_BOARD_VOLTAGE_ERROR`
on the value a tick with the sensor enabled reads. -/
def Tick.isErrorReading (t : Tick) : Prop :=
  t.hasBoardSensor = true ∧ t.boardVolts ≠ -1 ∧ t.boardVolts < BATTERY_BOARD_VOLTAGE_ERROR

/-- Ticks used in the evaluations: the supply reads 5.0 V, then 0.5 V. -/
def sampleReset : List Tick :=
  [{ hasBoardSensor := true, boardVolts := 5 }, { hasBoardSensor := true, boardVolts := 1 / 2 }]

/-- Ticks used in the evaluations: the supply reads 2.0 V, then 4.0 V. -/
def sampleLow : List Tick :=
  [{ hasBoardSensor := true, boardVolts := 2 }, { hasBoardSensor := true, boardVolts := 4 }]

/-- A tick used in the evaluations: the supply reads 3.0 V. -/
def sampleTick : Tick :=
  { hasBoardSensor := true, boardVolts := 3 }

end Battery

/-! ## Slot list of `iosgcs/core/src/signals/signal_v3.h` -/

namespace CL_Signal_v3

/-- The class `CL_SlotCallback` of `signals_impl.h`: the flags `valid` and `enabled`.
The field `ident` tells the callback objects apart. -/
structure CL_SlotCallback where
  ident : Nat
  valid : Bool
  enabled : Bool
  deriving DecidableEq

/-- The callback object a `connect` creates: the constructor sets `valid(true)`
and `enabled(true)`. -/
def newCallback (ident : Nat) : CL_SlotCallback :=
  { ident := ident, valid := true, enabled := true }

/-- The loop of `clean_up` from the test `i < size` on.  `i` and `size` are of
the unsigned type `size_type`, of `bits` bits: `i--` and `size--` wrap at
zero and `i++` wraps at the top.  The first argument bounds the number of
tests; there is no result when it is used up or when `connected_slots[i]` is
out of range. -/
def cleanUpLoop (bits : Nat) : Nat → List CL_SlotCallback → Nat → Nat →
    Option (List CL_SlotCallback)
  | 0, _, _, _ => none
  | fuel + 1, slots, i, size =>
    if i < size then
      match slots[i]? with
      | none => none
      | some slot =>
        if slot.valid = false then
          cleanUpLoop bits fuel (slots.eraseIdx i)
            (((i + 2 ^ bits - 1) % 2 ^ bits + 1) % 2 ^ bits) ((size + 2 ^ bits - 1) % 2 ^ bits)
        else cleanUpLoop bits fuel slots ((i + 1) % 2 ^ bits) size
    else some slots

/-- The function `clean_up()`: `size = connected_slots.size()`, then the loop from
`i = 0`.  The loop is given one test more than there are slots. -/
def clean_up (bits : Nat) (slots : List CL_SlotCallback) : Option (List CL_SlotCallback) :=
  cleanUpLoop bits (slots.length + 1) slots 0 (slots.length % 2 ^ bits)

/-- The function `connect(...)`: `clean_up()`, then the new callback is pushed at the
back of `connected_slots`.  The result is the slot list and the callback the
returned `CL_Slot` holds. -/
def connect (bits : Nat) (slots : List CL_SlotCallback) (ident : Nat) :
    Option (List CL_SlotCallback × CL_SlotCallback) :=
  (clean_up bits slots).map (fun l => (l ++ [newCallback ident], newCallback ident))

/-- Six connected slots used in the evaluations: the first two, the fourth and
the last are invalid. -/
def sampleSlots : List CL_SlotCallback :=
  [{ ident := 1, valid := false, enabled := true },
    { ident := 2, valid := false, enabled := true },
    { ident := 3, valid := true, enabled := false },
    { ident := 4, valid := false, enabled := true },
    { ident := 5, valid := true, enabled := true },
    { ident := 6, valid := false, enabled := true }]

end CL_Signal_v3

namespace TransmitterControls

variable {X : Type}

/-! ## Lemmas on the send loop and the trace -/

theorem sendResults_append (a b : List Call) :
    sendResults (a ++ b) = sendResults a ++ sendResults b := by
  induction a with
  | nil => rfl
  | cons x xs ih => cases x <;> simp [sendResults, ih]

theorem packetsHanded_append (a b : List Call) :
    packetsHanded (a ++ b) = packetsHanded a ++ packetsHanded b := by
  induction a with
  | nil => rfl
  | cons x xs ih => cases x <;> simp [packetsHanded, ih]

theorem ackArgs_append (a b : List Call) :
    ackArgs (a ++ b) = ackArgs a ++ ackArgs b := by
  induction a with
  | nil => rfl
  | cons x xs ih => cases x <;> simp [ackArgs, ih]

/-- Two iterations always reach the exit of the send loop: it runs the body
once, and a second time exactly when the first result is -1. -/
theorem retryLoop_two {W : Type} (body : W → Int × W) (w : W) :
    retryLoop body MAX_RETRIES 0 (-1) w =
      if (body w).1 = -1 then (2, (body (body w).2).1, (body (body w).2).2)
      else (1, (body w).1, (body w).2) := by
  by_cases h : (body w).1 = -1 <;> simp [retryLoop, MAX_RETRIES, h]

/-- The loop guard is false in the state the bounded loop returns, so the
bound does not cut the loop short. -/
theorem retryLoop_exit {W : Type} (body : W → Int × W) (w : W) :
    ¬ ((retryLoop body MAX_RETRIES 0 (-1) w).1 < (MAX_RETRIES : Int) ∧
        (retryLoop body MAX_RETRIES 0 (-1) w).2.1 = -1) := by
  rw [retryLoop_two]
  by_cases h : (body w).1 = -1 <;> simp [MAX_RETRIES, h]

theorem wrap32_id (n : Nat) (h : n < 4294967296) : wrap32 (n : Int) = n := by
  unfold wrap32
  omega

theorem Quiet.refl (w : World X) : Quiet w w :=
  ⟨[], by simp, rfl, rfl, rfl, rfl, rfl⟩

theorem Quiet.trans {a b c : World X} (h1 : Quiet a b) (h2 : Quiet b c) : Quiet a c := by
  obtain ⟨l1, t1, s1, r1, e1, c1, m1⟩ := h1
  obtain ⟨l2, t2, s2, r2, e2, c2, m2⟩ := h2
  refine ⟨l1 ++ l2, ?_, ?_, r2.trans r1, e2.trans e1, c2.trans c1, m2.trans m1⟩
  · rw [t2, t1, List.append_assoc]
  · rw [sendResults_append, s1, s2]; rfl

theorem Quiet.log (w : World X) (c : Call) (hc : sendResults [c] = []) : Quiet w (logCall w c) :=
  ⟨[c], rfl, hc, rfl, rfl, rfl, rfl⟩

theorem readChannels_quiet (E : Externals X) (debug : Bool) (n : Nat) :
    ∀ (i : Nat) (rcvr : Nat → Nat) (w : World X), Quiet w (readChannels E debug n i rcvr w).2 := by
  induction n with
  | zero => intro i rcvr w; exact Quiet.refl w
  | succ n ih =>
    intro i rcvr w
    simp only [readChannels]
    refine Quiet.trans ?_ (ih _ _ _)
    cases debug
    · exact Quiet.log _ _ (by rfl)
    · exact Quiet.trans (Quiet.trans (Quiet.log _ _ (by rfl)) (Quiet.log _ _ (by rfl))) (Quiet.log _ _ (by rfl))

theorem Quiet.ext (w : World X) (x : X) (c : Call) (hc : sendResults [c] = []) :
    Quiet w (extCall w x c) :=
  ⟨[c], rfl, hc, rfl, rfl, rfl, rfl⟩

theorem Quiet.cntr (w : World X) (n : Nat) : Quiet w (setCntr w n) :=
  ⟨[], by simp [setCntr], rfl, rfl, rfl, rfl, rfl⟩

theorem pollSample_quiet (E : Externals X) (stk : Stack) (w : World X) :
    Quiet w (pollSample E stk w) := by
  unfold pollSample
  dsimp only
  refine Quiet.trans ?_ (Quiet.ext _ _ _ (by rfl))
  refine Quiet.trans ?_ (Quiet.ext _ _ _ (by rfl))
  refine Quiet.trans ?_ (Quiet.log _ _ (by rfl))
  by_cases h : w.cntr = 20
  · simp only [h, decide_True, if_true]
    refine Quiet.trans ?_ (Quiet.log _ _ (by rfl))
    refine Quiet.trans ?_ (readChannels_quiet E true _ _ _ _)
    exact Quiet.trans (Quiet.cntr _ _) (Quiet.log _ _ (by rfl))
  · simp only [h, decide_False, if_false]
    refine Quiet.trans ?_ (readChannels_quiet E false _ _ _ _)
    exact Quiet.cntr _ _

theorem callSendObject_shape (E : Externals X) (com obj instId acked timeout : Nat)
    (v : World X) :
    ∃ call, (callSendObject E com obj instId acked timeout v).2.trace = v.trace ++ [call] ∧
      sendResults [call] = [(callSendObject E com obj instId acked timeout v).1] ∧
      (callSendObject E com obj instId acked timeout v).2.txRetries = v.txRetries ∧
      (callSendObject E com obj instId acked timeout v).2.txErrors = v.txErrors ∧
      (callSendObject E com obj instId acked timeout v).2.comms = v.comms :=
  ⟨_, rfl, rfl, rfl, rfl, rfl⟩

theorem callSendObjectRequest_shape (E : Externals X) (com obj instId timeout : Nat)
    (v : World X) :
    ∃ call, (callSendObjectRequest E com obj instId timeout v).2.trace = v.trace ++ [call] ∧
      sendResults [call] = [(callSendObjectRequest E com obj instId timeout v).1] ∧
      (callSendObjectRequest E com obj instId timeout v).2.txRetries = v.txRetries ∧
      (callSendObjectRequest E com obj instId timeout v).2.txErrors = v.txErrors ∧
      (callSendObjectRequest E com obj instId timeout v).2.comms = v.comms :=
  ⟨_, rfl, rfl, rfl, rfl, rfl⟩

theorem callSendPacket_shape (E : Externals X) (com obj : Nat) (v : World X) :
    ∃ call, (callSendPacket E com obj v).2.trace = v.trace ++ [call] ∧
      sendResults [call] = [(callSendPacket E com obj v).1] ∧
      (callSendPacket E com obj v).2.txRetries = v.txRetries ∧
      (callSendPacket E com obj v).2.txErrors = v.txErrors ∧
      (callSendPacket E com obj v).2.comms = v.comms :=
  ⟨_, rfl, rfl, rfl, rfl, rfl⟩

/-- Outcome of a send loop whose body makes one transport send per iteration:
either one attempt that succeeded, or two attempts the first of which failed. -/
theorem retryLoop_outcome (body : World X → Int × World X)
    (hb : ∀ v, ∃ call, (body v).2.trace = v.trace ++ [call] ∧
      sendResults [call] = [(body v).1] ∧ (body v).2.txRetries = v.txRetries ∧
      (body v).2.txErrors = v.txErrors ∧ (body v).2.comms = v.comms)
    (v : World X) :
    ∃ l, (retryLoop body MAX_RETRIES 0 (-1) v).2.2.trace = v.trace ++ l ∧
      (retryLoop body MAX_RETRIES 0 (-1) v).2.2.txRetries = v.txRetries ∧
      (retryLoop body MAX_RETRIES 0 (-1) v).2.2.txErrors = v.txErrors ∧
      (retryLoop body MAX_RETRIES 0 (-1) v).2.2.comms = v.comms ∧
      (((retryLoop body MAX_RETRIES 0 (-1) v).1 = 1 ∧
          (retryLoop body MAX_RETRIES 0 (-1) v).2.1 ≠ -1 ∧
          sendResults l = [(retryLoop body MAX_RETRIES 0 (-1) v).2.1]) ∨
        ((retryLoop body MAX_RETRIES 0 (-1) v).1 = 2 ∧
          sendResults l = [-1, (retryLoop body MAX_RETRIES 0 (-1) v).2.1])) := by
  rw [retryLoop_two]
  obtain ⟨c1, t1, s1, r1, e1, m1⟩ := hb v
  by_cases h : (body v).1 = -1
  · obtain ⟨c2, t2, s2, r2, e2, m2⟩ := hb (body v).2
    rw [if_pos h]
    refine ⟨[c1, c2], ?_, r2.trans r1, e2.trans e1, m2.trans m1, Or.inr ⟨rfl, ?_⟩⟩
    · rw [t2, t1]; simp
    · have : sendResults ([c1] ++ [c2]) = [-1, (body (body v).2).1] := by
        rw [sendResults_append, s1, s2, h]; rfl
      simpa using this
  · rw [if_neg h]
    exact ⟨[c1], t1, r1, e1, m1, Or.inl ⟨rfl, h, s1⟩⟩

theorem dispatchLog_eq (E : Externals X) (stk : Stack) (ev : UAVObjEvent) (c : Fin 2)
    (w : World X) (l : List Call) (h : (processObjEvent E stk ev c w).trace = w.trace ++ l) :
    dispatchLog E stk ev c w = l := by
  simp [dispatchLog, h]

theorem addRetries_fields (w : World X) (n : Int) :
    (addRetries w n).trace = w.trace ∧ (addRetries w n).txErrors = w.txErrors ∧
      (addRetries w n).comms = w.comms ∧ (addRetries w n).mem = w.mem ∧
      (addRetries w n).txRetries = wrap32 ((w.txRetries : Int) + (n - 1)) :=
  ⟨rfl, rfl, rfl, rfl, rfl⟩

theorem countError_fields (w : World X) (s : Int) :
    (countError w s).trace = w.trace ∧ (countError w s).txRetries = w.txRetries ∧
      (countError w s).comms = w.comms ∧ (countError w s).mem = w.mem ∧
      (countError w s).txErrors =
        if s = -1 then wrap32 ((w.txErrors : Int) + 1) else w.txErrors := by
  unfold countError
  by_cases h : s = -1 <;> simp [h]

/-- Accounting of the statements after a send loop that started in `v`. -/
theorem after_loop (body : World X → Int × World X)
    (hb : ∀ v, ∃ call, (body v).2.trace = v.trace ++ [call] ∧
      sendResults [call] = [(body v).1] ∧ (body v).2.txRetries = v.txRetries ∧
      (body v).2.txErrors = v.txErrors ∧ (body v).2.comms = v.comms)
    (v : World X) (errs : Bool) (u : World X)
    (hu : u = if errs then
        countError (addRetries (retryLoop body MAX_RETRIES 0 (-1) v).2.2
          (retryLoop body MAX_RETRIES 0 (-1) v).1) (retryLoop body MAX_RETRIES 0 (-1) v).2.1
      else addRetries (retryLoop body MAX_RETRIES 0 (-1) v).2.2
          (retryLoop body MAX_RETRIES 0 (-1) v).1) :
    ∃ l, u.trace = v.trace ++ l ∧ u.comms = v.comms ∧
      ((∃ s, s ≠ -1 ∧ sendResults l = [s] ∧ u.txRetries = wrap32 ((v.txRetries : Int) + (1 - 1)) ∧
          u.txErrors = v.txErrors) ∨
        (∃ s, sendResults l = [-1, s] ∧ u.txRetries = wrap32 ((v.txRetries : Int) + (2 - 1)) ∧
          u.txErrors = if errs = true ∧ s = -1 then wrap32 ((v.txErrors : Int) + 1)
            else v.txErrors)) := by
  obtain ⟨l, t, r, e, m, hcase⟩ := retryLoop_outcome body hb v
  obtain ⟨a1, a2, a3, _, a5⟩ := addRetries_fields (retryLoop body MAX_RETRIES 0 (-1) v).2.2
    (retryLoop body MAX_RETRIES 0 (-1) v).1
  obtain ⟨b1, b2, b3, _, b5⟩ := countError_fields
    (addRetries (retryLoop body MAX_RETRIES 0 (-1) v).2.2 (retryLoop body MAX_RETRIES 0 (-1) v).1)
    (retryLoop body MAX_RETRIES 0 (-1) v).2.1
  refine ⟨l, ?_, ?_, ?_⟩
  · cases errs
    · simp only [Bool.false_eq_true, if_false] at hu; rw [hu, a1, t]
    · simp only [if_true] at hu; rw [hu, b1, a1, t]
  · cases errs
    · simp only [Bool.false_eq_true, if_false] at hu; rw [hu, a3, m]
    · simp only [if_true] at hu; rw [hu, b3, a3, m]
  · rcases hcase with ⟨h1, hs, hl⟩ | ⟨h2, hl⟩
    · refine Or.inl ⟨_, hs, hl, ?_, ?_⟩
      · cases errs
        · simp only [Bool.false_eq_true, if_false] at hu; rw [hu, a5, r, h1]
        · simp only [if_true] at hu; rw [hu, b2, a5, r, h1]
      · cases errs
        · simp only [Bool.false_eq_true, if_false] at hu; rw [hu, a2, e]
        · simp only [if_true] at hu; rw [hu, b5, if_neg hs, a2, e]
    · refine Or.inr ⟨_, hl, ?_, ?_⟩
      · cases errs
        · simp only [Bool.false_eq_true, if_false] at hu; rw [hu, a5, r, h2]
        · simp only [if_true] at hu; rw [hu, b2, a5, r, h2]
      · cases errs
        · simp only [Bool.false_eq_true, if_false] at hu
          rw [hu, a2, e]; simp
        · simp only [if_true] at hu
          rw [hu, b5, a2, e]; simp

/-- The three possible outcomes of one dispatch: no transport call (a tag
outside the `switch` on a non-null object), one successful attempt, or a
failed first attempt followed by a second and last one.  The error counter
moves only when both attempts fail on a non-null object. -/
theorem dispatch_outcome (E : Externals X) (stk : Stack) (ev : UAVObjEvent) (c : Fin 2)
    (w : World X) :
    (processObjEvent E stk ev c w).comms = w.comms ∧
    ((ev.obj ≠ 0 ∧ ev.event.isSent = false ∧ sendResults (dispatchLog E stk ev c w) = [] ∧
        (processObjEvent E stk ev c w).txRetries = w.txRetries ∧
        (processObjEvent E stk ev c w).txErrors = w.txErrors) ∨
      ((ev.obj = 0 ∨ ev.event.isSent = true) ∧
        ((∃ s, s ≠ -1 ∧ sendResults (dispatchLog E stk ev c w) = [s] ∧
            (processObjEvent E stk ev c w).txRetries = wrap32 ((w.txRetries : Int) + (1 - 1)) ∧
            (processObjEvent E stk ev c w).txErrors = w.txErrors) ∨
          (∃ s, sendResults (dispatchLog E stk ev c w) = [-1, s] ∧
            (processObjEvent E stk ev c w).txRetries = wrap32 ((w.txRetries : Int) + (2 - 1)) ∧
            (processObjEvent E stk ev c w).txErrors =
              if ev.obj ≠ 0 ∧ s = -1 then wrap32 ((w.txErrors : Int) + 1) else w.txErrors)))) := by
  have key : ∀ (v u : World X) (errs : Bool), Quiet w v → (errs = true ↔ ev.obj ≠ 0) →
      u = processObjEvent E stk ev c w →
      (∃ l, u.trace = v.trace ++ l ∧ u.comms = v.comms ∧
        ((∃ s, s ≠ -1 ∧ sendResults l = [s] ∧
            u.txRetries = wrap32 ((v.txRetries : Int) + (1 - 1)) ∧ u.txErrors = v.txErrors) ∨
          (∃ s, sendResults l = [-1, s] ∧ u.txRetries = wrap32 ((v.txRetries : Int) + (2 - 1)) ∧
            u.txErrors = if errs = true ∧ s = -1 then wrap32 ((v.txErrors : Int) + 1)
              else v.txErrors))) →
      (u.comms = w.comms ∧
        ((∃ s, s ≠ -1 ∧ sendResults (dispatchLog E stk ev c w) = [s] ∧
            u.txRetries = wrap32 ((w.txRetries : Int) + (1 - 1)) ∧ u.txErrors = w.txErrors) ∨
          (∃ s, sendResults (dispatchLog E stk ev c w) = [-1, s] ∧
            u.txRetries = wrap32 ((w.txRetries : Int) + (2 - 1)) ∧
            u.txErrors =
              if ev.obj ≠ 0 ∧ s = -1 then wrap32 ((w.txErrors : Int) + 1) else w.txErrors))) := by
    intro v u errs hq herr hu hout
    obtain ⟨lq, tq, sq, rq, eq, cq, _⟩ := hq
    obtain ⟨l, t, hc, hcase⟩ := hout
    have hlog : dispatchLog E stk ev c w = lq ++ l := by
      apply dispatchLog_eq
      rw [← hu, t, tq, List.append_assoc]
    have hres : sendResults (dispatchLog E stk ev c w) = sendResults l := by
      rw [hlog, sendResults_append, sq]; rfl
    refine ⟨hc.trans cq, ?_⟩
    rw [hres, ← rq, ← eq]
    rcases hcase with ⟨s, h1, h2, h3, h4⟩ | ⟨s, h2, h3, h4⟩
    · exact Or.inl ⟨s, h1, h2, h3, h4⟩
    · refine Or.inr ⟨s, h2, h3, ?_⟩
      rw [h4]
      by_cases hs : s = -1 <;> by_cases ho : ev.obj = 0 <;> simp [hs, ho, herr]
  have hwdg : Quiet w (logCall w Call.wdgUpdateFlag) := Quiet.log _ _ (by rfl)
  by_cases h0 : ev.obj = 0
  · have hu : processObjEvent E stk ev c w =
        if false then
          countError (addRetries (retryLoop (callSendObject E ((logCall w Call.wdgUpdateFlag).comms c).com
            E.GCSReceiverHandle 0 0 REQ_TIMEOUT_MS) MAX_RETRIES 0 (-1)
              (pollSample E stk (logCall w Call.wdgUpdateFlag))).2.2
            (retryLoop (callSendObject E ((logCall w Call.wdgUpdateFlag).comms c).com
              E.GCSReceiverHandle 0 0 REQ_TIMEOUT_MS) MAX_RETRIES 0 (-1)
              (pollSample E stk (logCall w Call.wdgUpdateFlag))).1)
            (retryLoop (callSendObject E ((logCall w Call.wdgUpdateFlag).comms c).com
              E.GCSReceiverHandle 0 0 REQ_TIMEOUT_MS) MAX_RETRIES 0 (-1)
              (pollSample E stk (logCall w Call.wdgUpdateFlag))).2.1
        else addRetries (retryLoop (callSendObject E ((logCall w Call.wdgUpdateFlag).comms c).com
            E.GCSReceiverHandle 0 0 REQ_TIMEOUT_MS) MAX_RETRIES 0 (-1)
              (pollSample E stk (logCall w Call.wdgUpdateFlag))).2.2
            (retryLoop (callSendObject E ((logCall w Call.wdgUpdateFlag).comms c).com
              E.GCSReceiverHandle 0 0 REQ_TIMEOUT_MS) MAX_RETRIES 0 (-1)
              (pollSample E stk (logCall w Call.wdgUpdateFlag))).1 := by
      simp [processObjEvent, h0]
    have := key _ _ false (Quiet.trans hwdg (pollSample_quiet E stk _)) (by simp [h0]) rfl
      (after_loop _ (callSendObject_shape E _ _ _ _ _) _ false _ hu)
    exact ⟨this.1, Or.inr ⟨Or.inl h0, this.2⟩⟩
  · cases hev : ev.event with
    | EV_OTHER n =>
      have hu : processObjEvent E stk ev c w = logCall w Call.wdgUpdateFlag := by
        simp [processObjEvent, h0, hev]
      have hl : dispatchLog E stk ev c w = [Call.wdgUpdateFlag] :=
        dispatchLog_eq E stk ev c w _ (by rw [hu]; rfl)
      refine ⟨by rw [hu]; rfl, Or.inl ⟨h0, rfl, by rw [hl]; rfl, by rw [hu]; rfl, by rw [hu]; rfl⟩⟩
    | EV_UPDATED =>
      have := key _ _ true hwdg (by simp [h0]) rfl
        (after_loop (callSendObject E ((logCall w Call.wdgUpdateFlag).comms c).com ev.obj ev.instId
            stk.metadata.telemetryAcked REQ_TIMEOUT_MS)
          (callSendObject_shape E _ _ _ _ _) (logCall w Call.wdgUpdateFlag) true _
          (by simp [processObjEvent, h0, hev]))
      exact ⟨this.1, Or.inr ⟨Or.inr rfl, this.2⟩⟩
    | EV_UPDATED_MANUAL =>
      have := key _ _ true hwdg (by simp [h0]) rfl
        (after_loop (callSendObject E ((logCall w Call.wdgUpdateFlag).comms c).com ev.obj ev.instId
            stk.metadata.telemetryAcked REQ_TIMEOUT_MS)
          (callSendObject_shape E _ _ _ _ _) (logCall w Call.wdgUpdateFlag) true _
          (by simp [processObjEvent, h0, hev]))
      exact ⟨this.1, Or.inr ⟨Or.inr rfl, this.2⟩⟩
    | EV_UPDATE_REQ =>
      have := key _ _ true hwdg (by simp [h0]) rfl
        (after_loop (callSendObjectRequest E ((logCall w Call.wdgUpdateFlag).comms c).com ev.obj
            ev.instId REQ_TIMEOUT_MS)
          (callSendObjectRequest_shape E _ _ _ _) (logCall w Call.wdgUpdateFlag) true _
          (by simp [processObjEvent, h0, hev]))
      exact ⟨this.1, Or.inr ⟨Or.inr rfl, this.2⟩⟩
    | EV_TRANSMIT_REQ =>
      have := key _ _ true hwdg (by simp [h0]) rfl
        (after_loop (callSendPacket E ((logCall w Call.wdgUpdateFlag).comms c).com ev.obj)
          (callSendPacket_shape E _ _) (logCall w Call.wdgUpdateFlag) true _
          (by simp [processObjEvent, h0, hev]))
      exact ⟨this.1, Or.inr ⟨Or.inr rfl, this.2⟩⟩

theorem dispatchLog_updated (E : Externals X) (stk : Stack) (ev : UAVObjEvent) (c : Fin 2)
    (w : World X) (hobj : ev.obj ≠ 0)
    (hkind : ev.event = UAVObjEventType.EV_UPDATED ∨ ev.event = UAVObjEventType.EV_UPDATED_MANUAL) :
    dispatchLog E stk ev c w =
      if (E.UAVTalkSendObject w.ext (w.comms c).com ev.obj ev.instId stk.metadata.telemetryAcked
          REQ_TIMEOUT_MS).1 = -1 then
        [Call.wdgUpdateFlag,
          Call.sendObject (w.comms c).com ev.obj ev.instId stk.metadata.telemetryAcked
            REQ_TIMEOUT_MS (-1),
          Call.sendObject (w.comms c).com ev.obj ev.instId stk.metadata.telemetryAcked
            REQ_TIMEOUT_MS
            (E.UAVTalkSendObject
              (E.UAVTalkSendObject w.ext (w.comms c).com ev.obj ev.instId
                stk.metadata.telemetryAcked REQ_TIMEOUT_MS).2
              (w.comms c).com ev.obj ev.instId stk.metadata.telemetryAcked REQ_TIMEOUT_MS).1]
      else
        [Call.wdgUpdateFlag,
          Call.sendObject (w.comms c).com ev.obj ev.instId stk.metadata.telemetryAcked
            REQ_TIMEOUT_MS
            (E.UAVTalkSendObject w.ext (w.comms c).com ev.obj ev.instId
              stk.metadata.telemetryAcked REQ_TIMEOUT_MS).1] := by
  apply dispatchLog_eq
  by_cases h : (E.UAVTalkSendObject w.ext (w.comms c).com ev.obj ev.instId
      stk.metadata.telemetryAcked REQ_TIMEOUT_MS).1 = -1
  · rcases hkind with hk | hk <;>
      simp [processObjEvent, hobj, hk, retryLoop_two, callSendObject, logCall, extCall,
        addRetries, countError, h] <;> split <;> simp
  · rcases hkind with hk | hk <;>
      simp [processObjEvent, hobj, hk, retryLoop_two, callSendObject, logCall, extCall,
        addRetries, countError, h]

theorem zeroFirstByte_idem (m : Mem) (p : Nat) :
    zeroFirstByte (zeroFirstByte m p) p = zeroFirstByte m p := by
  funext a
  by_cases h : a = p <;> simp [zeroFirstByte, h]

/-- Calls and memory effect of the dispatch of a forward event. -/
theorem dispatch_forward (E : Externals X) (stk : Stack) (ev : UAVObjEvent) (c : Fin 2)
    (w : World X) (hobj : ev.obj ≠ 0) (hk : ev.event = UAVObjEventType.EV_TRANSMIT_REQ) :
    (processObjEvent E stk ev c w).mem = zeroFirstByte w.mem ev.obj ∧
    dispatchLog E stk ev c w =
      if (E.UAVTalkSendPacket w.ext (w.comms c).com ev.obj (w.mem ev.obj)).1 = -1 then
        [Call.wdgUpdateFlag,
          Call.sendPacket (w.comms c).com ev.obj (w.mem ev.obj) (-1),
          Call.sendPacket (w.comms c).com ev.obj ((w.mem ev.obj).set 0 0)
            (E.UAVTalkSendPacket
              (E.UAVTalkSendPacket w.ext (w.comms c).com ev.obj (w.mem ev.obj)).2
              (w.comms c).com ev.obj ((w.mem ev.obj).set 0 0)).1]
      else
        [Call.wdgUpdateFlag,
          Call.sendPacket (w.comms c).com ev.obj (w.mem ev.obj)
            (E.UAVTalkSendPacket w.ext (w.comms c).com ev.obj (w.mem ev.obj)).1] := by
  by_cases h : (E.UAVTalkSendPacket w.ext (w.comms c).com ev.obj (w.mem ev.obj)).1 = -1
  · constructor
    · simp only [processObjEvent, hobj, hk, retryLoop_two, callSendPacket, logCall, extCall,
        setMem, h, if_true, if_false]
      rw [(countError_fields _ _).2.2.2.1, (addRetries_fields _ _).2.2.2.1]
      exact zeroFirstByte_idem _ _
    · apply dispatchLog_eq
      rw [if_pos h]
      simp [processObjEvent, hobj, hk, retryLoop_two, callSendPacket, logCall, extCall,
        setMem, addRetries, countError, h, zeroFirstByte]
      split <;> simp
  · constructor
    · simp [processObjEvent, hobj, hk, retryLoop_two, callSendPacket, logCall, extCall,
        setMem, addRetries, countError, h]
    · apply dispatchLog_eq
      rw [if_neg h]
      simp [processObjEvent, hobj, hk, retryLoop_two, callSendPacket, logCall, extCall,
        setMem, addRetries, countError, h]

/-! ## Retry bound (C1) -/

/-- C1, counterexample: with a transport that fails every call, the dispatch of
an object-change event makes two attempts, not `MAX_RETRIES + 1 = 3`, and the
retries counter moves by one, not by `MAX_RETRIES = 2`. -/
theorem retry_bound_three_attempts_refuted :
    sendResults (dispatchLog (stubExt 4) stubStack evUpdated 0 (stubWorld [])) = [-1, -1] ∧
    (sendResults (dispatchLog (stubExt 4) stubStack evUpdated 0 (stubWorld []))).length
      ≠ MAX_RETRIES + 1 ∧
    (processObjEvent (stubExt 4) stubStack evUpdated 0 (stubWorld [])).txRetries
      ≠ (stubWorld []).txRetries + MAX_RETRIES := by
  decide

/-- C1, amended: for an event with a non-null object and one of the four tags of
the `switch` (object change, update request, forward), if every attempt made
fails then exactly `MAX_RETRIES = 2` attempts are made, the event is dropped
(no queue changes), `txErrors` grows by exactly 1 and `txRetries` by exactly
`MAX_RETRIES - 1 = 1`, the 32-bit counters not being at their maximum. -/
theorem retry_bound_all_fail (E : Externals X) (stk : Stack) (ev : UAVObjEvent) (c : Fin 2)
    (w : World X) (hobj : ev.obj ≠ 0) (hkind : ev.event.isSent = true)
    (hfail : ∀ r ∈ sendResults (dispatchLog E stk ev c w), r = -1)
    (hE : w.txErrors + 1 < 4294967296) (hR : w.txRetries + 1 < 4294967296) :
    sendResults (dispatchLog E stk ev c w) = List.replicate MAX_RETRIES (-1) ∧
    (sendResults (dispatchLog E stk ev c w)).length = MAX_RETRIES ∧
    (processObjEvent E stk ev c w).txErrors = w.txErrors + 1 ∧
    (processObjEvent E stk ev c w).txRetries = w.txRetries + (MAX_RETRIES - 1) ∧
    (processObjEvent E stk ev c w).comms = w.comms := by
  obtain ⟨hc, hcase⟩ := dispatch_outcome E stk ev c w
  rcases hcase with ⟨_, hk, _⟩ | ⟨_, ⟨s, hs, hl, _, _⟩ | ⟨s, hl, hr, he⟩⟩
  · rw [hkind] at hk; cases hk
  · exact absurd (hfail s (by rw [hl]; simp)) hs
  · have hs : s = -1 := hfail s (by rw [hl]; simp)
    subst hs
    rw [hl, hr, he]
    refine ⟨rfl, rfl, ?_, ?_, hc⟩
    · simp only [hobj, ne_eq, not_false_eq_true, and_self, if_true, wrap32]
      omega
    · simp only [wrap32, MAX_RETRIES]
      omega

/-- C1, amended, evaluated: a forward event against a transport that fails
every call. -/
theorem retry_bound_all_fail_witness :
    sendResults (dispatchLog (stubExt 4) stubStack evForward 1 (stubWorld [])) =
      List.replicate MAX_RETRIES (-1) ∧
    (sendResults (dispatchLog (stubExt 4) stubStack evForward 1 (stubWorld []))).length
      = MAX_RETRIES ∧
    (processObjEvent (stubExt 4) stubStack evForward 1 (stubWorld [])).txErrors
      = (stubWorld []).txErrors + 1 ∧
    (processObjEvent (stubExt 4) stubStack evForward 1 (stubWorld [])).txRetries
      = (stubWorld []).txRetries + (MAX_RETRIES - 1) ∧
    (processObjEvent (stubExt 4) stubStack evForward 1 (stubWorld [])).comms
      = (stubWorld []).comms :=
  retry_bound_all_fail (stubExt 4) stubStack evForward 1 (stubWorld []) (by decide) (by decide)
    (by decide) (by decide) (by decide)

/-! ## Failures followed by a success (C2) -/

/-- C2, counterexample at `k = 2`: against a transport that fails twice and
would succeed at the third attempt, the dispatch of an object-change event
stops after two failed attempts; no third attempt is made, `txRetries` goes
from 0 to 1 (not 2) and `txErrors` from 0 to 1 (not unchanged). -/
theorem fail_fail_succeed_refuted :
    failsThenSucceeds (stubExt 4) ((stubWorld [-1, -1, 0]).comms 0).com evUpdated.obj
      evUpdated.instId stubStack.metadata.telemetryAcked 2 (stubWorld [-1, -1, 0]).ext ∧
    sendResults (dispatchLog (stubExt 4) stubStack evUpdated 0 (stubWorld [-1, -1, 0]))
      = [-1, -1] ∧
    (sendResults (dispatchLog (stubExt 4) stubStack evUpdated 0 (stubWorld [-1, -1, 0]))).length
      ≠ 2 + 1 ∧
    (processObjEvent (stubExt 4) stubStack evUpdated 0 (stubWorld [-1, -1, 0])).txRetries
      ≠ (stubWorld [-1, -1, 0]).txRetries + 2 ∧
    (processObjEvent (stubExt 4) stubStack evUpdated 0 (stubWorld [-1, -1, 0])).txErrors
      ≠ (stubWorld [-1, -1, 0]).txErrors ∧
    (stubWorld [-1, -1, 0]).txRetries = 0 ∧ (stubWorld [-1, -1, 0]).txErrors = 0 ∧
    (processObjEvent (stubExt 4) stubStack evUpdated 0 (stubWorld [-1, -1, 0])).txRetries = 1 ∧
    (processObjEvent (stubExt 4) stubStack evUpdated 0 (stubWorld [-1, -1, 0])).txErrors = 1 := by
  unfold failsThenSucceeds
  decide

/-- C2, amended: for every `k < MAX_RETRIES` (that is `k = 0` or `k = 1`), when
an object-change event is dispatched against a transport whose send fails the
first `k` attempts and succeeds at attempt `k + 1`, exactly `k + 1` attempts
are made, the last one being the success, `txRetries` grows by exactly `k` and
`txErrors` keeps its value. -/
theorem send_after_k_failures (E : Externals X) (stk : Stack) (ev : UAVObjEvent) (c : Fin 2)
    (w : World X) (k : Nat) (hk : k < MAX_RETRIES) (hobj : ev.obj ≠ 0)
    (hkind : ev.event = UAVObjEventType.EV_UPDATED ∨
      ev.event = UAVObjEventType.EV_UPDATED_MANUAL)
    (hT : failsThenSucceeds E (w.comms c).com ev.obj ev.instId stk.metadata.telemetryAcked k
      w.ext)
    (hR : w.txRetries + k < 4294967296) :
    (∃ r, r ≠ -1 ∧
      sendResults (dispatchLog E stk ev c w) = List.replicate k (-1) ++ [r]) ∧
    (sendResults (dispatchLog E stk ev c w)).length = k + 1 ∧
    (processObjEvent E stk ev c w).txRetries = w.txRetries + k ∧
    (processObjEvent E stk ev c w).txErrors = w.txErrors := by
  have hlog := dispatchLog_updated E stk ev c w hobj hkind
  obtain ⟨_, hcase⟩ := dispatch_outcome E stk ev c w
  obtain ⟨hfail, hsucc⟩ := hT
  have hk2 : k = 0 ∨ k = 1 := by
    unfold MAX_RETRIES at hk
    omega
  rcases hk2 with rfl | rfl
  · have h1 : (E.UAVTalkSendObject w.ext (w.comms c).com ev.obj ev.instId
        stk.metadata.telemetryAcked REQ_TIMEOUT_MS).1 ≠ -1 := hsucc
    rw [if_neg h1] at hlog
    have hres : sendResults (dispatchLog E stk ev c w) =
        [(E.UAVTalkSendObject w.ext (w.comms c).com ev.obj ev.instId
          stk.metadata.telemetryAcked REQ_TIMEOUT_MS).1] := by
      rw [hlog]; rfl
    rcases hcase with ⟨_, _, hl, _, _⟩ | ⟨_, ⟨s, _, _, hret, herr⟩ | ⟨s, hl, _, _⟩⟩
    · rw [hl] at hres; simp at hres
    · refine ⟨⟨_, h1, hres⟩, by rw [hres]; rfl, ?_, herr⟩
      rw [hret]
      simp only [wrap32]
      omega
    · rw [hl] at hres; simp at hres
  · have h1 : (E.UAVTalkSendObject w.ext (w.comms c).com ev.obj ev.instId
        stk.metadata.telemetryAcked REQ_TIMEOUT_MS).1 = -1 := hfail 0 (by decide)
    have h2 : (E.UAVTalkSendObject
        (E.UAVTalkSendObject w.ext (w.comms c).com ev.obj ev.instId
          stk.metadata.telemetryAcked REQ_TIMEOUT_MS).2
        (w.comms c).com ev.obj ev.instId stk.metadata.telemetryAcked REQ_TIMEOUT_MS).1 ≠ -1 :=
      hsucc
    rw [if_pos h1] at hlog
    have hres : sendResults (dispatchLog E stk ev c w) =
        [-1, (E.UAVTalkSendObject
          (E.UAVTalkSendObject w.ext (w.comms c).com ev.obj ev.instId
            stk.metadata.telemetryAcked REQ_TIMEOUT_MS).2
          (w.comms c).com ev.obj ev.instId stk.metadata.telemetryAcked REQ_TIMEOUT_MS).1] := by
      rw [hlog]; rfl
    rcases hcase with ⟨_, _, hl, _, _⟩ | ⟨_, ⟨s, _, hl, _, _⟩ | ⟨s, hl, hret, herr⟩⟩
    · rw [hl] at hres; simp at hres
    · rw [hl] at hres; simp at hres
    · have hs : s ≠ -1 := by
        rw [hl] at hres
        injection hres with _ ht
        injection ht with hh _
        rw [hh]; exact h2
      refine ⟨⟨_, h2, hres⟩, by rw [hres]; rfl, ?_, ?_⟩
      · rw [hret]
        simp only [wrap32]
        omega
      · rw [herr, if_neg (fun hh => hs hh.2)]

/-- C2, amended, evaluated at `k = 1`: fail, then succeed. -/
theorem send_after_k_failures_witness :
    (∃ r, r ≠ -1 ∧
      sendResults (dispatchLog (stubExt 4) stubStack evUpdated 0 (stubWorld [-1, 0]))
        = List.replicate 1 (-1) ++ [r]) ∧
    (sendResults (dispatchLog (stubExt 4) stubStack evUpdated 0 (stubWorld [-1, 0]))).length
      = 1 + 1 ∧
    (processObjEvent (stubExt 4) stubStack evUpdated 0 (stubWorld [-1, 0])).txRetries
      = (stubWorld [-1, 0]).txRetries + 1 ∧
    (processObjEvent (stubExt 4) stubStack evUpdated 0 (stubWorld [-1, 0])).txErrors
      = (stubWorld [-1, 0]).txErrors :=
  send_after_k_failures (stubExt 4) stubStack evUpdated 0 (stubWorld [-1, 0]) 1 (by decide)
    (by decide) (by decide) (by unfold failsThenSucceeds; decide) (by decide)

/-! ## Success without retry (C3) -/

/-- C3: whatever the event (object change, update request, forward or poll
tick), if the first transport attempt of its dispatch returns a value other
than -1 then that attempt is the only transport send made for the event and
both `txRetries` and `txErrors` keep their value. -/
theorem success_without_retry (E : Externals X) (stk : Stack) (ev : UAVObjEvent) (c : Fin 2)
    (w : World X) (r : Int) (rs : List Int) (hwf : w.wf)
    (hfirst : sendResults (dispatchLog E stk ev c w) = r :: rs) (hr : r ≠ -1) :
    sendResults (dispatchLog E stk ev c w) = [r] ∧
    (processObjEvent E stk ev c w).txRetries = w.txRetries ∧
    (processObjEvent E stk ev c w).txErrors = w.txErrors := by
  obtain ⟨_, hcase⟩ := dispatch_outcome E stk ev c w
  obtain ⟨_, _, hwR⟩ := hwf
  rcases hcase with ⟨_, _, hl, _, _⟩ | ⟨_, ⟨s, hs, hl, hret, herr⟩ | ⟨s, hl, _, _⟩⟩
  · rw [hl] at hfirst; cases hfirst
  · rw [hl] at hfirst
    injection hfirst with h1 h2
    subst h1
    refine ⟨hl, ?_, herr⟩
    rw [hret]
    simp only [wrap32]
    omega
  · rw [hl] at hfirst
    injection hfirst with h1 h2
    exact absurd h1.symm hr

/-- C3, evaluated: a poll tick whose send succeeds at once. -/
theorem success_without_retry_witness :
    sendResults (dispatchLog (stubExt 4) stubStack evPoll 1 (stubWorld [0])) = [0] ∧
    (processObjEvent (stubExt 4) stubStack evPoll 1 (stubWorld [0])).txRetries
      = (stubWorld [0]).txRetries ∧
    (processObjEvent (stubExt 4) stubStack evPoll 1 (stubWorld [0])).txErrors
      = (stubWorld [0]).txErrors :=
  success_without_retry (stubExt 4) stubStack evPoll 1 (stubWorld [0]) 0 []
    (by unfold World.wf; decide) (by decide) (by decide)

/-! ## Forwarded payloads (C4) -/

/-- C4, counterexample: a forward event carrying `[0xAA, 0x01, 0x00, 0xBB]`
dispatched against a transport that fails.  The retry is handed
`[0x00, 0x01, 0x00, 0xBB]` and the buffer is left with its first byte
zeroed. -/
theorem forward_payload_mutated :
    (stubWorld []).mem evForward.obj = [170, 1, 0, 187] ∧
    packetsHanded (dispatchLog (stubExt 4) stubStack evForward 1 (stubWorld []))
      = [[170, 1, 0, 187], [0, 1, 0, 187]] ∧
    (processObjEvent (stubExt 4) stubStack evForward 1 (stubWorld [])).mem evForward.obj
      = [0, 1, 0, 187] ∧
    (processObjEvent (stubExt 4) stubStack evForward 1 (stubWorld [])).mem evForward.obj
      ≠ (stubWorld []).mem evForward.obj ∧
    ¬ (∀ p ∈ packetsHanded (dispatchLog (stubExt 4) stubStack evForward 1 (stubWorld [])),
        p = (stubWorld []).mem evForward.obj) := by
  decide

/-- C4, amended: for every forward event, the first raw-send attempt is handed
the packet exactly as it was enqueued, and `processObjEvent` changes no byte of
any buffer other than the first byte of the packet it carries, which it
overwrites with 0 once the packet has been handed to the transport. -/
theorem forward_payload_first_attempt (E : Externals X) (stk : Stack) (ev : UAVObjEvent)
    (c : Fin 2) (w : World X) (hobj : ev.obj ≠ 0)
    (hk : ev.event = UAVObjEventType.EV_TRANSMIT_REQ) :
    (packetsHanded (dispatchLog E stk ev c w)).head? = some (w.mem ev.obj) ∧
    (∀ a, a ≠ ev.obj → (processObjEvent E stk ev c w).mem a = w.mem a) ∧
    ((processObjEvent E stk ev c w).mem ev.obj).length = (w.mem ev.obj).length ∧
    (∀ i, 0 < i → ((processObjEvent E stk ev c w).mem ev.obj)[i]? = (w.mem ev.obj)[i]?) ∧
    (0 < (w.mem ev.obj).length → ((processObjEvent E stk ev c w).mem ev.obj)[0]? = some 0) := by
  obtain ⟨hmem, hlog⟩ := dispatch_forward E stk ev c w hobj hk
  rw [hmem, hlog]
  refine ⟨?_, ?_, ?_, ?_, ?_⟩
  · split <;> rfl
  · intro a ha
    simp [zeroFirstByte, ha]
  · simp [zeroFirstByte]
  · intro i hi
    have : 0 ≠ i := by omega
    simp [zeroFirstByte, List.getElem?_set_ne this]
  · intro hlen
    simp [zeroFirstByte, List.getElem?_set_self, hlen]

/-- C4, amended, evaluated: the packet `[0xAA, 0x01, 0x00, 0xBB]` forwarded
through link 1 with a transport that accepts it at once. -/
theorem forward_payload_first_attempt_witness :
    (packetsHanded (dispatchLog (stubExt 4) stubStack evForward 1 (stubWorld [0]))).head?
      = some ((stubWorld [0]).mem evForward.obj) ∧
    (∀ a, a ≠ evForward.obj →
      (processObjEvent (stubExt 4) stubStack evForward 1 (stubWorld [0])).mem a
        = (stubWorld [0]).mem a) ∧
    ((processObjEvent (stubExt 4) stubStack evForward 1 (stubWorld [0])).mem
      evForward.obj).length = ((stubWorld [0]).mem evForward.obj).length ∧
    (∀ i, 0 < i →
      ((processObjEvent (stubExt 4) stubStack evForward 1 (stubWorld [0])).mem evForward.obj)[i]?
        = ((stubWorld [0]).mem evForward.obj)[i]?) ∧
    (0 < ((stubWorld [0]).mem evForward.obj).length →
      ((processObjEvent (stubExt 4) stubStack evForward 1 (stubWorld [0])).mem evForward.obj)[0]?
        = some 0) :=
  forward_payload_first_attempt (stubExt 4) stubStack evForward 1 (stubWorld [0]) (by decide)
    (by decide)

/-! ## Relay to the peer link (C5) -/

/-- C5: when the decoder, called on the session of link `c` for a received
byte, reports a complete packet while the queue of the relay peer has room,
`rxByte` appends exactly one event at the tail of the peer queue, a
transmit-request with instance id 0 whose object is the packet returned by
`UAVTalkGetPacket`; the queue of link `c` is unchanged and the router writes
nothing to memory, so the packet is carried as the decoder left it. -/
theorem relay_to_peer (E : Externals X) (c : Fin 2) (b : Nat) (w : World X)
    (hpeer : (w.comms c).relay_comm ≠ c)
    (hcomplete : (sessionDecode E c b w).1 = UAVTalkRxState.UAVTALK_STATE_COMPLETE)
    (hcap : (w.comms (w.comms c).relay_comm).txqueue.length < E.TELEM_QUEUE_SIZE) :
    ((rxByte E c b w).comms (w.comms c).relay_comm).txqueue =
      (w.comms (w.comms c).relay_comm).txqueue ++
        [{ obj := (E.UAVTalkGetPacket (sessionDecode E c b w).2.1 (w.comms c).com).1,
           instId := 0, event := UAVObjEventType.EV_TRANSMIT_REQ }] ∧
    ((rxByte E c b w).comms c).txqueue = (w.comms c).txqueue ∧
    (rxByte E c b w).mem = (sessionDecode E c b w).2.2 := by
  unfold sessionDecode at hcomplete
  have hne : ¬ c = (w.comms c).relay_comm := fun h => hpeer h.symm
  simp [rxByte, sessionDecode, hcomplete, xQueueSend, hcap, setComm, setComms, setMem, extCall,
    logCall, hne]

/-- C5, evaluated on the scenario of the specification: link 0 receives
`0xAA, 0x01, 0x00, 0xBB`; on the fourth byte one forward event is queued on
link 1, it designates a buffer holding the same four bytes, and the queue of
link 0 stays empty.  The same holds when the bytes come through the task loop. -/
theorem relay_to_peer_witness :
    (((rxByte (stubExt 4) 0 187 afterThreeBytes).comms (afterThreeBytes.comms 0).relay_comm).txqueue
        = (afterThreeBytes.comms (afterThreeBytes.comms 0).relay_comm).txqueue ++
          [{ obj := ((stubExt 4).UAVTalkGetPacket
                (sessionDecode (stubExt 4) 0 187 afterThreeBytes).2.1
                (afterThreeBytes.comms 0).com).1,
             instId := 0, event := UAVObjEventType.EV_TRANSMIT_REQ }] ∧
      ((rxByte (stubExt 4) 0 187 afterThreeBytes).comms 0).txqueue
        = (afterThreeBytes.comms 0).txqueue ∧
      (rxByte (stubExt 4) 0 187 afterThreeBytes).mem
        = (sessionDecode (stubExt 4) 0 187 afterThreeBytes).2.2) ∧
    ((rxByte (stubExt 4) 0 187 afterThreeBytes).comms 1).txqueue
      = [{ obj := 500, instId := 0, event := UAVObjEventType.EV_TRANSMIT_REQ }] ∧
    (rxByte (stubExt 4) 0 187 afterThreeBytes).mem 500 = [170, 1, 0, 187] ∧
    ((rxByte (stubExt 4) 0 187 afterThreeBytes).comms 0).txqueue = [] ∧
    ((transmitterRxTask (stubExt 4) 0 4 (stubWorld [])).comms 1).txqueue
      = [{ obj := 500, instId := 0, event := UAVObjEventType.EV_TRANSMIT_REQ }] ∧
    (transmitterRxTask (stubExt 4) 0 4 (stubWorld [])).mem 500 = [170, 1, 0, 187] :=
  ⟨relay_to_peer (stubExt 4) 0 187 afterThreeBytes (by decide) (by decide) (by decide),
    by decide, by decide, by decide, by decide, by decide⟩

/-! ## Decoder calls per received byte (C6) -/

/-- C6, the code on any byte: `rxByte` calls `UAVTalkProcessInputStream` twice
for every received byte, first with the address of the handle field and then
with the session handle, so `n` bytes cause `2 * n` decoder calls and not `n`.
For the four bytes of the scenario the task makes eight decoder calls. -/
theorem decoder_called_twice_per_byte (E : Externals X) (c : Fin 2) (b : Nat) (w : World X) :
    decoderCalls (rxByteLog E c b w) =
      [ConnArg.addrOfCom c.val, ConnArg.handle (w.comms c).com] ∧
    (decoderCalls (rxByteLog E c b w)).length = 2 ∧
    (decoderCalls (transmitterRxTask (stubExt 4) 0 4 (stubWorld [])).trace).length = 8 := by
  have h : decoderCalls (rxByteLog E c b w) =
      [ConnArg.addrOfCom c.val, ConnArg.handle (w.comms c).com] := by
    unfold rxByteLog rxByte
    by_cases hc : (sessionDecode E c b w).1 = UAVTalkRxState.UAVTALK_STATE_COMPLETE
    · unfold sessionDecode at hc
      by_cases hq : (xQueueSend E.TELEM_QUEUE_SIZE
          (w.comms (w.comms c).relay_comm).txqueue
          { obj := (E.UAVTalkGetPacket (sessionDecode E c b w).2.1 (w.comms c).com).1,
            instId := 0, event := UAVObjEventType.EV_TRANSMIT_REQ }).1 = true
      · unfold sessionDecode at hq
        simp [hc, hq, setComms, setMem, extCall, logCall, decoderCalls]
      · unfold sessionDecode at hq
        simp [hc, hq, setComms, setMem, extCall, logCall, decoderCalls]
    · unfold sessionDecode at hc
      simp [hc, setMem, extCall, decoderCalls]
  refine ⟨h, by rw [h]; rfl, by decide⟩

/-! ## Acknowledgement flag (C7) -/

/-- C7, the code at the failing input: the object store reports
`telemetryAcked = 1` for the object, yet the dispatch of its object-change
event passes 0, the value the uninitialised local `metadata` happens to hold,
and makes no `UAVObjGetMetadata` call; with another stack content the same
event in the same state is sent with flag 1. -/
theorem ack_flag_not_from_metadata :
    ((stubExt 4).UAVObjGetMetadata (stubWorld [0]).ext evUpdated.obj).telemetryAcked = 1 ∧
    ackArgs (dispatchLog (stubExt 4) stubStack evUpdated 0 (stubWorld [0])) = [0] ∧
    ackArgs (dispatchLog (stubExt 4) stubStackAcked evUpdated 0 (stubWorld [0])) = [1] ∧
    dispatchLog (stubExt 4) stubStack evUpdated 0 (stubWorld [0]) =
      [Call.wdgUpdateFlag, Call.sendObject 11 100 0 0 250 0] := by
  decide

/-! ## Exhausted retries on the poll tick (C8) -/

/-- C8, the code at the failing input: a poll tick whose two send attempts both
fail leaves `txErrors` at 0, whereas an object-change event with the same
failing transport raises it to 1. -/
theorem poll_tick_exhaustion_not_counted :
    sendResults (dispatchLog (stubExt 4) stubStack evPoll 1 (stubWorld [])) = [-1, -1] ∧
    (stubWorld []).txErrors = 0 ∧
    (processObjEvent (stubExt 4) stubStack evPoll 1 (stubWorld [])).txErrors = 0 ∧
    (processObjEvent (stubExt 4) stubStack evUpdated 1 (stubWorld [])).txErrors = 1 := by
  decide

/-! ## Retry accounting (C9) -/

/-- C9: a dispatch that makes `n ≥ 1` transport attempts adds exactly `n - 1`
to `txRetries`, for every event kind and whatever the last result; a dispatch
that makes no attempt leaves `txRetries` unchanged (the 32-bit counter not
being at its maximum). -/
theorem retry_accounting (E : Externals X) (stk : Stack) (ev : UAVObjEvent) (c : Fin 2)
    (w : World X) (hR : w.txRetries + 1 < 4294967296) :
    (1 ≤ (sendResults (dispatchLog E stk ev c w)).length →
      (processObjEvent E stk ev c w).txRetries =
        w.txRetries + ((sendResults (dispatchLog E stk ev c w)).length - 1)) ∧
    ((sendResults (dispatchLog E stk ev c w)).length = 0 →
      (processObjEvent E stk ev c w).txRetries = w.txRetries) := by
  obtain ⟨_, hcase⟩ := dispatch_outcome E stk ev c w
  rcases hcase with ⟨_, _, hl, hret, _⟩ | ⟨_, ⟨s, _, hl, hret, _⟩ | ⟨s, hl, hret, _⟩⟩
  · rw [hl, hret]; simp
  · rw [hl, hret]
    simp only [wrap32, List.length_singleton]
    omega
  · rw [hl, hret]
    simp only [wrap32, List.length_cons, List.length_nil]
    omega

/-- C9, evaluated: a poll tick failing twice (two attempts, one retry counted)
and an event with a tag outside the `switch` (no attempt, nothing counted). -/
theorem retry_accounting_witness :
    ((1 ≤ (sendResults (dispatchLog (stubExt 4) stubStack evPoll 1 (stubWorld []))).length →
        (processObjEvent (stubExt 4) stubStack evPoll 1 (stubWorld [])).txRetries =
          (stubWorld []).txRetries +
            ((sendResults (dispatchLog (stubExt 4) stubStack evPoll 1 (stubWorld []))).length
              - 1)) ∧
      ((sendResults (dispatchLog (stubExt 4) stubStack evPoll 1 (stubWorld []))).length = 0 →
        (processObjEvent (stubExt 4) stubStack evPoll 1 (stubWorld [])).txRetries
          = (stubWorld []).txRetries)) ∧
    (sendResults (dispatchLog (stubExt 4) stubStack evPoll 1 (stubWorld []))).length = 2 ∧
    (processObjEvent (stubExt 4) stubStack evPoll 1 (stubWorld [])).txRetries = 1 :=
  ⟨retry_accounting (stubExt 4) stubStack evPoll 1 (stubWorld []) (by decide),
    by decide, by decide⟩

/-! ## Statistics and links (C10) -/

/-- C10, counterexample: an event dispatched by the Tx task of link 0 against a
failing transport changes the retries and errors counters read through
link 1. -/
theorem stats_not_per_link :
    linkStats (stubWorld []) 1 = (0, 0) ∧
    linkStats (processObjEvent (stubExt 4) stubStack evUpdated 0 (stubWorld [])) 1 = (1, 1) ∧
    (linkStats (processObjEvent (stubExt 4) stubStack evUpdated 0 (stubWorld [])) 1).1
      ≠ (linkStats (stubWorld []) 1).1 ∧
    (linkStats (processObjEvent (stubExt 4) stubStack evUpdated 0 (stubWorld [])) 1).2
      ≠ (linkStats (stubWorld []) 1).2 := by
  decide

/-- C10, amended: the statistics are module-wide.  There is one retries counter
and one errors counter, shared by both links: after an event dispatched by the
Tx task of link `a`, the counters read through the other link `b` are those
read through `a`; a dispatch by `a` that makes `n ≥ 1` attempts adds `n - 1` to
the retries counter read through `b`, and a dispatch by `a` of a non-null
object whose attempts all fail adds 1 to the errors counter read through `b`. -/
theorem stats_shared_by_links (E : Externals X) (stk : Stack) (ev : UAVObjEvent) (a b : Fin 2)
    (w : World X) (hR : w.txRetries + 1 < 4294967296) (hE : w.txErrors + 1 < 4294967296) :
    linkStats (processObjEvent E stk ev a w) b = linkStats (processObjEvent E stk ev a w) a ∧
    (1 ≤ (sendResults (dispatchLog E stk ev a w)).length →
      (linkStats (processObjEvent E stk ev a w) b).1 =
        (linkStats w b).1 + ((sendResults (dispatchLog E stk ev a w)).length - 1)) ∧
    (ev.obj ≠ 0 → 1 ≤ (sendResults (dispatchLog E stk ev a w)).length →
      (∀ r ∈ sendResults (dispatchLog E stk ev a w), r = -1) →
      (linkStats (processObjEvent E stk ev a w) b).2 = (linkStats w b).2 + 1) := by
  refine ⟨rfl, ?_, ?_⟩
  · obtain ⟨_, hcase⟩ := dispatch_outcome E stk ev a w
    unfold linkStats
    rcases hcase with ⟨_, _, hl, hret, _⟩ | ⟨_, ⟨s, _, hl, hret, _⟩ | ⟨s, hl, hret, _⟩⟩
    · rw [hl]; simp
    · rw [hl, hret]
      simp only [wrap32, List.length_singleton]
      omega
    · rw [hl, hret]
      simp only [wrap32, List.length_cons, List.length_nil]
      omega
  · intro hobj hn hfail
    obtain ⟨_, hcase⟩ := dispatch_outcome E stk ev a w
    unfold linkStats
    rcases hcase with ⟨_, _, hl, _, _⟩ | ⟨_, ⟨s, hs, hl, _, _⟩ | ⟨s, hl, _, herr⟩⟩
    · rw [hl] at hn; simp at hn
    · exact absurd (hfail s (by rw [hl]; simp)) hs
    · have hs : s = -1 := hfail s (by rw [hl]; simp)
      simp only [herr, hobj, hs, ne_eq, not_false_eq_true, and_self, if_true, wrap32]
      omega

/-- C10, amended, evaluated: link 0 dispatches an event that fails twice; the
counters read through link 1 are those of link 0, and both the retries and
the errors counter read through link 1 have grown by one. -/
theorem stats_shared_by_links_witness :
    linkStats (processObjEvent (stubExt 4) stubStack evUpdated 0 (stubWorld [])) 1
      = linkStats (processObjEvent (stubExt 4) stubStack evUpdated 0 (stubWorld [])) 0 ∧
    (1 ≤ (sendResults (dispatchLog (stubExt 4) stubStack evUpdated 0 (stubWorld []))).length →
      (linkStats (processObjEvent (stubExt 4) stubStack evUpdated 0 (stubWorld [])) 1).1 =
        (linkStats (stubWorld []) 1).1 +
          ((sendResults (dispatchLog (stubExt 4) stubStack evUpdated 0 (stubWorld []))).length
            - 1)) ∧
    (evUpdated.obj ≠ 0 →
      1 ≤ (sendResults (dispatchLog (stubExt 4) stubStack evUpdated 0 (stubWorld []))).length →
      (∀ r ∈ sendResults (dispatchLog (stubExt 4) stubStack evUpdated 0 (stubWorld [])), r = -1) →
      (linkStats (processObjEvent (stubExt 4) stubStack evUpdated 0 (stubWorld [])) 1).2
        = (linkStats (stubWorld []) 1).2 + 1) :=
  stats_shared_by_links (stubExt 4) stubStack evUpdated 0 1 (stubWorld []) (by decide) (by decide)

/-! ## Lemmas on the queues and the running router -/

theorem accepted_append (n : Nat) (a b : List Call) :
    accepted n (a ++ b) = accepted n a ++ accepted n b := by
  induction a with
  | nil => rfl
  | cons x xs ih =>
    cases x <;> simp [accepted, ih]
    split <;> simp

theorem received_append (n : Nat) (a b : List Call) :
    received n (a ++ b) = received n a ++ received n b := by
  induction a with
  | nil => rfl
  | cons x xs ih =>
    cases x <;> simp [received, ih]
    split <;> simp

theorem queueSends_append (a b : List Call) :
    queueSends (a ++ b) = queueSends a ++ queueSends b := by
  induction a with
  | nil => rfl
  | cons x xs ih => cases x <;> simp [queueSends, ih]

theorem no_queue_ops (l : List Call) (h : ∀ x ∈ l, Call.isQueueOp x = false) (n : Nat) :
    accepted n l = [] ∧ received n l = [] ∧ queueSends l = [] := by
  induction l with
  | nil => exact ⟨rfl, rfl, rfl⟩
  | cons x xs ih =>
    have hx : Call.isQueueOp x = false := h x (List.mem_cons_self _ _)
    obtain ⟨h1, h2, h3⟩ := ih (fun y hy => h y (List.mem_cons_of_mem _ hy))
    cases x <;> simp_all [accepted, received, queueSends, Call.isQueueOp]

theorem calm_refl (w : World X) : Calm w w :=
  ⟨[], by simp, by simp, rfl⟩

theorem calm_trans {a b c : World X} (h1 : Calm a b) (h2 : Calm b c) : Calm a c := by
  obtain ⟨l1, t1, q1, c1⟩ := h1
  obtain ⟨l2, t2, q2, c2⟩ := h2
  refine ⟨l1 ++ l2, ?_, ?_, c2.trans c1⟩
  · rw [t2, t1, List.append_assoc]
  · intro x hx
    rcases List.mem_append.mp hx with h | h
    · exact q1 x h
    · exact q2 x h

theorem calm_log (w : World X) (c : Call) (hc : Call.isQueueOp c = false) :
    Calm w (logCall w c) :=
  ⟨[c], rfl, by simpa using hc, rfl⟩

theorem calm_ext (w : World X) (x : X) (c : Call) (hc : Call.isQueueOp c = false) :
    Calm w (extCall w x c) :=
  ⟨[c], rfl, by simpa using hc, rfl⟩

theorem calm_cntr (w : World X) (n : Nat) : Calm w (setCntr w n) :=
  ⟨[], by simp [setCntr], by simp, rfl⟩

theorem calm_mem (w : World X) (m : Mem) : Calm w (setMem w m) :=
  ⟨[], by simp [setMem], by simp, rfl⟩

theorem readChannels_calm (E : Externals X) (debug : Bool) (n : Nat) :
    ∀ (i : Nat) (rcvr : Nat → Nat) (w : World X), Calm w (readChannels E debug n i rcvr w).2 := by
  induction n with
  | zero => intro i rcvr w; exact calm_refl w
  | succ n ih =>
    intro i rcvr w
    simp only [readChannels]
    refine calm_trans ?_ (ih _ _ _)
    cases debug
    · exact calm_log _ _ (by rfl)
    · exact calm_trans (calm_trans (calm_log _ _ (by rfl)) (calm_log _ _ (by rfl)))
        (calm_log _ _ (by rfl))

theorem pollSample_calm (E : Externals X) (stk : Stack) (w : World X) :
    Calm w (pollSample E stk w) := by
  unfold pollSample
  dsimp only
  refine calm_trans ?_ (calm_ext _ _ _ (by rfl))
  refine calm_trans ?_ (calm_ext _ _ _ (by rfl))
  refine calm_trans ?_ (calm_log _ _ (by rfl))
  by_cases h : w.cntr = 20
  · simp only [h, decide_True, if_true]
    refine calm_trans ?_ (calm_log _ _ (by rfl))
    refine calm_trans ?_ (readChannels_calm E true _ _ _ _)
    exact calm_trans (calm_cntr _ _) (calm_log _ _ (by rfl))
  · simp only [h, decide_False, if_false]
    refine calm_trans ?_ (readChannels_calm E false _ _ _ _)
    exact calm_cntr _ _

theorem retryLoop_calm (body : World X → Int × World X) (hb : ∀ v, Calm v (body v).2)
    (v : World X) : Calm v (retryLoop body MAX_RETRIES 0 (-1) v).2.2 := by
  rw [retryLoop_two]
  by_cases h : (body v).1 = -1
  · rw [if_pos h]; exact calm_trans (hb v) (hb _)
  · rw [if_neg h]; exact hb v

theorem addRetries_calm (w : World X) (n : Int) : Calm w (addRetries w n) :=
  ⟨[], by simp [addRetries], by simp, rfl⟩

theorem countError_calm (w : World X) (s : Int) : Calm w (countError w s) := by
  unfold countError
  by_cases h : s = -1
  · rw [if_pos h]; exact ⟨[], by simp, by simp, rfl⟩
  · rw [if_neg h]; exact calm_refl w

/-- A dispatch makes no queue operation and leaves the links as they were. -/
theorem processObjEvent_calm (E : Externals X) (stk : Stack) (ev : UAVObjEvent) (c : Fin 2)
    (w : World X) : Calm w (processObjEvent E stk ev c w) := by
  have hwdg : Calm w (logCall w Call.wdgUpdateFlag) := calm_log _ _ (by rfl)
  have hso : ∀ (com obj instId acked timeout : Nat) (v : World X),
      Calm v (callSendObject E com obj instId acked timeout v).2 :=
    fun _ _ _ _ _ v => calm_ext v _ _ (by rfl)
  have hsr : ∀ (com obj instId timeout : Nat) (v : World X),
      Calm v (callSendObjectRequest E com obj instId timeout v).2 :=
    fun _ _ _ _ v => calm_ext v _ _ (by rfl)
  have hsp : ∀ (com obj : Nat) (v : World X), Calm v (callSendPacket E com obj v).2 :=
    fun _ _ v => calm_trans (calm_ext v _ _ (by rfl)) (calm_mem _ _)
  unfold processObjEvent
  dsimp only
  by_cases h0 : ev.obj = 0
  · rw [if_pos h0]
    exact calm_trans (calm_trans (calm_trans hwdg (pollSample_calm E stk _))
      (retryLoop_calm _ (hso _ _ _ _ _) _)) (addRetries_calm _ _)
  · rw [if_neg h0]
    cases ev.event with
    | EV_OTHER n => exact hwdg
    | EV_UPDATED =>
      exact calm_trans (calm_trans (calm_trans hwdg (retryLoop_calm _ (hso _ _ _ _ _) _))
        (addRetries_calm _ _)) (countError_calm _ _)
    | EV_UPDATED_MANUAL =>
      exact calm_trans (calm_trans (calm_trans hwdg (retryLoop_calm _ (hso _ _ _ _ _) _))
        (addRetries_calm _ _)) (countError_calm _ _)
    | EV_UPDATE_REQ =>
      exact calm_trans (calm_trans (calm_trans hwdg (retryLoop_calm _ (hsr _ _ _ _) _))
        (addRetries_calm _ _)) (countError_calm _ _)
    | EV_TRANSMIT_REQ =>
      exact calm_trans (calm_trans (calm_trans hwdg (retryLoop_calm _ (hsp _ _) _))
        (addRetries_calm _ _)) (countError_calm _ _)

theorem calm_keeps_queue_account {a b : World X} (h : Calm a b) (c : Fin 2)
    (hq : accepted c.val a.trace = received c.val a.trace ++ (a.comms c).txqueue) :
    accepted c.val b.trace = received c.val b.trace ++ (b.comms c).txqueue := by
  obtain ⟨l, t, q, hc⟩ := h
  obtain ⟨h1, h2, _⟩ := no_queue_ops l q c.val
  rw [t, hc, accepted_append, received_append, h1, h2, List.append_nil, List.append_nil, hq]

theorem produce_keeps_queue_account (E : Externals X) (d : Fin 2) (ev : UAVObjEvent)
    (w : World X) (c : Fin 2)
    (hq : accepted c.val w.trace = received c.val w.trace ++ (w.comms c).txqueue) :
    accepted c.val (produce E d ev w).trace =
      received c.val (produce E d ev w).trace ++ ((produce E d ev w).comms c).txqueue := by
  by_cases hcd : c = d
  · subst hcd
    by_cases hfull : (w.comms c).txqueue.length < E.TELEM_QUEUE_SIZE
    · simp [produce, logCall, setComms, setComm, xQueueSend, hfull, accepted_append,
        received_append, accepted, received, hq]
    · simp [produce, logCall, setComms, setComm, xQueueSend, hfull, accepted_append,
        received_append, accepted, received, hq]
  · have hv : ¬ d.val = c.val := fun h => hcd (Fin.ext h.symm)
    simp [produce, logCall, setComms, setComm, accepted_append, received_append, accepted,
      received, hq, hcd, hv]

theorem produce_keeps_relay (E : Externals X) (d : Fin 2) (ev : UAVObjEvent) (w : World X)
    (L : Fin 2) : ((produce E d ev w).comms L).relay_comm = (w.comms L).relay_comm := by
  by_cases h : L = d
  · subst h; simp [produce, logCall, setComms, setComm]
  · simp [produce, logCall, setComms, setComm, h]

/-- The world `rxByte` returns: the two decoder calls, then, on a complete
packet, `UAVTalkGetPacket`, the hand-over to the queue of the relay peer and,
when the queue refuses the event, the release of the buffer. -/
theorem rxByte_eq (E : Externals X) (c : Fin 2) (b : Nat) (w : World X) :
    rxByte E c b w =
      if (sessionDecode E c b w).1 = UAVTalkRxState.UAVTALK_STATE_COMPLETE then
        if (xQueueSend E.TELEM_QUEUE_SIZE (w.comms (w.comms c).relay_comm).txqueue
            (rxForwardEvent E c b w)).1 = true then
          produce E (w.comms c).relay_comm (rxForwardEvent E c b w) (rxGotPacket E c b w)
        else
          setMem
            (produce E (w.comms c).relay_comm (rxForwardEvent E c b w) (rxGotPacket E c b w))
            (zeroFirstByte (sessionDecode E c b w).2.2 (rxForwardEvent E c b w).obj)
      else rxDecoded E c b w := by
  rfl

theorem rxDecoded_calm (E : Externals X) (c : Fin 2) (b : Nat) (w : World X) :
    Calm w (rxDecoded E c b w) :=
  calm_trans (calm_trans (calm_trans (calm_ext _ _ _ (by rfl)) (calm_mem _ _))
    (calm_ext _ _ _ (by rfl))) (calm_mem _ _)

theorem rxGotPacket_calm (E : Externals X) (c : Fin 2) (b : Nat) (w : World X) :
    Calm w (rxGotPacket E c b w) :=
  calm_trans (rxDecoded_calm E c b w) (calm_ext _ _ _ (by rfl))

theorem rxByte_keeps_queue_account (E : Externals X) (d : Fin 2) (b : Nat) (w : World X)
    (c : Fin 2) (hq : accepted c.val w.trace = received c.val w.trace ++ (w.comms c).txqueue) :
    accepted c.val (rxByte E d b w).trace =
      received c.val (rxByte E d b w).trace ++ ((rxByte E d b w).comms c).txqueue := by
  rw [rxByte_eq]
  have hg := calm_keeps_queue_account (rxGotPacket_calm E d b w) c hq
  have hp := produce_keeps_queue_account E (w.comms d).relay_comm (rxForwardEvent E d b w)
    (rxGotPacket E d b w) c hg
  split
  · split
    · exact hp
    · exact hp
  · exact calm_keeps_queue_account (rxDecoded_calm E d b w) c hq

theorem rxByte_keeps_relay (E : Externals X) (d : Fin 2) (b : Nat) (w : World X) (L : Fin 2) :
    ((rxByte E d b w).comms L).relay_comm = (w.comms L).relay_comm := by
  rw [rxByte_eq]
  have hg : (rxGotPacket E d b w).comms = w.comms := (rxGotPacket_calm E d b w).choose_spec.2.2
  have hp := produce_keeps_relay E (w.comms d).relay_comm (rxForwardEvent E d b w)
    (rxGotPacket E d b w) L
  rw [hg] at hp
  split
  · split
    · exact hp
    · exact hp
  · rw [(rxDecoded_calm E d b w).choose_spec.2.2]

theorem rxIter_keeps_queue_account (E : Externals X) (d : Fin 2) (inputPort : Nat)
    (w : World X) (c : Fin 2)
    (hq : accepted c.val w.trace = received c.val w.trace ++ (w.comms c).txqueue) :
    accepted c.val (transmitterRxTaskIter E d inputPort w).trace =
      received c.val (transmitterRxTaskIter E d inputPort w).trace ++
        ((transmitterRxTaskIter E d inputPort w).comms c).txqueue := by
  unfold transmitterRxTaskIter
  by_cases hp : inputPort = 0
  · simp only [hp, ne_eq, not_true_eq_false, if_false]
    exact calm_keeps_queue_account (calm_log _ _ (by rfl)) c hq
  · simp only [hp, ne_eq, not_false_eq_true, if_true]
    have h1 := calm_keeps_queue_account
      (calm_ext w (E.PIOS_COM_ReceiveBuffer w.ext inputPort 1 500).2
        (Call.comReceiveBuffer inputPort 1 500
          ((E.PIOS_COM_ReceiveBuffer w.ext inputPort 1 500).1.take 1)) (by rfl)) c hq
    cases hb : (E.PIOS_COM_ReceiveBuffer w.ext inputPort 1 500).1 with
    | nil => simpa [hb] using h1
    | cons b bs =>
      rw [hb] at h1
      simpa [hb] using rxByte_keeps_queue_account E d b _ c h1

theorem rxIter_keeps_relay (E : Externals X) (d : Fin 2) (inputPort : Nat) (w : World X)
    (L : Fin 2) :
    ((transmitterRxTaskIter E d inputPort w).comms L).relay_comm = (w.comms L).relay_comm := by
  unfold transmitterRxTaskIter
  by_cases hp : inputPort = 0
  · simp [hp, logCall]
  · simp only [hp, ne_eq, not_false_eq_true, if_true]
    cases hb : (E.PIOS_COM_ReceiveBuffer w.ext inputPort 1 500).1 with
    | nil => simp [extCall]
    | cons b bs => simpa [extCall] using rxByte_keeps_relay E d b _ L

theorem txIter_keeps_queue_account (E : Externals X) (stk : Stack) (d : Fin 2) (w : World X)
    (c : Fin 2) (hq : accepted c.val w.trace = received c.val w.trace ++ (w.comms c).txqueue) :
    accepted c.val (transmitterTxTaskIter E stk d w).trace =
      received c.val (transmitterTxTaskIter E stk d w).trace ++
        ((transmitterTxTaskIter E stk d w).comms c).txqueue := by
  unfold transmitterTxTaskIter
  cases hd : (w.comms d).txqueue with
  | nil => simpa using hq
  | cons ev rest =>
    simp only
    apply calm_keeps_queue_account (processObjEvent_calm E stk ev d _) c
    by_cases hcd : c = d
    · subst hcd
      simp [logCall, setComms, setComm, accepted_append, received_append, accepted, received,
        hq, hd]
    · have hv : ¬ d.val = c.val := fun h => hcd (Fin.ext h.symm)
      simp [logCall, setComms, setComm, accepted_append, received_append, accepted, received,
        hq, hcd, hv]

theorem txIter_keeps_relay (E : Externals X) (stk : Stack) (d : Fin 2) (w : World X)
    (L : Fin 2) :
    ((transmitterTxTaskIter E stk d w).comms L).relay_comm = (w.comms L).relay_comm := by
  unfold transmitterTxTaskIter
  cases hd : (w.comms d).txqueue with
  | nil => rfl
  | cons ev rest =>
    simp only
    rw [(processObjEvent_calm E stk ev d _).choose_spec.2.2]
    by_cases h : L = d
    · subst h; simp [logCall, setComms, setComm]
    · simp [logCall, setComms, setComm, h]

theorem transmitData_calm (E : Externals X) (d : Fin 2) (data : Nat) (length : Int)
    (w : World X) : Calm w (transmitData E d data length w).2 := by
  unfold transmitData
  by_cases hp : (w.comms d).port = 0
  · simp only [hp, ne_eq, not_true_eq_false, if_false]; exact calm_refl w
  · simp only [hp, ne_eq, not_false_eq_true, if_true]; exact calm_ext _ _ _ (by rfl)

/-- Every step of the router keeps, for every link, the account of its queue:
the events the queue accepted are those its transmit task took, in the same
order, followed by those still waiting. -/
theorem step_keeps_queue_account (E : Externals X) (w : World X) (step : RouterStep)
    (c : Fin 2) (hq : accepted c.val w.trace = received c.val w.trace ++ (w.comms c).txqueue) :
    accepted c.val (routerStep E w step).trace =
      received c.val (routerStep E w step).trace ++ ((routerStep E w step).comms c).txqueue := by
  cases step with
  | txIter stk d => exact txIter_keeps_queue_account E stk d w c hq
  | rxIter d inputPort => exact rxIter_keeps_queue_account E d inputPort w c hq
  | produce d ev => exact produce_keeps_queue_account E d ev w c hq
  | send d data length => exact calm_keeps_queue_account (transmitData_calm E d data length w) c hq

theorem step_keeps_relay (E : Externals X) (w : World X) (step : RouterStep) (L : Fin 2) :
    ((routerStep E w step).comms L).relay_comm = (w.comms L).relay_comm := by
  cases step with
  | txIter stk d => exact txIter_keeps_relay E stk d w L
  | rxIter d inputPort => exact rxIter_keeps_relay E d inputPort w L
  | produce d ev => exact produce_keeps_relay E d ev w L
  | send d data length =>
    show ((transmitData E d data length w).2.comms L).relay_comm = _
    rw [(transmitData_calm E d data length w).choose_spec.2.2]

theorem run_keeps_queue_account (E : Externals X) (steps : List RouterStep) :
    ∀ (w : World X) (c : Fin 2),
      accepted c.val w.trace = received c.val w.trace ++ (w.comms c).txqueue →
      accepted c.val (runSteps E w steps).trace =
        received c.val (runSteps E w steps).trace ++ ((runSteps E w steps).comms c).txqueue := by
  induction steps with
  | nil => intro w c hq; exact hq
  | cons st rest ih =>
    intro w c hq
    exact ih (routerStep E w st) c (step_keeps_queue_account E w st c hq)

theorem run_keeps_relay (E : Externals X) (steps : List RouterStep) :
    ∀ (w : World X) (L : Fin 2),
      ((runSteps E w steps).comms L).relay_comm = (w.comms L).relay_comm := by
  induction steps with
  | nil => intro w L; rfl
  | cons st rest ih =>
    intro w L
    exact (ih (routerStep E w st) L).trans (step_keeps_relay E w st L)

theorem initialize_queue_account (E : Externals X) (x : X) (m : Mem) (c : Fin 2) :
    accepted c.val (TransmitterControlsInitialize E (startWorld x m)).2.trace =
      received c.val (TransmitterControlsInitialize E (startWorld x m)).2.trace ++
        ((TransmitterControlsInitialize E (startWorld x m)).2.comms c).txqueue := by
  have h : c = 0 ∨ c = 1 := by omega
  rcases h with rfl | rfl <;>
    simp [TransmitterControlsInitialize, startWorld, accepted, received]

theorem portReads_append (a b : List Call) :
    portReads (a ++ b) = portReads a ++ portReads b := by
  induction a with
  | nil => rfl
  | cons x xs ih => cases x <;> simp [portReads, ih]

theorem decoderCalls_append (a b : List Call) :
    decoderCalls (a ++ b) = decoderCalls a ++ decoderCalls b := by
  induction a with
  | nil => rfl
  | cons x xs ih => cases x <;> simp [decoderCalls, ih]

theorem idle_log (n : Nat) :
    portReads (List.replicate n (Call.taskDelay 5)) = [] ∧
    decoderCalls (List.replicate n (Call.taskDelay 5)) = [] ∧
    queueSends (List.replicate n (Call.taskDelay 5)) = [] := by
  induction n with
  | zero => exact ⟨rfl, rfl, rfl⟩
  | succ n ih => simpa [List.replicate_succ, portReads, decoderCalls, queueSends] using ih

theorem rxTaskRun_idle (E : Externals X) (c : Fin 2) (n : Nat) :
    ∀ w : World X, rxTaskRun E c 0 n w =
      { w with trace := w.trace ++ List.replicate n (Call.taskDelay 5) } := by
  induction n with
  | zero => intro w; simp [rxTaskRun]
  | succ n ih =>
    intro w
    simp only [rxTaskRun, transmitterRxTaskIter, ne_eq, not_true_eq_false, if_false]
    rw [ih]
    simp [logCall, List.replicate_succ]

/-- Effect of `rxByte` when the decoder reports a complete packet and the queue
of the relay peer is full. -/
theorem rxByte_full (E : Externals X) (c : Fin 2) (b : Nat) (w : World X)
    (hcomplete : (sessionDecode E c b w).1 = UAVTalkRxState.UAVTALK_STATE_COMPLETE)
    (hfull : E.TELEM_QUEUE_SIZE ≤ (w.comms (w.comms c).relay_comm).txqueue.length) :
    (rxByte E c b w).comms = w.comms ∧
    rxByteLog E c b w =
      [Call.processInputStream (ConnArg.addrOfCom c.val) b
          (E.UAVTalkProcessInputStream w.ext w.mem (ConnArg.addrOfCom c.val) b).1,
        Call.processInputStream (ConnArg.handle (w.comms c).com) b
          UAVTalkRxState.UAVTALK_STATE_COMPLETE,
        Call.getPacket (w.comms c).com (rxForwardEvent E c b w).obj,
        Call.queueSend (w.comms c).relay_comm.val (rxForwardEvent E c b w) false] ∧
    (rxByte E c b w).mem =
      zeroFirstByte (sessionDecode E c b w).2.2 (rxForwardEvent E c b w).obj ∧
    (rxByte E c b w).txErrors = w.txErrors ∧
    (rxByte E c b w).txRetries = w.txRetries ∧
    (rxByte E c b w).ext = (E.UAVTalkGetPacket (sessionDecode E c b w).2.1 (w.comms c).com).2 := by
  have hq : ¬ (w.comms (w.comms c).relay_comm).txqueue.length < E.TELEM_QUEUE_SIZE := by omega
  have hx : (xQueueSend E.TELEM_QUEUE_SIZE (w.comms (w.comms c).relay_comm).txqueue
      (rxForwardEvent E c b w)) = (false, (w.comms (w.comms c).relay_comm).txqueue) := by
    simp [xQueueSend, hq]
  unfold rxByteLog
  rw [rxByte_eq, if_pos hcomplete, hx]
  simp only [Bool.false_eq_true, if_false]
  refine ⟨?_, ?_, ?_, ?_, ?_, ?_⟩
  · funext L
    by_cases h : L = (w.comms c).relay_comm
    · subst h
      simp [setMem, produce, logCall, setComms, setComm, rxGotPacket, rxDecoded, extCall, hx]
    · simp [setMem, produce, logCall, setComms, setComm, rxGotPacket, rxDecoded, extCall, h]
  · have hx1 := congrArg Prod.fst hx
    simp only [rxForwardEvent] at hx1
    simp [setMem, produce, logCall, setComms, rxGotPacket, rxDecoded, extCall, hx1, hcomplete,
      rxForwardEvent]
  · simp [setMem]
  · simp [setMem, produce, logCall, setComms, rxGotPacket, rxDecoded, extCall]
  · simp [setMem, produce, logCall, setComms, rxGotPacket, rxDecoded, extCall]
  · simp [setMem, produce, logCall, setComms, rxGotPacket, rxDecoded, extCall]

theorem txIter_empty (E : Externals X) (stk : Stack) (a : Fin 2) (w : World X)
    (h : (w.comms a).txqueue = []) : transmitterTxTaskIter E stk a w = w := by
  simp [transmitterTxTaskIter, h]

theorem txIter_cons (E : Externals X) (stk : Stack) (a : Fin 2) (w : World X)
    (ev : UAVObjEvent) (rest : List UAVObjEvent) (h : (w.comms a).txqueue = ev :: rest) :
    transmitterTxTaskIter E stk a w =
      processObjEvent E stk ev a
        (logCall (setComms w (setComm w.comms a { (w.comms a) with txqueue := rest }))
          (Call.queueReceive a.val ev)) := by
  simp [transmitterTxTaskIter, h]

theorem txIterLog_cons (E : Externals X) (stk : Stack) (a : Fin 2) (w : World X)
    (ev : UAVObjEvent) (rest : List UAVObjEvent) (h : (w.comms a).txqueue = ev :: rest) :
    txIterLog E stk a w =
      Call.queueReceive a.val ev ::
        dispatchLog E stk ev a
          (logCall (setComms w (setComm w.comms a { (w.comms a) with txqueue := rest }))
            (Call.queueReceive a.val ev)) ∧
    (transmitterTxTaskIter E stk a w).comms =
      setComm w.comms a { (w.comms a) with txqueue := rest } := by
  obtain ⟨l, t, _, hc⟩ := processObjEvent_calm E stk ev a
    (logCall (setComms w (setComm w.comms a { (w.comms a) with txqueue := rest }))
      (Call.queueReceive a.val ev))
  have hl := dispatchLog_eq E stk ev a _ l t
  unfold txIterLog
  rw [txIter_cons E stk a w ev rest h, hl, t, hc]
  simp [logCall, setComms]

/-! ## Disabled port and dispatch (C11) -/

/-- C11, counterexample: link 0 has the disabled port 0 and its send callback
fails at once, so the transport reports -1; the dispatch of an object-change
event on that link still goes through the loop twice and `txRetries` moves
from 0 to 1. -/
theorem disabled_port_retry_refuted :
    ((disabledWorld []).comms 0).port = 0 ∧
    (transmitData (stubExtNoGcs 4) 0 100 4 (disabledWorld [])).1 = -1 ∧
    sendResults (dispatchLog (stubExtNoGcs 4) stubStack evUpdated 0 (disabledWorld []))
      = [-1, -1] ∧
    (processObjEvent (stubExtNoGcs 4) stubStack evUpdated 0 (disabledWorld [])).txRetries
      ≠ (disabledWorld []).txRetries := by
  decide

/-- C11, amended: the fast failure of a disabled port is confined to the send
callback; `processObjEvent` does not look at the port.  For a link whose port
is 0 the callback returns -1 at once, and the dispatch of any event with a null
object or one of the four tags of the `switch` still enters the send loop: it
makes at least one attempt, a failed first attempt is followed by a second
one and adds 1 to `txRetries`, and `txRetries` is unchanged only when the
first attempt succeeds. -/
theorem disabled_port_goes_through_loop (E : Externals X) (stk : Stack) (ev : UAVObjEvent)
    (c : Fin 2) (w : World X) (hport : (w.comms c).port = 0)
    (hsent : ev.obj = 0 ∨ ev.event.isSent = true) (hR : w.txRetries + 1 < 4294967296) :
    (∀ (data : Nat) (length : Int), transmitData E c data length w = (-1, w)) ∧
    1 ≤ (sendResults (dispatchLog E stk ev c w)).length ∧
    (∀ r rs, sendResults (dispatchLog E stk ev c w) = r :: rs → r = -1 →
      (sendResults (dispatchLog E stk ev c w)).length = MAX_RETRIES ∧
      (processObjEvent E stk ev c w).txRetries = w.txRetries + 1) ∧
    (∀ r rs, sendResults (dispatchLog E stk ev c w) = r :: rs → r ≠ -1 →
      (processObjEvent E stk ev c w).txRetries = w.txRetries) := by
  refine ⟨fun data length => by simp [transmitData, hport], ?_⟩
  obtain ⟨_, hcase⟩ := dispatch_outcome E stk ev c w
  rcases hcase with ⟨hobj, hk, _⟩ | ⟨_, ⟨s, hs, hl, hret, _⟩ | ⟨s, hl, hret, _⟩⟩
  · rcases hsent with h | h
    · exact absurd h hobj
    · rw [hk] at h; cases h
  · rw [hl, hret]
    refine ⟨by simp, ?_, ?_⟩
    · intro r rs h hr
      simp only [List.cons.injEq] at h
      exact absurd (h.1 ▸ hr) hs
    · intro r rs _ _
      simp only [wrap32]
      omega
  · rw [hl, hret]
    refine ⟨by simp, ?_, ?_⟩
    · intro r rs _ _
      refine ⟨rfl, ?_⟩
      simp only [wrap32]
      omega
    · intro r rs h hr
      simp only [List.cons.injEq] at h
      exact absurd h.1.symm hr

/-- C11, amended, evaluated: a forward event dispatched on the link whose port
is disabled. -/
theorem disabled_port_goes_through_loop_witness :
    (∀ (data : Nat) (length : Int),
      transmitData (stubExtNoGcs 4) 0 data length (disabledWorld []) = (-1, disabledWorld [])) ∧
    1 ≤ (sendResults
      (dispatchLog (stubExtNoGcs 4) stubStack evForward 0 (disabledWorld []))).length ∧
    (∀ r rs, sendResults (dispatchLog (stubExtNoGcs 4) stubStack evForward 0 (disabledWorld []))
        = r :: rs → r = -1 →
      (sendResults
        (dispatchLog (stubExtNoGcs 4) stubStack evForward 0 (disabledWorld []))).length
        = MAX_RETRIES ∧
      (processObjEvent (stubExtNoGcs 4) stubStack evForward 0 (disabledWorld [])).txRetries
        = (disabledWorld []).txRetries + 1) ∧
    (∀ r rs, sendResults (dispatchLog (stubExtNoGcs 4) stubStack evForward 0 (disabledWorld []))
        = r :: rs → r ≠ -1 →
      (processObjEvent (stubExtNoGcs 4) stubStack evForward 0 (disabledWorld [])).txRetries
        = (disabledWorld []).txRetries) :=
  disabled_port_goes_through_loop (stubExtNoGcs 4) stubStack evForward 0 (disabledWorld [])
    (by decide) (by decide) (by decide)

/-! ## Disabled port and the send callback (C12) -/

/-- C12: for a link whose port is the disabled sentinel 0, `transmitData`
returns -1 for every buffer and length and leaves the whole state as it was:
the port driver is not called, no byte is written, nothing is recorded.  The
same holds for the callbacks `transmitData1` and `transmitData2` of the two
links. -/
theorem disabled_port_send_fails (E : Externals X) (c : Fin 2) (w : World X)
    (hport : (w.comms c).port = 0) (data : Nat) (length : Int) :
    transmitData E c data length w = (-1, w) ∧
    (c = 0 → transmitData1 E data length w = (-1, w)) ∧
    (c = 1 → transmitData2 E data length w = (-1, w)) := by
  refine ⟨by simp [transmitData, hport], ?_, ?_⟩
  · intro h; subst h; simp [transmitData1, transmitData, hport]
  · intro h; subst h; simp [transmitData2, transmitData, hport]

/-- C12, evaluated: the callback of the link with the disabled port, asked to
send four bytes of the buffer at address 100. -/
theorem disabled_port_send_fails_witness :
    (transmitData (stubExtNoGcs 4) 0 100 4 (disabledWorld []) = (-1, disabledWorld []) ∧
      ((0 : Fin 2) = 0 →
        transmitData1 (stubExtNoGcs 4) 100 4 (disabledWorld []) = (-1, disabledWorld [])) ∧
      ((0 : Fin 2) = 1 →
        transmitData2 (stubExtNoGcs 4) 100 4 (disabledWorld []) = (-1, disabledWorld []))) ∧
    (transmitData (stubExtNoGcs 4) 0 100 4 (disabledWorld [])).2.trace
      = (disabledWorld []).trace :=
  ⟨disabled_port_send_fails (stubExtNoGcs 4) 0 (disabledWorld []) (by decide) 100 4, by decide⟩

/-! ## Disabled port and the receive task (C13) -/

/-- C13: for a link whose port is the disabled sentinel 0, every iteration of
`transmitterRxTask` only calls `vTaskDelay(5)`: after any number `n` of
iterations the trace has grown by `n` delays, with no port read, no decoder
call and no queue operation, and the links, the collaborators and the memory
are as they were.  Each single iteration does the same from any state. -/
theorem disabled_port_receive_inert (E : Externals X) (c : Fin 2) (w : World X)
    (hport : (w.comms c).port = 0) (n : Nat) :
    (transmitterRxTask E c n w).trace = w.trace ++ List.replicate n (Call.taskDelay 5) ∧
    portReads (transmitterRxTask E c n w).trace = portReads w.trace ∧
    decoderCalls (transmitterRxTask E c n w).trace = decoderCalls w.trace ∧
    queueSends (transmitterRxTask E c n w).trace = queueSends w.trace ∧
    (transmitterRxTask E c n w).comms = w.comms ∧
    (transmitterRxTask E c n w).ext = w.ext ∧
    (transmitterRxTask E c n w).mem = w.mem ∧
    (∀ v : World X, transmitterRxTaskIter E c (w.comms c).port v
      = logCall v (Call.taskDelay 5)) := by
  obtain ⟨h1, h2, h3⟩ := idle_log n
  unfold transmitterRxTask
  rw [hport, rxTaskRun_idle]
  refine ⟨rfl, ?_, ?_, ?_, rfl, rfl, rfl, ?_⟩
  · simp [portReads_append, h1]
  · simp [decoderCalls_append, h2]
  · simp [queueSends_append, h3]
  · intro v; simp [transmitterRxTaskIter]

/-- C13, evaluated: three iterations of the receive task of the link whose
port is disabled, although four bytes are waiting at the driver. -/
theorem disabled_port_receive_inert_witness :
    ((transmitterRxTask (stubExtNoGcs 4) 0 3 (disabledWorld [])).trace
        = (disabledWorld []).trace ++ List.replicate 3 (Call.taskDelay 5) ∧
      portReads (transmitterRxTask (stubExtNoGcs 4) 0 3 (disabledWorld [])).trace
        = portReads (disabledWorld []).trace ∧
      decoderCalls (transmitterRxTask (stubExtNoGcs 4) 0 3 (disabledWorld [])).trace
        = decoderCalls (disabledWorld []).trace ∧
      queueSends (transmitterRxTask (stubExtNoGcs 4) 0 3 (disabledWorld [])).trace
        = queueSends (disabledWorld []).trace ∧
      (transmitterRxTask (stubExtNoGcs 4) 0 3 (disabledWorld [])).comms
        = (disabledWorld []).comms ∧
      (transmitterRxTask (stubExtNoGcs 4) 0 3 (disabledWorld [])).ext = (disabledWorld []).ext ∧
      (transmitterRxTask (stubExtNoGcs 4) 0 3 (disabledWorld [])).mem = (disabledWorld []).mem ∧
      (∀ v : World StubState,
        transmitterRxTaskIter (stubExtNoGcs 4) 0 ((disabledWorld []).comms 0).port v
          = logCall v (Call.taskDelay 5))) ∧
    (transmitterRxTask (stubExtNoGcs 4) 0 3 (disabledWorld [])).ext.input = [170, 1, 0, 187] :=
  ⟨disabled_port_receive_inert (stubExtNoGcs 4) 0 (disabledWorld []) (by decide) 3, by decide⟩

/-! ## Drop on a full queue (C14) -/

/-- C14: when `rxByte` decodes a complete packet while the queue of the relay
peer holds at least `TELEM_QUEUE_SIZE` events, it makes exactly one zero-wait
`xQueueSend` attempt, which fails; the forward event enters no queue, every
link (the peer queue in particular, entries and order) is exactly as before,
and the router keeps nothing of the packet: it releases the buffer by
zeroing its first byte, so nothing is left to retry. -/
theorem drop_on_full_keeps_queue (E : Externals X) (c : Fin 2) (b : Nat) (w : World X)
    (hcomplete : (sessionDecode E c b w).1 = UAVTalkRxState.UAVTALK_STATE_COMPLETE)
    (hfull : E.TELEM_QUEUE_SIZE ≤ (w.comms (w.comms c).relay_comm).txqueue.length) :
    queueSends (rxByteLog E c b w) =
      [((w.comms c).relay_comm.val, rxForwardEvent E c b w, false)] ∧
    (∀ L : Nat, accepted L (rxByteLog E c b w) = []) ∧
    (rxByte E c b w).comms = w.comms ∧
    ((rxByte E c b w).comms (w.comms c).relay_comm).txqueue =
      (w.comms (w.comms c).relay_comm).txqueue ∧
    (rxByte E c b w).mem =
      zeroFirstByte (sessionDecode E c b w).2.2 (rxForwardEvent E c b w).obj := by
  obtain ⟨hc, hl, hm, _, _, _⟩ := rxByte_full E c b w hcomplete hfull
  refine ⟨?_, ?_, hc, by rw [hc], hm⟩
  · rw [hl]; rfl
  · intro L; rw [hl]; simp [accepted]

/-- C14, evaluated: the queue of link 1 (capacity 1) holds one event when link 0
completes the packet `0xAA, 0x01, 0x00, 0xBB`; the queue still holds that one
event afterwards. -/
theorem drop_on_full_keeps_queue_witness :
    (queueSends (rxByteLog (stubExt 1) 0 187 fullQueueWorld) =
        [((fullQueueWorld.comms 0).relay_comm.val,
          rxForwardEvent (stubExt 1) 0 187 fullQueueWorld, false)] ∧
      (∀ L : Nat, accepted L (rxByteLog (stubExt 1) 0 187 fullQueueWorld) = []) ∧
      (rxByte (stubExt 1) 0 187 fullQueueWorld).comms = fullQueueWorld.comms ∧
      ((rxByte (stubExt 1) 0 187 fullQueueWorld).comms
          (fullQueueWorld.comms 0).relay_comm).txqueue =
        (fullQueueWorld.comms (fullQueueWorld.comms 0).relay_comm).txqueue ∧
      (rxByte (stubExt 1) 0 187 fullQueueWorld).mem =
        zeroFirstByte (sessionDecode (stubExt 1) 0 187 fullQueueWorld).2.2
          (rxForwardEvent (stubExt 1) 0 187 fullQueueWorld).obj) ∧
    ((rxByte (stubExt 1) 0 187 fullQueueWorld).comms 1).txqueue = [evUpdated] ∧
    (rxByte (stubExt 1) 0 187 fullQueueWorld).mem 500 = [0, 1, 0, 187] :=
  ⟨drop_on_full_keeps_queue (stubExt 1) 0 187 fullQueueWorld (by decide) (by decide),
    by decide, by decide⟩

/-! ## Statistics of a dropped packet (C15) -/

/-- C15, counterexample: link 0 completes a packet while the queue of link 1 is
full; the hand-over fails and the packet is discarded, yet `txErrors` and
`txRetries` are what they were: no counter records the drop. -/
theorem full_queue_drop_not_counted :
    (sessionDecode (stubExt 1) 0 187 fullQueueWorld).1 = UAVTalkRxState.UAVTALK_STATE_COMPLETE ∧
    (fullQueueWorld.comms 1).txqueue.length = (stubExt 1).TELEM_QUEUE_SIZE ∧
    queueSends (rxByteLog (stubExt 1) 0 187 fullQueueWorld) =
      [(1, { obj := 500, instId := 0, event := UAVObjEventType.EV_TRANSMIT_REQ }, false)] ∧
    ¬ (fullQueueWorld.txErrors < (rxByte (stubExt 1) 0 187 fullQueueWorld).txErrors) ∧
    (rxByte (stubExt 1) 0 187 fullQueueWorld).txErrors = fullQueueWorld.txErrors ∧
    (rxByte (stubExt 1) 0 187 fullQueueWorld).txRetries = fullQueueWorld.txRetries := by
  decide

/-- C15, amended: a packet discarded because the queue of the relay peer is
full is recorded in no statistics counter: `txErrors` and `txRetries` keep
their values; the only mark of the drop is the first byte of the packet
buffer, set to 0 to release the buffer. -/
theorem full_queue_drop_silent (E : Externals X) (c : Fin 2) (b : Nat) (w : World X)
    (hcomplete : (sessionDecode E c b w).1 = UAVTalkRxState.UAVTALK_STATE_COMPLETE)
    (hfull : E.TELEM_QUEUE_SIZE ≤ (w.comms (w.comms c).relay_comm).txqueue.length) :
    (rxByte E c b w).txErrors = w.txErrors ∧
    (rxByte E c b w).txRetries = w.txRetries ∧
    linkStats (rxByte E c b w) c = linkStats w c ∧
    (rxByte E c b w).mem (rxForwardEvent E c b w).obj =
      ((sessionDecode E c b w).2.2 (rxForwardEvent E c b w).obj).set 0 0 := by
  obtain ⟨_, _, hm, he, hr, _⟩ := rxByte_full E c b w hcomplete hfull
  refine ⟨he, hr, ?_, ?_⟩
  · simp [linkStats, he, hr]
  · rw [hm]; simp [zeroFirstByte]

/-- C15, amended, evaluated on the same full queue. -/
theorem full_queue_drop_silent_witness :
    (rxByte (stubExt 1) 0 187 fullQueueWorld).txErrors = fullQueueWorld.txErrors ∧
    (rxByte (stubExt 1) 0 187 fullQueueWorld).txRetries = fullQueueWorld.txRetries ∧
    linkStats (rxByte (stubExt 1) 0 187 fullQueueWorld) 0 = linkStats fullQueueWorld 0 ∧
    (rxByte (stubExt 1) 0 187 fullQueueWorld).mem
        (rxForwardEvent (stubExt 1) 0 187 fullQueueWorld).obj =
      ((sessionDecode (stubExt 1) 0 187 fullQueueWorld).2.2
        (rxForwardEvent (stubExt 1) 0 187 fullQueueWorld).obj).set 0 0 :=
  full_queue_drop_silent (stubExt 1) 0 187 fullQueueWorld (by decide) (by decide)

/-! ## Peer assignment (C16) -/

/-- C16: after `TransmitterControlsInitialize` the peer of link 0 is link 1 and
the peer of link 1 is link 0, hence for both links the peer of the peer is the
link itself and the peer is another link; and no step of the router, whether
a dispatch by `processObjEvent`, an iteration of a transmit or receive task,
an event handed in by a producer or a call of `transmitData`, changes the
peer of any link, from any state and so along every run after
initialisation. -/
theorem peers_symmetric_and_immutable (E : Externals X) (w : World X) :
    (((TransmitterControlsInitialize E w).2.comms 0).relay_comm = 1 ∧
      ((TransmitterControlsInitialize E w).2.comms 1).relay_comm = 0) ∧
    (∀ L : Fin 2,
      ((TransmitterControlsInitialize E w).2.comms
        ((TransmitterControlsInitialize E w).2.comms L).relay_comm).relay_comm = L ∧
      ((TransmitterControlsInitialize E w).2.comms L).relay_comm ≠ L) ∧
    (∀ (stk : Stack) (ev : UAVObjEvent) (c : Fin 2) (u : World X) (L : Fin 2),
      ((processObjEvent E stk ev c u).comms L).relay_comm = (u.comms L).relay_comm) ∧
    (∀ (c : Fin 2) (inputPort : Nat) (u : World X) (L : Fin 2),
      ((transmitterRxTaskIter E c inputPort u).comms L).relay_comm = (u.comms L).relay_comm) ∧
    (∀ (c : Fin 2) (data : Nat) (length : Int) (u : World X) (L : Fin 2),
      ((transmitData E c data length u).2.comms L).relay_comm = (u.comms L).relay_comm) ∧
    (∀ (u : World X) (step : RouterStep) (L : Fin 2),
      ((routerStep E u step).comms L).relay_comm = (u.comms L).relay_comm) ∧
    (∀ (steps : List RouterStep) (L : Fin 2),
      ((runSteps E (TransmitterControlsInitialize E w).2 steps).comms L).relay_comm =
        ((TransmitterControlsInitialize E w).2.comms L).relay_comm) := by
  refine ⟨⟨by simp [TransmitterControlsInitialize], by simp [TransmitterControlsInitialize]⟩,
    ?_, ?_, ?_, ?_, ?_, ?_⟩
  · intro L
    have h : L = 0 ∨ L = 1 := by omega
    rcases h with rfl | rfl <;> simp [TransmitterControlsInitialize]
  · intro stk ev c u L
    rw [(processObjEvent_calm E stk ev c u).choose_spec.2.2]
  · intro c inputPort u L
    exact rxIter_keeps_relay E c inputPort u L
  · intro c data length u L
    rw [(transmitData_calm E c data length u).choose_spec.2.2]
  · intro u step L
    exact step_keeps_relay E u step L
  · intro steps L
    exact run_keeps_relay E steps _ L

/-! ## Queue isolation (C17) -/

/-- C17: `TransmitterControlsStart` creates one transmit task per link, with
that link as its parameter.  An iteration of the transmit task of link `a`
takes at most the head of the queue of `a` and leaves the queue of the other
link `b` unchanged and untouched (no receive on it); hence, along every run
after initialisation, the events the transmit task of `b` has taken are an
initial part of the events that the queue of `b` itself accepted. -/
theorem queue_isolation (E : Externals X) (stk : Stack) (a b : Fin 2) (w : World X)
    (hab : a ≠ b) :
    (TransmitterControlsStart w).2.trace = w.trace ++
      [Call.wdgRegisterFlag, Call.taskCreate true 0, Call.taskCreate false 0,
        Call.taskCreate true 1, Call.taskCreate false 1] ∧
    ((transmitterTxTaskIter E stk a w).comms b).txqueue = (w.comms b).txqueue ∧
    received b.val (txIterLog E stk a w) = [] ∧
    ((transmitterTxTaskIter E stk a w).comms a).txqueue = (w.comms a).txqueue.tail ∧
    received a.val (txIterLog E stk a w) = (w.comms a).txqueue.take 1 ∧
    (∀ (x : X) (m : Mem) (steps : List RouterStep),
      received b.val
          (runSteps E (TransmitterControlsInitialize E (startWorld x m)).2 steps).trace <+:
        accepted b.val
          (runSteps E (TransmitterControlsInitialize E (startWorld x m)).2 steps).trace) := by
  have hba : ¬ b = a := fun h => hab h.symm
  have hv : ¬ a.val = b.val := fun h => hab (Fin.ext h)
  refine ⟨by simp [TransmitterControlsStart, logCall], ?_, ?_, ?_, ?_, ?_⟩
  · cases h : (w.comms a).txqueue with
    | nil => rw [txIter_empty E stk a w h]
    | cons ev rest => rw [(txIterLog_cons E stk a w ev rest h).2]; simp [setComm, hba]
  · cases h : (w.comms a).txqueue with
    | nil => simp [txIterLog, txIter_empty E stk a w h, received]
    | cons ev rest =>
      obtain ⟨l, t, q, _⟩ := processObjEvent_calm E stk ev a
        (logCall (setComms w (setComm w.comms a { (w.comms a) with txqueue := rest }))
          (Call.queueReceive a.val ev))
      rw [(txIterLog_cons E stk a w ev rest h).1, dispatchLog_eq E stk ev a _ l t]
      simp [received, hv, (no_queue_ops l q b.val).2.1]
  · cases h : (w.comms a).txqueue with
    | nil => rw [txIter_empty E stk a w h, h]; rfl
    | cons ev rest => rw [(txIterLog_cons E stk a w ev rest h).2]; simp [setComm]
  · cases h : (w.comms a).txqueue with
    | nil => simp [txIterLog, txIter_empty E stk a w h, received]
    | cons ev rest =>
      obtain ⟨l, t, q, _⟩ := processObjEvent_calm E stk ev a
        (logCall (setComms w (setComm w.comms a { (w.comms a) with txqueue := rest }))
          (Call.queueReceive a.val ev))
      rw [(txIterLog_cons E stk a w ev rest h).1, dispatchLog_eq E stk ev a _ l t]
      simp [received, (no_queue_ops l q a.val).2.1]
  · intro x m steps
    exact ⟨_, (run_keeps_queue_account E steps _ b (initialize_queue_account E x m b)).symm⟩

/-- C17, evaluated: link 1 holds two events and link 0 one; the transmit task
of link 1 runs once. -/
theorem queue_isolation_witness :
    ((TransmitterControlsStart
        (runSteps (stubExt 4) (stubWorld [0, 0, 0]) (sampleRun.take 3))).2.trace =
      (runSteps (stubExt 4) (stubWorld [0, 0, 0]) (sampleRun.take 3)).trace ++
        [Call.wdgRegisterFlag, Call.taskCreate true 0, Call.taskCreate false 0,
          Call.taskCreate true 1, Call.taskCreate false 1] ∧
      ((transmitterTxTaskIter (stubExt 4) stubStack 1
          (runSteps (stubExt 4) (stubWorld [0, 0, 0]) (sampleRun.take 3))).comms 0).txqueue =
        ((runSteps (stubExt 4) (stubWorld [0, 0, 0]) (sampleRun.take 3)).comms 0).txqueue ∧
      received (0 : Fin 2).val (txIterLog (stubExt 4) stubStack 1
        (runSteps (stubExt 4) (stubWorld [0, 0, 0]) (sampleRun.take 3))) = [] ∧
      ((transmitterTxTaskIter (stubExt 4) stubStack 1
          (runSteps (stubExt 4) (stubWorld [0, 0, 0]) (sampleRun.take 3))).comms 1).txqueue =
        ((runSteps (stubExt 4) (stubWorld [0, 0, 0]) (sampleRun.take 3)).comms 1).txqueue.tail ∧
      received (1 : Fin 2).val (txIterLog (stubExt 4) stubStack 1
          (runSteps (stubExt 4) (stubWorld [0, 0, 0]) (sampleRun.take 3))) =
        ((runSteps (stubExt 4) (stubWorld [0, 0, 0]) (sampleRun.take 3)).comms 1).txqueue.take 1 ∧
      (∀ (x : StubState) (m : Mem) (steps : List RouterStep),
        received (0 : Fin 2).val
            (runSteps (stubExt 4)
              (TransmitterControlsInitialize (stubExt 4) (startWorld x m)).2 steps).trace <+:
          accepted (0 : Fin 2).val
            (runSteps (stubExt 4)
              (TransmitterControlsInitialize (stubExt 4) (startWorld x m)).2 steps).trace)) ∧
    ((runSteps (stubExt 4) (stubWorld [0, 0, 0]) (sampleRun.take 3)).comms 1).txqueue
      = [evUpdated, evPoll] ∧
    ((transmitterTxTaskIter (stubExt 4) stubStack 1
        (runSteps (stubExt 4) (stubWorld [0, 0, 0]) (sampleRun.take 3))).comms 1).txqueue
      = [evPoll] ∧
    ((transmitterTxTaskIter (stubExt 4) stubStack 1
        (runSteps (stubExt 4) (stubWorld [0, 0, 0]) (sampleRun.take 3))).comms 0).txqueue
      = [evRequest] :=
  ⟨queue_isolation (stubExt 4) stubStack 1 0
      (runSteps (stubExt 4) (stubWorld [0, 0, 0]) (sampleRun.take 3)) (by decide),
    by decide, by decide, by decide⟩

/-! ## FIFO processing within a link (C18) -/

/-- C18: along every run after initialisation and for every link, the events
its queue accepted, in the order of acceptance, are exactly the events its
transmit task has taken so far, in the order it took them, followed by the
events still waiting in the queue: each accepted event is taken once, in
order.  An iteration of the transmit task that finds `ev` at the head of the
queue takes it and runs `processObjEvent` on it to completion: its calls are
the receive followed by the whole dispatch of `ev`, and the queue is left
with the events that were behind `ev`. -/
theorem fifo_within_link (E : Externals X) (c : Fin 2) :
    (∀ (x : X) (m : Mem) (steps : List RouterStep),
      accepted c.val
          (runSteps E (TransmitterControlsInitialize E (startWorld x m)).2 steps).trace =
        received c.val
            (runSteps E (TransmitterControlsInitialize E (startWorld x m)).2 steps).trace ++
          ((runSteps E (TransmitterControlsInitialize E (startWorld x m)).2 steps).comms
            c).txqueue) ∧
    (∀ (stk : Stack) (w : World X) (ev : UAVObjEvent) (rest : List UAVObjEvent),
      (w.comms c).txqueue = ev :: rest →
      transmitterTxTaskIter E stk c w =
          processObjEvent E stk ev c
            (logCall (setComms w (setComm w.comms c { (w.comms c) with txqueue := rest }))
              (Call.queueReceive c.val ev)) ∧
        txIterLog E stk c w =
          Call.queueReceive c.val ev ::
            dispatchLog E stk ev c
              (logCall (setComms w (setComm w.comms c { (w.comms c) with txqueue := rest }))
                (Call.queueReceive c.val ev)) ∧
        ((transmitterTxTaskIter E stk c w).comms c).txqueue = rest) := by
  refine ⟨?_, ?_⟩
  · intro x m steps
    exact run_keeps_queue_account E steps _ c (initialize_queue_account E x m c)
  · intro stk w ev rest h
    refine ⟨txIter_cons E stk c w ev rest h, (txIterLog_cons E stk c w ev rest h).1, ?_⟩
    rw [(txIterLog_cons E stk c w ev rest h).2]
    simp [setComm]

/-- C18, evaluated: in the sample run link 1 accepts an object change, a poll
tick and a forwarded packet, in that order; its transmit task, run twice, has
taken the object change and then the poll tick, and the forwarded packet is
still waiting. -/
theorem fifo_within_link_witness :
    ((∀ (x : StubState) (m : Mem) (steps : List RouterStep),
        accepted (1 : Fin 2).val
            (runSteps (stubExt 4)
              (TransmitterControlsInitialize (stubExt 4) (startWorld x m)).2 steps).trace =
          received (1 : Fin 2).val
              (runSteps (stubExt 4)
                (TransmitterControlsInitialize (stubExt 4) (startWorld x m)).2 steps).trace ++
            ((runSteps (stubExt 4)
              (TransmitterControlsInitialize (stubExt 4) (startWorld x m)).2 steps).comms
              1).txqueue) ∧
      (∀ (stk : Stack) (w : World StubState) (ev : UAVObjEvent) (rest : List UAVObjEvent),
        (w.comms 1).txqueue = ev :: rest →
        transmitterTxTaskIter (stubExt 4) stk 1 w =
            processObjEvent (stubExt 4) stk ev 1
              (logCall (setComms w (setComm w.comms 1 { (w.comms 1) with txqueue := rest }))
                (Call.queueReceive (1 : Fin 2).val ev)) ∧
          txIterLog (stubExt 4) stk 1 w =
            Call.queueReceive (1 : Fin 2).val ev ::
              dispatchLog (stubExt 4) stk ev 1
                (logCall (setComms w (setComm w.comms 1 { (w.comms 1) with txqueue := rest }))
                  (Call.queueReceive (1 : Fin 2).val ev)) ∧
          ((transmitterTxTaskIter (stubExt 4) stk 1 w).comms 1).txqueue = rest)) ∧
    accepted 1 (runSteps (stubExt 4) (stubWorld [0, 0, 0]) sampleRun).trace =
      [evUpdated, evPoll, { obj := 500, instId := 0, event := UAVObjEventType.EV_TRANSMIT_REQ }] ∧
    received 1 (runSteps (stubExt 4) (stubWorld [0, 0, 0]) sampleRun).trace =
      [evUpdated, evPoll] ∧
    ((runSteps (stubExt 4) (stubWorld [0, 0, 0]) sampleRun).comms 1).txqueue =
      [{ obj := 500, instId := 0, event := UAVObjEventType.EV_TRANSMIT_REQ }] :=
  ⟨fifo_within_link (stubExt 4) 1, by decide, by decide, by decide⟩

/-! ## No requeueing (C19) -/

/-- C19: for every event, link and behaviour of the transport, `processObjEvent`
makes no `xQueueSend` call and leaves both links, hence both queues, exactly
as they were; so an iteration of the transmit task that takes `ev` from the
head of its queue leaves that queue with the events that were behind `ev` and
the other queue unchanged, whatever the outcome of the dispatch: a dropped
event is in no queue any more. -/
theorem events_never_requeued (E : Externals X) (stk : Stack) (ev : UAVObjEvent) (c : Fin 2)
    (w : World X) :
    (processObjEvent E stk ev c w).comms = w.comms ∧
    queueSends (dispatchLog E stk ev c w) = [] ∧
    (∀ L : Nat, accepted L (dispatchLog E stk ev c w) = []) ∧
    (∀ rest : List UAVObjEvent, (w.comms c).txqueue = ev :: rest →
      ((transmitterTxTaskIter E stk c w).comms c).txqueue = rest ∧
      (∀ L : Fin 2, L ≠ c →
        ((transmitterTxTaskIter E stk c w).comms L).txqueue = (w.comms L).txqueue) ∧
      queueSends (txIterLog E stk c w) = []) := by
  obtain ⟨l, t, q, hc⟩ := processObjEvent_calm E stk ev c w
  have hl := dispatchLog_eq E stk ev c w l t
  refine ⟨hc, ?_, ?_, ?_⟩
  · rw [hl]; exact (no_queue_ops l q 0).2.2
  · intro L; rw [hl]; exact (no_queue_ops l q L).1
  · intro rest h
    obtain ⟨l2, t2, q2, _⟩ := processObjEvent_calm E stk ev c
      (logCall (setComms w (setComm w.comms c { (w.comms c) with txqueue := rest }))
        (Call.queueReceive c.val ev))
    refine ⟨?_, ?_, ?_⟩
    · rw [(txIterLog_cons E stk c w ev rest h).2]; simp [setComm]
    · intro L hL
      rw [(txIterLog_cons E stk c w ev rest h).2]; simp [setComm, hL]
    · rw [(txIterLog_cons E stk c w ev rest h).1, dispatchLog_eq E stk ev c _ l2 t2]
      simp [queueSends, (no_queue_ops l2 q2 0).2.2]

/-- C19, evaluated: an object-change event whose two attempts fail, taken from
a queue that also holds a poll tick. -/
theorem events_never_requeued_witness :
    ((processObjEvent (stubExt 4) stubStack evUpdated 1
        (runSteps (stubExt 4) (stubWorld []) (sampleRun.take 3))).comms =
        (runSteps (stubExt 4) (stubWorld []) (sampleRun.take 3)).comms ∧
      queueSends (dispatchLog (stubExt 4) stubStack evUpdated 1
        (runSteps (stubExt 4) (stubWorld []) (sampleRun.take 3))) = [] ∧
      (∀ L : Nat, accepted L (dispatchLog (stubExt 4) stubStack evUpdated 1
        (runSteps (stubExt 4) (stubWorld []) (sampleRun.take 3))) = []) ∧
      (∀ rest : List UAVObjEvent,
        ((runSteps (stubExt 4) (stubWorld []) (sampleRun.take 3)).comms 1).txqueue
          = evUpdated :: rest →
        ((transmitterTxTaskIter (stubExt 4) stubStack 1
          (runSteps (stubExt 4) (stubWorld []) (sampleRun.take 3))).comms 1).txqueue = rest ∧
        (∀ L : Fin 2, L ≠ 1 →
          ((transmitterTxTaskIter (stubExt 4) stubStack 1
            (runSteps (stubExt 4) (stubWorld []) (sampleRun.take 3))).comms L).txqueue =
          ((runSteps (stubExt 4) (stubWorld []) (sampleRun.take 3)).comms L).txqueue) ∧
        queueSends (txIterLog (stubExt 4) stubStack 1
          (runSteps (stubExt 4) (stubWorld []) (sampleRun.take 3))) = [])) ∧
    ((runSteps (stubExt 4) (stubWorld []) (sampleRun.take 3)).comms 1).txqueue
      = [evUpdated, evPoll] ∧
    sendResults (txIterLog (stubExt 4) stubStack 1
      (runSteps (stubExt 4) (stubWorld []) (sampleRun.take 3))) = [-1, -1] ∧
    ((transmitterTxTaskIter (stubExt 4) stubStack 1
      (runSteps (stubExt 4) (stubWorld []) (sampleRun.take 3))).comms 1).txqueue = [evPoll] :=
  ⟨events_never_requeued (stubExt 4) stubStack evUpdated 1
      (runSteps (stubExt 4) (stubWorld []) (sampleRun.take 3)),
    by decide, by decide, by decide⟩

/-! ## Monotone counters (C20) -/

/-- C20: whatever the event and the results of the transport, `processObjEvent`
does not decrease `txRetries` nor `txErrors` (the 32-bit counters not being at
their maximum, so that no wraparound occurs), each grows by at most 1, and the
value `retries - 1` added to `txRetries` after a send loop is never negative,
the loop having made at least one attempt. -/
theorem stats_monotone (E : Externals X) (stk : Stack) (ev : UAVObjEvent) (c : Fin 2)
    (w : World X) (hR : w.txRetries + 1 < 4294967296) (hE : w.txErrors + 1 < 4294967296) :
    w.txRetries ≤ (processObjEvent E stk ev c w).txRetries ∧
    w.txErrors ≤ (processObjEvent E stk ev c w).txErrors ∧
    (processObjEvent E stk ev c w).txRetries ≤ w.txRetries + 1 ∧
    (processObjEvent E stk ev c w).txErrors ≤ w.txErrors + 1 ∧
    (∀ (body : World X → Int × World X) (v : World X),
      0 ≤ (retryLoop body MAX_RETRIES 0 (-1) v).1 - 1) := by
  obtain ⟨_, hcase⟩ := dispatch_outcome E stk ev c w
  refine ⟨?_, ?_, ?_, ?_, ?_⟩
  · rcases hcase with ⟨_, _, _, hret, _⟩ | ⟨_, ⟨s, _, _, hret, _⟩ | ⟨s, _, hret, _⟩⟩
    · rw [hret]
    · rw [hret]; simp only [wrap32]; omega
    · rw [hret]; simp only [wrap32]; omega
  · rcases hcase with ⟨_, _, _, _, herr⟩ | ⟨_, ⟨s, _, _, _, herr⟩ | ⟨s, _, _, herr⟩⟩
    · rw [herr]
    · rw [herr]
    · rw [herr]
      split
      · simp only [wrap32]; omega
      · omega
  · rcases hcase with ⟨_, _, _, hret, _⟩ | ⟨_, ⟨s, _, _, hret, _⟩ | ⟨s, _, hret, _⟩⟩
    · rw [hret]; omega
    · rw [hret]; simp only [wrap32]; omega
    · rw [hret]; simp only [wrap32]; omega
  · rcases hcase with ⟨_, _, _, _, herr⟩ | ⟨_, ⟨s, _, _, _, herr⟩ | ⟨s, _, _, herr⟩⟩
    · rw [herr]; omega
    · rw [herr]; omega
    · rw [herr]
      split
      · simp only [wrap32]; omega
      · omega
  · intro body v
    rw [retryLoop_two]
    split <;> simp

/-- C20, evaluated: an update request whose two attempts fail. -/
theorem stats_monotone_witness :
    ((stubWorld []).txRetries
        ≤ (processObjEvent (stubExt 4) stubStack evRequest 0 (stubWorld [])).txRetries ∧
      (stubWorld []).txErrors
        ≤ (processObjEvent (stubExt 4) stubStack evRequest 0 (stubWorld [])).txErrors ∧
      (processObjEvent (stubExt 4) stubStack evRequest 0 (stubWorld [])).txRetries
        ≤ (stubWorld []).txRetries + 1 ∧
      (processObjEvent (stubExt 4) stubStack evRequest 0 (stubWorld [])).txErrors
        ≤ (stubWorld []).txErrors + 1 ∧
      (∀ (body : World StubState → Int × World StubState) (v : World StubState),
        0 ≤ (retryLoop body MAX_RETRIES 0 (-1) v).1 - 1)) ∧
    (processObjEvent (stubExt 4) stubStack evRequest 0 (stubWorld [])).txRetries = 1 ∧
    (processObjEvent (stubExt 4) stubStack evRequest 0 (stubWorld [])).txErrors = 1 :=
  ⟨stats_monotone (stubExt 4) stubStack evRequest 0 (stubWorld []) (by decide) (by decide),
    by decide, by decide⟩

/-! ## Stats never gate behaviour (C21), side channel (C26), period (C27): lemmas -/

theorem sendOps_append (a b : List Call) : sendOps (a ++ b) = sendOps a ++ sendOps b := by
  induction a with
  | nil => rfl
  | cons x xs ih => cases x <;> simp [sendOps, ih]

theorem dispatchLog_request (E : Externals X) (stk : Stack) (ev : UAVObjEvent) (c : Fin 2)
    (w : World X) (hobj : ev.obj ≠ 0) (hk : ev.event = UAVObjEventType.EV_UPDATE_REQ) :
    dispatchLog E stk ev c w =
      if (E.UAVTalkSendObjectRequest w.ext (w.comms c).com ev.obj ev.instId REQ_TIMEOUT_MS).1
          = -1 then
        [Call.wdgUpdateFlag,
          Call.sendObjectRequest (w.comms c).com ev.obj ev.instId REQ_TIMEOUT_MS (-1),
          Call.sendObjectRequest (w.comms c).com ev.obj ev.instId REQ_TIMEOUT_MS
            (E.UAVTalkSendObjectRequest
              (E.UAVTalkSendObjectRequest w.ext (w.comms c).com ev.obj ev.instId
                REQ_TIMEOUT_MS).2
              (w.comms c).com ev.obj ev.instId REQ_TIMEOUT_MS).1]
      else
        [Call.wdgUpdateFlag,
          Call.sendObjectRequest (w.comms c).com ev.obj ev.instId REQ_TIMEOUT_MS
            (E.UAVTalkSendObjectRequest w.ext (w.comms c).com ev.obj ev.instId
              REQ_TIMEOUT_MS).1] := by
  apply dispatchLog_eq
  by_cases h : (E.UAVTalkSendObjectRequest w.ext (w.comms c).com ev.obj ev.instId
      REQ_TIMEOUT_MS).1 = -1
  · simp [processObjEvent, hobj, hk, retryLoop_two, callSendObjectRequest, logCall, extCall,
      addRetries, countError, h]
    split <;> simp
  · simp [processObjEvent, hobj, hk, retryLoop_two, callSendObjectRequest, logCall, extCall,
      addRetries, countError, h]

/-! ## Sessions and ports (C22) -/

/-- C22: `transmitData1` is the send callback of link 0 and `transmitData2` that
of link 1; `TransmitterControlsInitialize` creates the session of link 0 with
callback 1 and that of link 1 with callback 2.  With an enabled port the
callback of a link makes exactly one driver call, on the port of that link,
with the buffer and length it was given, and returns the result of the
driver.  The dispatch of a forward event on a link hands the packet to the
session of that same link, whose callback writes to the port of that link. -/
theorem session_bound_to_own_port (E : Externals X) (w : World X) (data : Nat) (length : Int) :
    (transmitData1 E data length w = transmitData E 0 data length w ∧
      transmitData2 E data length w = transmitData E 1 data length w) ∧
    (∀ c : Fin 2, (w.comms c).port ≠ 0 →
      (transmitData E c data length w).1 =
        (E.PIOS_COM_SendBufferNonBlocking w.ext (w.comms c).port (w.mem data) length).1 ∧
      transmitLog E c data length w =
        [Call.comSendBuffer (w.comms c).port (w.mem data) length
          (E.PIOS_COM_SendBufferNonBlocking w.ext (w.comms c).port (w.mem data) length).1]) ∧
    (∀ c : Fin 2, ∀ p ∈ portWrites (transmitLog E c data length w), p = (w.comms c).port) ∧
    (((TransmitterControlsInitialize E w).2.comms 0).com =
        (E.UAVTalkInitializeMultiBuffer w.ext 1 256 3).1 ∧
      ((TransmitterControlsInitialize E w).2.comms 1).com =
        (E.UAVTalkInitializeMultiBuffer (E.UAVTalkInitializeMultiBuffer w.ext 1 256 3).2
          2 256 3).1 ∧
      ((TransmitterControlsInitialize E w).2.comms 0).port = E.PIOS_COM_TELEM_GCS ∧
      ((TransmitterControlsInitialize E w).2.comms 1).port = E.PIOS_COM_TELEM_OUT) ∧
    (∀ (stk : Stack) (ev : UAVObjEvent) (c : Fin 2), ev.obj ≠ 0 →
      ev.event = UAVObjEventType.EV_TRANSMIT_REQ →
      ∀ op ∈ sendOps (dispatchLog E stk ev c w),
        op = (SendKind.packet, (w.comms c).com, ev.obj, none, none)) := by
  refine ⟨⟨rfl, rfl⟩, ?_, ?_, ?_, ?_⟩
  · intro c hp
    simp [transmitLog, transmitData, hp, extCall]
  · intro c p hp
    by_cases h0 : (w.comms c).port = 0
    · simp [transmitLog, transmitData, h0, portWrites] at hp
    · simp [transmitLog, transmitData, h0, extCall, portWrites] at hp
      exact hp
  · simp [TransmitterControlsInitialize]
  · intro stk ev c hobj hk op hop
    rw [(dispatch_forward E stk ev c w hobj hk).2] at hop
    split at hop <;> simp [sendOps] at hop <;> exact hop

/-- C22, evaluated: after initialisation with ports 1 and 2, the callback of
link 1 sends the buffer at address 100 on port 2 and the callback of link 0
on port 1; a forward event dispatched on link 1 goes to session 12, the one
created with callback 2. -/
theorem session_bound_to_own_port_witness :
    ((transmitData1 (stubExt 4) 100 4 (stubWorld [0]) =
          transmitData (stubExt 4) 0 100 4 (stubWorld [0]) ∧
        transmitData2 (stubExt 4) 100 4 (stubWorld [0]) =
          transmitData (stubExt 4) 1 100 4 (stubWorld [0])) ∧
      (∀ c : Fin 2, ((stubWorld [0]).comms c).port ≠ 0 →
        (transmitData (stubExt 4) c 100 4 (stubWorld [0])).1 =
          ((stubExt 4).PIOS_COM_SendBufferNonBlocking (stubWorld [0]).ext
            ((stubWorld [0]).comms c).port ((stubWorld [0]).mem 100) 4).1 ∧
        transmitLog (stubExt 4) c 100 4 (stubWorld [0]) =
          [Call.comSendBuffer ((stubWorld [0]).comms c).port ((stubWorld [0]).mem 100) 4
            ((stubExt 4).PIOS_COM_SendBufferNonBlocking (stubWorld [0]).ext
              ((stubWorld [0]).comms c).port ((stubWorld [0]).mem 100) 4).1]) ∧
      (∀ c : Fin 2, ∀ p ∈ portWrites (transmitLog (stubExt 4) c 100 4 (stubWorld [0])),
        p = ((stubWorld [0]).comms c).port) ∧
      (((TransmitterControlsInitialize (stubExt 4) (stubWorld [0])).2.comms 0).com =
          ((stubExt 4).UAVTalkInitializeMultiBuffer (stubWorld [0]).ext 1 256 3).1 ∧
        ((TransmitterControlsInitialize (stubExt 4) (stubWorld [0])).2.comms 1).com =
          ((stubExt 4).UAVTalkInitializeMultiBuffer
            ((stubExt 4).UAVTalkInitializeMultiBuffer (stubWorld [0]).ext 1 256 3).2
            2 256 3).1 ∧
        ((TransmitterControlsInitialize (stubExt 4) (stubWorld [0])).2.comms 0).port =
          (stubExt 4).PIOS_COM_TELEM_GCS ∧
        ((TransmitterControlsInitialize (stubExt 4) (stubWorld [0])).2.comms 1).port =
          (stubExt 4).PIOS_COM_TELEM_OUT) ∧
      (∀ (stk : Stack) (ev : UAVObjEvent) (c : Fin 2), ev.obj ≠ 0 →
        ev.event = UAVObjEventType.EV_TRANSMIT_REQ →
        ∀ op ∈ sendOps (dispatchLog (stubExt 4) stk ev c (stubWorld [0])),
          op = (SendKind.packet, ((stubWorld [0]).comms c).com, ev.obj, none, none))) ∧
    transmitLog (stubExt 4) 1 100 4 (stubWorld [0]) =
      [Call.comSendBuffer 2 [170, 1, 0, 187] 4 0] ∧
    transmitLog (stubExt 4) 0 100 4 (stubWorld [0]) =
      [Call.comSendBuffer 1 [170, 1, 0, 187] 4 0] ∧
    sendOps (dispatchLog (stubExt 4) stubStack evForward 1 (stubWorld [0])) =
      [(SendKind.packet, 12, 100, none, none)] :=
  ⟨session_bound_to_own_port (stubExt 4) (stubWorld [0]) 100 4, by decide, by decide, by decide⟩

/-! ## Dispatch mapping (C23) -/

/-- C23: for an event with a non-null object, every transport send of the
dispatch is of one kind, fixed by the tag, and is made on the session of the
dispatching link with the object and instance id of the event: the object
send for an updated or updated-manual event, the object-request send for an
update request, the raw packet send (which has no instance argument) for a
transmit request, at least one send in each case; an event with any other tag
causes no transport send and leaves `txRetries` and `txErrors` unchanged. -/
theorem dispatch_mapping (E : Externals X) (stk : Stack) (ev : UAVObjEvent) (c : Fin 2)
    (w : World X) (hobj : ev.obj ≠ 0) :
    ((ev.event = UAVObjEventType.EV_UPDATED ∨ ev.event = UAVObjEventType.EV_UPDATED_MANUAL) →
      sendOps (dispatchLog E stk ev c w) ≠ [] ∧
      ∀ op ∈ sendOps (dispatchLog E stk ev c w),
        op = (SendKind.object, (w.comms c).com, ev.obj, some ev.instId, some REQ_TIMEOUT_MS)) ∧
    (ev.event = UAVObjEventType.EV_UPDATE_REQ →
      sendOps (dispatchLog E stk ev c w) ≠ [] ∧
      ∀ op ∈ sendOps (dispatchLog E stk ev c w),
        op = (SendKind.request, (w.comms c).com, ev.obj, some ev.instId, some REQ_TIMEOUT_MS)) ∧
    (ev.event = UAVObjEventType.EV_TRANSMIT_REQ →
      sendOps (dispatchLog E stk ev c w) ≠ [] ∧
      ∀ op ∈ sendOps (dispatchLog E stk ev c w),
        op = (SendKind.packet, (w.comms c).com, ev.obj, none, none)) ∧
    (∀ n, ev.event = UAVObjEventType.EV_OTHER n →
      sendOps (dispatchLog E stk ev c w) = [] ∧
      (processObjEvent E stk ev c w).txRetries = w.txRetries ∧
      (processObjEvent E stk ev c w).txErrors = w.txErrors) := by
  refine ⟨?_, ?_, ?_, ?_⟩
  · intro hk
    rw [dispatchLog_updated E stk ev c w hobj hk]
    split <;> simp [sendOps]
  · intro hk
    rw [dispatchLog_request E stk ev c w hobj hk]
    split <;> simp [sendOps]
  · intro hk
    rw [(dispatch_forward E stk ev c w hobj hk).2]
    split <;> simp [sendOps]
  · intro n hk
    have hu : processObjEvent E stk ev c w = logCall w Call.wdgUpdateFlag := by
      simp [processObjEvent, hobj, hk]
    have hl : dispatchLog E stk ev c w = [Call.wdgUpdateFlag] :=
      dispatchLog_eq E stk ev c w _ (by rw [hu]; rfl)
    rw [hl, hu]
    exact ⟨rfl, rfl, rfl⟩

/-- C23, evaluated: an update request on object 100, instance 0, dispatched on
link 0 (session 11) against a transport that fails once. -/
theorem dispatch_mapping_witness :
    (((evRequest.event = UAVObjEventType.EV_UPDATED ∨
          evRequest.event = UAVObjEventType.EV_UPDATED_MANUAL) →
        sendOps (dispatchLog (stubExt 4) stubStack evRequest 0 (stubWorld [-1, 0])) ≠ [] ∧
        ∀ op ∈ sendOps (dispatchLog (stubExt 4) stubStack evRequest 0 (stubWorld [-1, 0])),
          op = (SendKind.object, ((stubWorld [-1, 0]).comms 0).com, evRequest.obj,
            some evRequest.instId, some REQ_TIMEOUT_MS)) ∧
      (evRequest.event = UAVObjEventType.EV_UPDATE_REQ →
        sendOps (dispatchLog (stubExt 4) stubStack evRequest 0 (stubWorld [-1, 0])) ≠ [] ∧
        ∀ op ∈ sendOps (dispatchLog (stubExt 4) stubStack evRequest 0 (stubWorld [-1, 0])),
          op = (SendKind.request, ((stubWorld [-1, 0]).comms 0).com, evRequest.obj,
            some evRequest.instId, some REQ_TIMEOUT_MS)) ∧
      (evRequest.event = UAVObjEventType.EV_TRANSMIT_REQ →
        sendOps (dispatchLog (stubExt 4) stubStack evRequest 0 (stubWorld [-1, 0])) ≠ [] ∧
        ∀ op ∈ sendOps (dispatchLog (stubExt 4) stubStack evRequest 0 (stubWorld [-1, 0])),
          op = (SendKind.packet, ((stubWorld [-1, 0]).comms 0).com, evRequest.obj,
            none, none)) ∧
      (∀ n, evRequest.event = UAVObjEventType.EV_OTHER n →
        sendOps (dispatchLog (stubExt 4) stubStack evRequest 0 (stubWorld [-1, 0])) = [] ∧
        (processObjEvent (stubExt 4) stubStack evRequest 0 (stubWorld [-1, 0])).txRetries
          = (stubWorld [-1, 0]).txRetries ∧
        (processObjEvent (stubExt 4) stubStack evRequest 0 (stubWorld [-1, 0])).txErrors
          = (stubWorld [-1, 0]).txErrors)) ∧
    sendOps (dispatchLog (stubExt 4) stubStack evRequest 0 (stubWorld [-1, 0])) =
      [(SendKind.request, 11, 100, some 0, some 250),
        (SendKind.request, 11, 100, some 0, some 250)] :=
  ⟨dispatch_mapping (stubExt 4) stubStack evRequest 0 (stubWorld [-1, 0]) (by decide),
    by decide⟩

/-! ## No forward without a complete packet (C24) -/

/-- C24: for every received byte for which the decoder, called on the session
of the link, reports any state other than complete (incomplete or error),
`rxByte` makes no `xQueueSend` call and leaves every link, hence both queues,
as it was; so an `xQueueSend` call is made only for a byte on which the
decoder reports a complete packet. -/
theorem no_forward_without_complete (E : Externals X) (c : Fin 2) (b : Nat) (w : World X)
    (hstate : (sessionDecode E c b w).1 ≠ UAVTalkRxState.UAVTALK_STATE_COMPLETE) :
    queueSends (rxByteLog E c b w) = [] ∧
    (∀ L : Nat, accepted L (rxByteLog E c b w) = []) ∧
    (rxByte E c b w).comms = w.comms ∧
    (∀ u : World X, queueSends (rxByteLog E c b u) ≠ [] →
      (sessionDecode E c b u).1 = UAVTalkRxState.UAVTALK_STATE_COMPLETE) := by
  have key : ∀ u : World X,
      (sessionDecode E c b u).1 ≠ UAVTalkRxState.UAVTALK_STATE_COMPLETE →
      queueSends (rxByteLog E c b u) = [] ∧ (∀ L : Nat, accepted L (rxByteLog E c b u) = []) ∧
        (rxByte E c b u).comms = u.comms := by
    intro u hu
    obtain ⟨l, t, q, hc⟩ := rxDecoded_calm E c b u
    have hl : rxByteLog E c b u = l := by
      unfold rxByteLog
      rw [rxByte_eq, if_neg hu, t]
      simp
    rw [hl, rxByte_eq, if_neg hu]
    exact ⟨(no_queue_ops l q 0).2.2, fun L => (no_queue_ops l q L).1, hc⟩
  obtain ⟨h1, h2, h3⟩ := key w hstate
  refine ⟨h1, h2, h3, ?_⟩
  intro u hu
  by_contra hne
  exact hu (key u hne).1

/-- C24, evaluated: the first byte `0xAA` of a packet on link 0; the decoder
reports an intermediate state and both queues stay empty. -/
theorem no_forward_without_complete_witness :
    (queueSends (rxByteLog (stubExt 4) 0 170 (stubWorld [])) = [] ∧
      (∀ L : Nat, accepted L (rxByteLog (stubExt 4) 0 170 (stubWorld [])) = []) ∧
      (rxByte (stubExt 4) 0 170 (stubWorld [])).comms = (stubWorld []).comms ∧
      (∀ u : World StubState, queueSends (rxByteLog (stubExt 4) 0 170 u) ≠ [] →
        (sessionDecode (stubExt 4) 0 170 u).1 = UAVTalkRxState.UAVTALK_STATE_COMPLETE)) ∧
    (sessionDecode (stubExt 4) 0 170 (stubWorld [])).1 = UAVTalkRxState.UAVTALK_STATE_OTHER 1 ∧
    ((rxByte (stubExt 4) 0 170 (stubWorld [])).comms 1).txqueue = [] ∧
    ((rxByte (stubExt 4) 0 170 (stubWorld [])).comms 0).txqueue = [] :=
  ⟨no_forward_without_complete (stubExt 4) 0 170 (stubWorld []) (by decide),
    by decide, by decide, by decide⟩

/-! ## Calls of a dispatch: lemmas for the poll tick (C25, C26, C27) and C21 -/

theorem pollSample_eq (E : Externals X) (stk : Stack) (w : World X) :
    pollSample E stk w =
      extCall (pollPrepared E stk w)
        (E.GCSReceiverSet (pollPrepared E stk w).ext
          ((List.range E.GCSRECEIVER_CHANNEL_NUMELEM).map (pollChannels E stk w)))
        (Call.gcsReceiverSet
          ((List.range E.GCSRECEIVER_CHANNEL_NUMELEM).map (pollChannels E stk w))) := by
  rfl

theorem logged_refl (P : Call → Prop) (w : World X) : Logged P w w :=
  ⟨[], by simp, by simp⟩

theorem logged_trans {P : Call → Prop} {a b c : World X} (h1 : Logged P a b)
    (h2 : Logged P b c) : Logged P a c := by
  obtain ⟨l1, t1, q1⟩ := h1
  obtain ⟨l2, t2, q2⟩ := h2
  refine ⟨l1 ++ l2, by rw [t2, t1, List.append_assoc], ?_⟩
  intro x hx
  rcases List.mem_append.mp hx with h | h
  · exact q1 x h
  · exact q2 x h

theorem logged_log (P : Call → Prop) (w : World X) (c : Call) (hc : P c) :
    Logged P w (logCall w c) :=
  ⟨[c], rfl, by simpa using hc⟩

theorem logged_ext (P : Call → Prop) (w : World X) (x : X) (c : Call) (hc : P c) :
    Logged P w (extCall w x c) :=
  ⟨[c], rfl, by simpa using hc⟩

theorem logged_cntr (P : Call → Prop) (w : World X) (n : Nat) : Logged P w (setCntr w n) :=
  ⟨[], by simp [setCntr], by simp⟩

theorem logged_mem (P : Call → Prop) (w : World X) (m : Mem) : Logged P w (setMem w m) :=
  ⟨[], by simp [setMem], by simp⟩

theorem logged_addRetries (P : Call → Prop) (w : World X) (n : Int) :
    Logged P w (addRetries w n) :=
  ⟨[], by simp [addRetries], by simp⟩

theorem logged_countError (P : Call → Prop) (w : World X) (s : Int) :
    Logged P w (countError w s) := by
  unfold countError
  by_cases h : s = -1
  · rw [if_pos h]; exact ⟨[], by simp, by simp⟩
  · rw [if_neg h]; exact logged_refl P w

theorem logged_retryLoop (P : Call → Prop) (body : World X → Int × World X)
    (hb : ∀ v, Logged P v (body v).2) (v : World X) :
    Logged P v (retryLoop body MAX_RETRIES 0 (-1) v).2.2 := by
  rw [retryLoop_two]
  by_cases h : (body v).1 = -1
  · rw [if_pos h]; exact logged_trans (hb v) (hb _)
  · rw [if_neg h]; exact hb v

theorem logged_readChannels (P : Call → Prop) (E : Externals X) (debug : Bool)
    (hread : ∀ g ch r, P (Call.rcvrRead g ch r))
    (hdbg : debug = true → ∀ x, Call.isDebug x = true → P x) (n : Nat) :
    ∀ (i : Nat) (rcvr : Nat → Nat) (w : World X),
      Logged P w (readChannels E debug n i rcvr w).2 := by
  induction n with
  | zero => intro i rcvr w; exact logged_refl P w
  | succ n ih =>
    intro i rcvr w
    simp only [readChannels]
    refine logged_trans ?_ (ih _ _ _)
    cases debug
    · exact logged_log P _ _ (hread _ _ _)
    · exact logged_trans (logged_trans (logged_log P _ _ (hread _ _ _))
        (logged_log P _ _ (hdbg rfl _ (by rfl)))) (logged_log P _ _ (hdbg rfl _ (by rfl)))

theorem logged_pollPrepared (P : Call → Prop) (E : Externals X) (stk : Stack) (w : World X)
    (hP : ∀ x, Call.isDebug x = false → sendOps [x] = [] → committed [x] = [] → P x)
    (hdbg : w.cntr = 20 → ∀ x, Call.isDebug x = true → P x) :
    Logged P w (pollPrepared E stk w) := by
  unfold pollPrepared
  dsimp only
  refine logged_trans ?_ (logged_ext P _ _ _ (hP _ (by rfl) (by rfl) (by rfl)))
  refine logged_trans ?_ (logged_log P _ _ (hP _ (by rfl) (by rfl) (by rfl)))
  by_cases h : w.cntr = 20
  · simp only [h, decide_True, if_true]
    refine logged_trans ?_ (logged_log P _ _ (hdbg h _ (by rfl)))
    refine logged_trans ?_ (logged_readChannels P E true
      (fun _ _ _ => hP _ (by rfl) (by rfl) (by rfl)) (fun _ => hdbg h) _ _ _ _)
    exact logged_trans (logged_cntr P _ _) (logged_log P _ _ (hdbg h _ (by rfl)))
  · simp only [h, decide_False, if_false]
    refine logged_trans ?_ (logged_readChannels P E false
      (fun _ _ _ => hP _ (by rfl) (by rfl) (by rfl)) (fun hf => by cases hf) _ _ _ _)
    exact logged_cntr P _ _

/-- On a diagnostic tick the calls of `pollPrepared` start with the header sent
to the debug port. -/
theorem pollPrepared_header (E : Externals X) (stk : Stack) (w : World X) (h : w.cntr = 20) :
    Logged (fun _ => True)
      (logCall (setCntr w (nextCntr w.cntr)) (Call.debugString DebugOut.rcvrHeader))
      (pollPrepared E stk w) := by
  unfold pollPrepared nextCntr
  dsimp only
  refine logged_trans ?_ (logged_ext _ _ _ _ trivial)
  refine logged_trans ?_ (logged_log _ _ _ trivial)
  simp only [h, decide_True, if_true]
  refine logged_trans ?_ (logged_log _ _ _ trivial)
  exact logged_readChannels _ E true (fun _ _ _ => trivial) (fun _ _ _ => trivial) _ _ _ _

/-- Every call of a dispatch satisfies `P` as soon as `P` holds of the calls
that are not made for the diagnostic mode and, when the dispatch is a poll
tick that finds the tick counter at 20, of those too. -/
theorem logged_processObjEvent (P : Call → Prop) (E : Externals X) (stk : Stack)
    (ev : UAVObjEvent) (c : Fin 2) (w : World X)
    (hP : ∀ x, Call.isDebug x = false → P x)
    (hdbg : w.cntr = 20 → ev.obj = 0 → ∀ x, Call.isDebug x = true → P x) :
    Logged P w (processObjEvent E stk ev c w) := by
  have hwdg : Logged P w (logCall w Call.wdgUpdateFlag) := logged_log P _ _ (hP _ (by rfl))
  have hso : ∀ (com obj instId acked timeout : Nat) (v : World X),
      Logged P v (callSendObject E com obj instId acked timeout v).2 :=
    fun _ _ _ _ _ v => logged_ext P v _ _ (hP _ (by rfl))
  have hsr : ∀ (com obj instId timeout : Nat) (v : World X),
      Logged P v (callSendObjectRequest E com obj instId timeout v).2 :=
    fun _ _ _ _ v => logged_ext P v _ _ (hP _ (by rfl))
  have hsp : ∀ (com obj : Nat) (v : World X), Logged P v (callSendPacket E com obj v).2 :=
    fun _ _ v => logged_trans (logged_ext P v _ _ (hP _ (by rfl))) (logged_mem P _ _)
  unfold processObjEvent
  dsimp only
  by_cases h0 : ev.obj = 0
  · rw [if_pos h0, pollSample_eq]
    refine logged_trans (logged_trans (logged_trans (logged_trans hwdg
      (logged_pollPrepared P E stk _ (fun x hx _ _ => hP x hx) (fun h => hdbg h h0)))
      (logged_ext P _ _ _ (hP _ (by rfl)))) (logged_retryLoop P _ (hso _ _ _ _ _) _))
      (logged_addRetries P _ _)
  · rw [if_neg h0]
    cases ev.event with
    | EV_OTHER n => exact hwdg
    | EV_UPDATED =>
      exact logged_trans (logged_trans (logged_trans hwdg
        (logged_retryLoop P _ (hso _ _ _ _ _) _)) (logged_addRetries P _ _))
        (logged_countError P _ _)
    | EV_UPDATED_MANUAL =>
      exact logged_trans (logged_trans (logged_trans hwdg
        (logged_retryLoop P _ (hso _ _ _ _ _) _)) (logged_addRetries P _ _))
        (logged_countError P _ _)
    | EV_UPDATE_REQ =>
      exact logged_trans (logged_trans (logged_trans hwdg
        (logged_retryLoop P _ (hsr _ _ _ _) _)) (logged_addRetries P _ _))
        (logged_countError P _ _)
    | EV_TRANSMIT_REQ =>
      exact logged_trans (logged_trans (logged_trans hwdg
        (logged_retryLoop P _ (hsp _ _) _)) (logged_addRetries P _ _))
        (logged_countError P _ _)

theorem trace_eq_append_dispatchLog (E : Externals X) (stk : Stack) (ev : UAVObjEvent)
    (c : Fin 2) (w : World X) :
    (processObjEvent E stk ev c w).trace = w.trace ++ dispatchLog E stk ev c w := by
  obtain ⟨l, t, _⟩ := processObjEvent_calm E stk ev c w
  rw [dispatchLog_eq E stk ev c w l t, t]

theorem debugOutput_append (a b : List Call) :
    debugOutput (a ++ b) = debugOutput a ++ debugOutput b := by
  induction a with
  | nil => rfl
  | cons x xs ih => cases x <;> simp [debugOutput, ih]

theorem debugOutput_of_silent (l : List Call) (h : ∀ x ∈ l, Call.isDebug x = false) :
    debugOutput l = [] := by
  induction l with
  | nil => rfl
  | cons x xs ih =>
    have hx : Call.isDebug x = false := h x (List.mem_cons_self _ _)
    have := ih (fun y hy => h y (List.mem_cons_of_mem _ hy))
    cases x <;> simp_all [debugOutput, Call.isDebug]

theorem retryLoop_cntr (body : World X → Int × World X)
    (hb : ∀ v, (body v).2.cntr = v.cntr) (v : World X) :
    (retryLoop body MAX_RETRIES 0 (-1) v).2.2.cntr = v.cntr := by
  rw [retryLoop_two]
  by_cases h : (body v).1 = -1
  · rw [if_pos h]; exact (hb _).trans (hb v)
  · rw [if_neg h]; exact hb v

theorem readChannels_cntr (E : Externals X) (debug : Bool) (n : Nat) :
    ∀ (i : Nat) (rcvr : Nat → Nat) (w : World X),
      (readChannels E debug n i rcvr w).2.cntr = w.cntr := by
  induction n with
  | zero => intro i rcvr w; rfl
  | succ n ih =>
    intro i rcvr w
    simp only [readChannels]
    rw [ih]
    cases debug <;> rfl

theorem pollSample_cntr (E : Externals X) (stk : Stack) (w : World X) :
    (pollSample E stk w).cntr = nextCntr w.cntr := by
  unfold pollSample nextCntr
  dsimp only
  by_cases h : w.cntr = 20
  · simp [h, extCall, logCall, readChannels_cntr, setCntr]
  · simp [h, extCall, logCall, readChannels_cntr, setCntr]

theorem countError_cntr (w : World X) (s : Int) : (countError w s).cntr = w.cntr := by
  unfold countError
  by_cases h : s = -1 <;> simp [h]

/-- The tick counter after a dispatch: advanced by a poll tick, untouched by
any other event. -/
theorem processObjEvent_cntr (E : Externals X) (stk : Stack) (ev : UAVObjEvent) (c : Fin 2)
    (w : World X) :
    (processObjEvent E stk ev c w).cntr = if ev.obj = 0 then nextCntr w.cntr else w.cntr := by
  unfold processObjEvent
  dsimp only
  by_cases h0 : ev.obj = 0
  · rw [if_pos h0, if_pos h0]
    show (@retryLoop (World X) _ MAX_RETRIES 0 (-1) _).2.2.cntr = _
    rw [retryLoop_cntr _ (fun v => rfl), pollSample_cntr]
    rfl
  · rw [if_neg h0, if_neg h0]
    cases ev.event with
    | EV_OTHER n => rfl
    | EV_UPDATED =>
      show (countError _ _).cntr = _
      rw [countError_cntr]
      show (@retryLoop (World X) _ MAX_RETRIES 0 (-1) _).2.2.cntr = _
      rw [retryLoop_cntr _ (fun v => rfl)]; rfl
    | EV_UPDATED_MANUAL =>
      show (countError _ _).cntr = _
      rw [countError_cntr]
      show (@retryLoop (World X) _ MAX_RETRIES 0 (-1) _).2.2.cntr = _
      rw [retryLoop_cntr _ (fun v => rfl)]; rfl
    | EV_UPDATE_REQ =>
      show (countError _ _).cntr = _
      rw [countError_cntr]
      show (@retryLoop (World X) _ MAX_RETRIES 0 (-1) _).2.2.cntr = _
      rw [retryLoop_cntr _ (fun v => rfl)]; rfl
    | EV_TRANSMIT_REQ =>
      show (countError _ _).cntr = _
      rw [countError_cntr]
      show (@retryLoop (World X) _ MAX_RETRIES 0 (-1) _).2.2.cntr = _
      rw [retryLoop_cntr _ (fun v => rfl)]; rfl

theorem nextCntr_small (n : Nat) (h : n ≤ 20) :
    nextCntr n = (if n = 20 then 0 else n) + 1 ∧ 1 ≤ nextCntr n ∧ nextCntr n ≤ 20 := by
  unfold nextCntr wrap32
  by_cases h20 : n = 20
  · subst h20; simp
  · simp only [h20, if_false]
    omega

/-- A poll tick sends strings to the debug port exactly when it finds the tick
counter at 20; no other dispatch sends any. -/
theorem debug_iff_cntr (E : Externals X) (stk : Stack) (ev : UAVObjEvent) (c : Fin 2)
    (w : World X) :
    debugOutput (dispatchLog E stk ev c w) ≠ [] ↔ (ev.obj = 0 ∧ w.cntr = 20) := by
  constructor
  · intro hne
    by_contra hcon
    apply hne
    obtain ⟨l, t, q⟩ := logged_processObjEvent (fun x => Call.isDebug x = false) E stk ev c w
      (fun _ hx => hx) (fun h1 h2 => absurd ⟨h2, h1⟩ hcon)
    rw [dispatchLog_eq E stk ev c w l t]
    exact debugOutput_of_silent l q
  · rintro ⟨h0, h20⟩
    have hu : processObjEvent E stk ev c w =
        addRetries (retryLoop (callSendObject E ((logCall w Call.wdgUpdateFlag).comms c).com
            E.GCSReceiverHandle 0 0 REQ_TIMEOUT_MS) MAX_RETRIES 0 (-1)
              (pollSample E stk (logCall w Call.wdgUpdateFlag))).2.2
          (retryLoop (callSendObject E ((logCall w Call.wdgUpdateFlag).comms c).com
            E.GCSReceiverHandle 0 0 REQ_TIMEOUT_MS) MAX_RETRIES 0 (-1)
              (pollSample E stk (logCall w Call.wdgUpdateFlag))).1 := by
      simp [processObjEvent, h0]
    have hchain : Logged (fun _ => True)
        (logCall (setCntr (logCall w Call.wdgUpdateFlag)
          (nextCntr (logCall w Call.wdgUpdateFlag).cntr)) (Call.debugString DebugOut.rcvrHeader))
        (processObjEvent E stk ev c w) := by
      rw [hu, pollSample_eq]
      exact logged_trans (logged_trans (logged_trans
        (pollPrepared_header E stk (logCall w Call.wdgUpdateFlag) h20)
        (logged_ext _ _ _ _ trivial))
        (logged_retryLoop _ _ (fun v => logged_ext _ v _ _ trivial) _))
        (logged_addRetries _ _ _)
    obtain ⟨l, t, _⟩ := hchain
    have ht : (processObjEvent E stk ev c w).trace =
        w.trace ++ (Call.wdgUpdateFlag :: Call.debugString DebugOut.rcvrHeader :: l) := by
      rw [t]; simp [logCall, setCntr]
    rw [dispatchLog_eq E stk ev c w _ ht]
    simp [debugOutput]

theorem dispatchAll_cntr (E : Externals X) (evs : List (Stack × UAVObjEvent × Fin 2)) :
    ∀ w : World X, w.cntr ≤ 20 →
      (dispatchAll E w evs).cntr = nextCntr^[pollCount evs] w.cntr ∧
      (dispatchAll E w evs).cntr ≤ 20 := by
  induction evs with
  | nil => intro w hw; exact ⟨rfl, hw⟩
  | cons e rest ih =>
    intro w hw
    have hstep := processObjEvent_cntr E e.1 e.2.1 e.2.2 w
    by_cases h0 : e.2.1.obj = 0
    · rw [if_pos h0] at hstep
      have hle : (processObjEvent E e.1 e.2.1 e.2.2 w).cntr ≤ 20 := by
        rw [hstep]; exact (nextCntr_small w.cntr hw).2.2
      obtain ⟨h1, h2⟩ := ih (processObjEvent E e.1 e.2.1 e.2.2 w) hle
      refine ⟨?_, h2⟩
      show (dispatchAll E (processObjEvent E e.1 e.2.1 e.2.2 w) rest).cntr = _
      rw [h1, hstep]
      simp [pollCount, h0]
    · rw [if_neg h0] at hstep
      obtain ⟨h1, h2⟩ := ih (processObjEvent E e.1 e.2.1 e.2.2 w) (by rw [hstep]; exact hw)
      refine ⟨?_, h2⟩
      show (dispatchAll E (processObjEvent E e.1 e.2.1 e.2.2 w) rest).cntr = _
      rw [h1, hstep]
      simp [pollCount, h0]

theorem nextCntr_iterate (n : Nat) :
    nextCntr^[n] 0 = if n = 0 then 0 else (n - 1) % 20 + 1 := by
  induction n with
  | zero => rfl
  | succ n ih =>
    rw [Function.iterate_succ_apply', ih]
    by_cases hn : n = 0
    · subst hn; decide
    · have hle : (n - 1) % 20 + 1 ≤ 20 := by omega
      rw [if_neg hn, (nextCntr_small _ hle).1]
      simp only [Nat.succ_ne_zero, if_false, Nat.add_sub_cancel]
      split <;> omega

/-! ## Period of the diagnostic mode (C27) -/

/-- C27: start from a state in which the tick counter is 0, as in a fresh
process, and dispatch any sequence of events; let the next poll tick be the
`k`-th one.  It sends output to the debug port if and only if `k > 1` and
`k mod 20 = 1` (ticks 21, 41, 61, ...), and it leaves the tick counter at
`(k - 1) mod 20 + 1`, a value between 1 and 20. -/
theorem diagnostic_period (E : Externals X) (w0 : World X) (hfresh : w0.cntr = 0)
    (evs : List (Stack × UAVObjEvent × Fin 2)) (stk : Stack) (ev : UAVObjEvent) (c : Fin 2)
    (hobj : ev.obj = 0) :
    (debugOutput (dispatchLog E stk ev c (dispatchAll E w0 evs)) ≠ [] ↔
      (1 < pollCount evs + 1 ∧ (pollCount evs + 1) % 20 = 1)) ∧
    (processObjEvent E stk ev c (dispatchAll E w0 evs)).cntr = pollCount evs % 20 + 1 ∧
    1 ≤ (processObjEvent E stk ev c (dispatchAll E w0 evs)).cntr ∧
    (processObjEvent E stk ev c (dispatchAll E w0 evs)).cntr ≤ 20 := by
  obtain ⟨h1, h2⟩ := dispatchAll_cntr E evs w0 (by omega)
  rw [hfresh, nextCntr_iterate] at h1
  have hc := processObjEvent_cntr E stk ev c (dispatchAll E w0 evs)
  rw [if_pos hobj, (nextCntr_small _ h2).1] at hc
  refine ⟨?_, ?_, ?_, ?_⟩
  · rw [debug_iff_cntr, h1]
    constructor
    · rintro ⟨_, h⟩
      split at h <;> omega
    · intro h
      refine ⟨hobj, ?_⟩
      split <;> omega
  · rw [hc, h1]; split <;> split <;> omega
  · rw [hc]; omega
  · rw [hc, h1]; split <;> split <;> omega

/-- C27, evaluated: twenty poll ticks on link 1 bring the counter to 20, the
21st poll tick is diagnostic and brings it back to 1; the first tick is not
diagnostic. -/
theorem diagnostic_period_witness :
    ((debugOutput (dispatchLog (stubExt 4) stubStack evPoll 1
          (dispatchAll (stubExt 4) (stubWorld [])
            (List.replicate 20 (stubStack, evPoll, 1)))) ≠ [] ↔
        (1 < pollCount (List.replicate 20 (stubStack, evPoll, (1 : Fin 2))) + 1 ∧
          (pollCount (List.replicate 20 (stubStack, evPoll, (1 : Fin 2))) + 1) % 20 = 1)) ∧
      (processObjEvent (stubExt 4) stubStack evPoll 1
          (dispatchAll (stubExt 4) (stubWorld [])
            (List.replicate 20 (stubStack, evPoll, 1)))).cntr =
        pollCount (List.replicate 20 (stubStack, evPoll, (1 : Fin 2))) % 20 + 1 ∧
      1 ≤ (processObjEvent (stubExt 4) stubStack evPoll 1
          (dispatchAll (stubExt 4) (stubWorld [])
            (List.replicate 20 (stubStack, evPoll, 1)))).cntr ∧
      (processObjEvent (stubExt 4) stubStack evPoll 1
          (dispatchAll (stubExt 4) (stubWorld [])
            (List.replicate 20 (stubStack, evPoll, 1)))).cntr ≤ 20) ∧
    pollCount (List.replicate 20 (stubStack, evPoll, (1 : Fin 2))) = 20 ∧
    debugOutput (dispatchLog (stubExt 4) stubStack evPoll 1 (stubWorld [])) = [] :=
  ⟨diagnostic_period (stubExt 4) (stubWorld []) (by decide)
      (List.replicate 20 (stubStack, evPoll, 1)) stubStack evPoll 1 (by decide),
    by decide, by decide⟩

theorem readChannels_ext (E : Externals X) (debug : Bool) (n : Nat) :
    ∀ (i : Nat) (rcvr : Nat → Nat) (w : World X),
      (readChannels E debug n i rcvr w).2.ext = w.ext := by
  induction n with
  | zero => intro i rcvr w; rfl
  | succ n ih =>
    intro i rcvr w
    simp only [readChannels]
    rw [ih]
    cases debug <;> rfl

theorem readChannels_values (E : Externals X) (debug : Bool) (n : Nat) :
    ∀ (i : Nat) (rcvr : Nat → Nat) (w : World X) (j : Nat),
      (readChannels E debug n i rcvr w).1 j =
        if i ≤ j ∧ j < i + n then
          E.PIOS_RCVR_Read w.ext E.ppmGroup (j + 1) % 4294967296 % 2 ^ E.channelBits
        else rcvr j := by
  induction n with
  | zero =>
    intro i rcvr w j
    rw [if_neg (by omega)]
    rfl
  | succ n ih =>
    intro i rcvr w j
    simp only [readChannels]
    rw [ih]
    have hx : (if debug = true then
        logCall (logCall (logCall w (Call.rcvrRead E.ppmGroup (i + 1)
          (E.PIOS_RCVR_Read w.ext E.ppmGroup (i + 1) % 4294967296)))
          (Call.debugString (DebugOut.hexPair (rcvr i)
            (E.PIOS_RCVR_Read w.ext E.ppmGroup (i + 1) % 4294967296)))) Call.freeHeapSize
        else logCall w (Call.rcvrRead E.ppmGroup (i + 1)
          (E.PIOS_RCVR_Read w.ext E.ppmGroup (i + 1) % 4294967296))).ext = w.ext := by
      cases debug <;> rfl
    rw [hx]
    by_cases h1 : j = i
    · subst h1
      simp
    · by_cases h2 : i + 1 ≤ j ∧ j < i + 1 + n
      · rw [if_pos h2, if_pos (by omega)]
      · rw [if_neg h2, if_neg h1]
        by_cases h3 : i ≤ j ∧ j < i + (n + 1)
        · omega
        · rw [if_neg h3]

theorem pollChannels_eq (E : Externals X) (stk : Stack) (w : World X) :
    (List.range E.GCSRECEIVER_CHANNEL_NUMELEM).map (pollChannels E stk w) =
      pollData E w.ext := by
  unfold pollChannels pollData
  apply List.map_congr_left
  intro j hj
  rw [readChannels_values]
  have hj2 : j < E.GCSRECEIVER_CHANNEL_NUMELEM := List.mem_range.mp hj
  rw [if_pos (by omega)]
  cases decide (w.cntr = 20) <;> rfl

theorem pollPrepared_ext (E : Externals X) (stk : Stack) (w : World X) :
    (pollPrepared E stk w).ext =
      E.UAVObjSetMetadata w.ext E.GCSReceiverHandle
        { (E.UAVObjGetMetadata w.ext E.GCSReceiverHandle) with access := E.ACCESS_READWRITE } := by
  have h3 : ∀ d : Bool, (if d = true then
      logCall (readChannels E d E.GCSRECEIVER_CHANNEL_NUMELEM 0 stk.rcvrChannel
        (if d = true then logCall (setCntr w (nextCntr w.cntr))
            (Call.debugString DebugOut.rcvrHeader)
          else setCntr w (nextCntr w.cntr))).2 (Call.debugString DebugOut.newline)
      else (readChannels E d E.GCSRECEIVER_CHANNEL_NUMELEM 0 stk.rcvrChannel
        (if d = true then logCall (setCntr w (nextCntr w.cntr))
            (Call.debugString DebugOut.rcvrHeader)
          else setCntr w (nextCntr w.cntr))).2).ext = w.ext := by
    intro d
    cases d
    · exact readChannels_ext E false _ _ _ _
    · exact readChannels_ext E true _ _ _ _
  have := h3 (decide (w.cntr = 20))
  unfold pollPrepared
  dsimp only
  show E.UAVObjSetMetadata _ _ _ = _
  unfold nextCntr at this
  simp only [extCall, logCall] at this ⊢
  rw [this]

theorem pollSample_closed (E : Externals X) (stk : Stack) (w : World X) :
    pollSample E stk w =
      extCall (pollPrepared E stk w)
        (E.GCSReceiverSet (E.UAVObjSetMetadata w.ext E.GCSReceiverHandle
          { (E.UAVObjGetMetadata w.ext E.GCSReceiverHandle) with access := E.ACCESS_READWRITE })
          (pollData E w.ext))
        (Call.gcsReceiverSet (pollData E w.ext)) := by
  rw [pollSample_eq, pollChannels_eq, pollPrepared_ext]

theorem alike_log {f : List Call → List Call} (hf : ∀ l c, f (l ++ [c]) = f l ++ f [c])
    {a b : World X} (h : Alike f a b) (c : Call) : Alike f (logCall a c) (logCall b c) := by
  obtain ⟨h1, h2, h3, h4⟩ := h
  refine ⟨h1, h2, h3, ?_⟩
  show f (a.trace ++ [c]) = f (b.trace ++ [c])
  rw [hf, hf, h4]

theorem alike_ext {f : List Call → List Call} (hf : ∀ l c, f (l ++ [c]) = f l ++ f [c])
    {a b : World X} (h : Alike f a b) (x : X) (c : Call) :
    Alike f (extCall a x c) (extCall b x c) := by
  obtain ⟨h1, h2, _, h4⟩ := h
  refine ⟨h1, h2, rfl, ?_⟩
  show f (a.trace ++ [c]) = f (b.trace ++ [c])
  rw [hf, hf, h4]

theorem alike_skip {f : List Call → List Call} (hf : ∀ l c, f (l ++ [c]) = f l ++ f [c])
    {a b : World X} (h : Alike f a b) (c : Call) (hc : f [c] = []) :
    Alike f (logCall a c) b ∧ Alike f a (logCall b c) := by
  obtain ⟨h1, h2, h3, h4⟩ := h
  refine ⟨⟨h1, h2, h3, ?_⟩, ⟨h1, h2, h3, ?_⟩⟩
  · show f (a.trace ++ [c]) = f b.trace
    rw [hf, hc, h4, List.append_nil]
  · show f a.trace = f (b.trace ++ [c])
    rw [hf, hc, h4, List.append_nil]

theorem alike_cntr {f : List Call → List Call} {a b : World X} (h : Alike f a b) (n m : Nat) :
    Alike f (setCntr a n) (setCntr b m) :=
  h

theorem alike_mem {f : List Call → List Call} {a b : World X} (h : Alike f a b) (m : Mem) :
    Alike f (setMem a m) (setMem b m) :=
  ⟨h.1, rfl, h.2.2.1, h.2.2.2⟩

theorem alike_addRetries {f : List Call → List Call} {a b : World X} (h : Alike f a b)
    (n m : Int) : Alike f (addRetries a n) (addRetries b m) :=
  h

theorem alike_countError {f : List Call → List Call} {a b : World X} (h : Alike f a b)
    (s t : Int) : Alike f (countError a s) (countError b t) := by
  unfold countError
  split <;> split <;> exact h

theorem alike_dbg {f : List Call → List Call} (hf : ∀ l c, f (l ++ [c]) = f l ++ f [c])
    {a b : World X} (h : Alike f a b) (d1 d2 : Bool) (c : Call) (hd : d1 ≠ d2 → f [c] = []) :
    Alike f (if d1 = true then logCall a c else a) (if d2 = true then logCall b c else b) := by
  cases d1 <;> cases d2
  · exact h
  · exact (alike_skip hf h c (hd (by decide))).2
  · exact (alike_skip hf h c (hd (by decide))).1
  · exact alike_log hf h c

theorem alike_readChannels {f : List Call → List Call}
    (hf : ∀ l c, f (l ++ [c]) = f l ++ f [c]) (E : Externals X) (d1 d2 : Bool)
    (hd : d1 ≠ d2 → ∀ x, Call.isDebug x = true → f [x] = []) (n : Nat) :
    ∀ (i : Nat) (rcvr : Nat → Nat) (a b : World X), Alike f a b →
      Alike f (readChannels E d1 n i rcvr a).2 (readChannels E d2 n i rcvr b).2 := by
  induction n with
  | zero => intro i rcvr a b h; exact h
  | succ n ih =>
    intro i rcvr a b h
    simp only [readChannels]
    rw [h.2.2.1]
    apply ih
    have h1 := alike_log hf h (Call.rcvrRead E.ppmGroup (i + 1)
      (E.PIOS_RCVR_Read b.ext E.ppmGroup (i + 1) % 4294967296))
    cases d1 <;> cases d2
    · exact h1
    · exact (alike_skip hf (alike_skip hf h1 _ (hd (by decide) _ (by rfl))).2 _
        (hd (by decide) _ (by rfl))).2
    · exact (alike_skip hf (alike_skip hf h1 _ (hd (by decide) _ (by rfl))).1 _
        (hd (by decide) _ (by rfl))).1
    · exact alike_log hf (alike_log hf h1 _) _

theorem pollRead_ext (E : Externals X) (stk : Stack) (w : World X) :
    (pollRead E stk w).ext = w.ext := by
  unfold pollRead
  dsimp only
  cases decide (w.cntr = 20)
  · exact readChannels_ext E false _ _ _ _
  · exact readChannels_ext E true _ _ _ _

theorem pollPrepared_closed (E : Externals X) (stk : Stack) (w : World X) :
    pollPrepared E stk w =
      extCall (logCall (pollRead E stk w)
          (Call.getMetadata E.GCSReceiverHandle (E.UAVObjGetMetadata w.ext E.GCSReceiverHandle)))
        (E.UAVObjSetMetadata w.ext E.GCSReceiverHandle
          { (E.UAVObjGetMetadata w.ext E.GCSReceiverHandle) with access := E.ACCESS_READWRITE })
        (Call.setMetadata E.GCSReceiverHandle
          { (E.UAVObjGetMetadata w.ext E.GCSReceiverHandle) with access := E.ACCESS_READWRITE }) := by
  have hx := pollRead_ext E stk w
  show extCall (logCall (pollRead E stk w)
          (Call.getMetadata E.GCSReceiverHandle
            (E.UAVObjGetMetadata (pollRead E stk w).ext E.GCSReceiverHandle)))
        (E.UAVObjSetMetadata (pollRead E stk w).ext E.GCSReceiverHandle
          { (E.UAVObjGetMetadata (pollRead E stk w).ext E.GCSReceiverHandle) with
            access := E.ACCESS_READWRITE })
        (Call.setMetadata E.GCSReceiverHandle
          { (E.UAVObjGetMetadata (pollRead E stk w).ext E.GCSReceiverHandle) with
            access := E.ACCESS_READWRITE }) = _
  rw [hx]

theorem alike_pollRead {f : List Call → List Call}
    (hf : ∀ l c, f (l ++ [c]) = f l ++ f [c]) (E : Externals X) (stk : Stack) (a b : World X)
    (hd : decide (a.cntr = 20) ≠ decide (b.cntr = 20) → ∀ x, Call.isDebug x = true → f [x] = [])
    (h : Alike f a b) : Alike f (pollRead E stk a) (pollRead E stk b) :=
  alike_dbg hf (alike_readChannels hf E (decide (a.cntr = 20)) (decide (b.cntr = 20))
    hd E.GCSRECEIVER_CHANNEL_NUMELEM 0 stk.rcvrChannel _ _
      (alike_dbg hf (alike_cntr h (nextCntr a.cntr) (nextCntr b.cntr)) (decide (a.cntr = 20))
        (decide (b.cntr = 20)) (Call.debugString DebugOut.rcvrHeader)
        (fun hne => hd hne _ (by rfl))))
    (decide (a.cntr = 20)) (decide (b.cntr = 20)) (Call.debugString DebugOut.newline)
    (fun hne => hd hne _ (by rfl))

theorem alike_pollSample {f : List Call → List Call}
    (hf : ∀ l c, f (l ++ [c]) = f l ++ f [c]) (E : Externals X) (stk : Stack) (a b : World X)
    (hd : decide (a.cntr = 20) ≠ decide (b.cntr = 20) → ∀ x, Call.isDebug x = true → f [x] = [])
    (h : Alike f a b) : Alike f (pollSample E stk a) (pollSample E stk b) := by
  rw [pollSample_closed, pollSample_closed, pollPrepared_closed, pollPrepared_closed, h.2.2.1]
  exact alike_ext hf (alike_ext hf (alike_log hf (alike_pollRead hf E stk a b hd h) _) _ _) _ _

theorem alike_retryLoop {f : List Call → List Call} (body : World X → Int × World X)
    (hb : ∀ a b, Alike f a b → (body a).1 = (body b).1 ∧ Alike f (body a).2 (body b).2)
    (a b : World X) (h : Alike f a b) :
    (retryLoop body MAX_RETRIES 0 (-1) a).1 = (retryLoop body MAX_RETRIES 0 (-1) b).1 ∧
    (retryLoop body MAX_RETRIES 0 (-1) a).2.1 = (retryLoop body MAX_RETRIES 0 (-1) b).2.1 ∧
    Alike f (retryLoop body MAX_RETRIES 0 (-1) a).2.2 (retryLoop body MAX_RETRIES 0 (-1) b).2.2 := by
  rw [retryLoop_two, retryLoop_two]
  obtain ⟨h1, h2⟩ := hb a b h
  obtain ⟨h3, h4⟩ := hb _ _ h2
  rw [h1]
  by_cases hr : (body b).1 = -1
  · rw [if_pos hr, if_pos hr]; exact ⟨rfl, h3, h4⟩
  · rw [if_neg hr, if_neg hr]; exact ⟨rfl, rfl, h2⟩

theorem alike_sendObject {f : List Call → List Call}
    (hf : ∀ l c, f (l ++ [c]) = f l ++ f [c]) (E : Externals X)
    (com obj instId acked timeout : Nat) (a b : World X) (h : Alike f a b) :
    (callSendObject E com obj instId acked timeout a).1 =
        (callSendObject E com obj instId acked timeout b).1 ∧
      Alike f (callSendObject E com obj instId acked timeout a).2
        (callSendObject E com obj instId acked timeout b).2 := by
  unfold callSendObject
  dsimp only
  rw [h.2.2.1]
  exact ⟨rfl, alike_ext hf h _ _⟩

theorem alike_sendObjectRequest {f : List Call → List Call}
    (hf : ∀ l c, f (l ++ [c]) = f l ++ f [c]) (E : Externals X)
    (com obj instId timeout : Nat) (a b : World X) (h : Alike f a b) :
    (callSendObjectRequest E com obj instId timeout a).1 =
        (callSendObjectRequest E com obj instId timeout b).1 ∧
      Alike f (callSendObjectRequest E com obj instId timeout a).2
        (callSendObjectRequest E com obj instId timeout b).2 := by
  unfold callSendObjectRequest
  dsimp only
  rw [h.2.2.1]
  exact ⟨rfl, alike_ext hf h _ _⟩

theorem alike_sendPacket {f : List Call → List Call}
    (hf : ∀ l c, f (l ++ [c]) = f l ++ f [c]) (E : Externals X)
    (com obj : Nat) (a b : World X) (h : Alike f a b) :
    (callSendPacket E com obj a).1 = (callSendPacket E com obj b).1 ∧
      Alike f (callSendPacket E com obj a).2 (callSendPacket E com obj b).2 := by
  unfold callSendPacket
  dsimp only
  rw [h.2.2.1, h.2.1]
  exact ⟨rfl, alike_mem (alike_ext hf h _ _) _⟩

/-- Two dispatches of the same event from states that agree on the links, the
memory and the collaborators end in states that agree on them again, and what
`f` keeps of the calls is the same: for every `f` when both find the tick
counter on the same side of 20, for an `f` that drops the calls of the
diagnostic mode otherwise. -/
theorem alike_processObjEvent {f : List Call → List Call}
    (hf : ∀ l c, f (l ++ [c]) = f l ++ f [c]) (E : Externals X) (stk : Stack)
    (ev : UAVObjEvent) (c : Fin 2) (a b : World X)
    (hd : decide (a.cntr = 20) ≠ decide (b.cntr = 20) → ∀ x, Call.isDebug x = true → f [x] = [])
    (h : Alike f a b) :
    Alike f (processObjEvent E stk ev c a) (processObjEvent E stk ev c b) := by
  have hw := alike_log hf h Call.wdgUpdateFlag
  have hc : ((logCall a Call.wdgUpdateFlag).comms c).com =
      ((logCall b Call.wdgUpdateFlag).comms c).com := by
    show (a.comms c).com = (b.comms c).com
    rw [h.1]
  unfold processObjEvent
  dsimp only
  rw [hc]
  by_cases h0 : ev.obj = 0
  · rw [if_pos h0, if_pos h0]
    exact alike_addRetries (alike_retryLoop _ (alike_sendObject hf E _ _ _ _ _) _ _
      (alike_pollSample hf E stk (logCall a Call.wdgUpdateFlag)
        (logCall b Call.wdgUpdateFlag) hd hw)).2.2 _ _
  · rw [if_neg h0, if_neg h0]
    cases ev.event with
    | EV_OTHER n => exact hw
    | EV_UPDATED =>
      exact alike_countError (alike_addRetries (alike_retryLoop _
        (alike_sendObject hf E _ _ _ _ _) _ _ hw).2.2 _ _) _ _
    | EV_UPDATED_MANUAL =>
      exact alike_countError (alike_addRetries (alike_retryLoop _
        (alike_sendObject hf E _ _ _ _ _) _ _ hw).2.2 _ _) _ _
    | EV_UPDATE_REQ =>
      exact alike_countError (alike_addRetries (alike_retryLoop _
        (alike_sendObjectRequest hf E _ _ _ _) _ _ hw).2.2 _ _) _ _
    | EV_TRANSMIT_REQ =>
      exact alike_countError (alike_addRetries (alike_retryLoop _
        (alike_sendPacket hf E _ _) _ _ hw).2.2 _ _) _ _

theorem committed_append (a b : List Call) :
    committed (a ++ b) = committed a ++ committed b := by
  induction a with
  | nil => rfl
  | cons x xs ih => cases x <;> simp [committed, ih]

theorem nonDebug_snoc (l : List Call) (c : Call) :
    nonDebug (l ++ [c]) = nonDebug l ++ nonDebug [c] := by
  simp [nonDebug, List.filter_append]

theorem nonDebug_debug (x : Call) (hx : Call.isDebug x = true) : nonDebug [x] = [] := by
  simp [nonDebug, hx]

theorem committed_nonDebug (l : List Call) : committed (nonDebug l) = committed l := by
  induction l with
  | nil => rfl
  | cons x xs ih =>
    have hc : nonDebug (x :: xs) = nonDebug [x] ++ nonDebug xs := by
      simp [nonDebug, List.filter_cons]
      split <;> simp
    rw [hc, committed_append, ih]
    cases x <;> simp [nonDebug, committed, Call.isDebug]

theorem sendOps_nonDebug (l : List Call) : sendOps (nonDebug l) = sendOps l := by
  induction l with
  | nil => rfl
  | cons x xs ih =>
    have hc : nonDebug (x :: xs) = nonDebug [x] ++ nonDebug xs := by
      simp [nonDebug, List.filter_cons]
      split <;> simp
    rw [hc, sendOps_append, ih]
    cases x <;> simp [nonDebug, sendOps, Call.isDebug]

theorem sendResults_nonDebug (l : List Call) : sendResults (nonDebug l) = sendResults l := by
  induction l with
  | nil => rfl
  | cons x xs ih =>
    have hc : nonDebug (x :: xs) = nonDebug [x] ++ nonDebug xs := by
      simp [nonDebug, List.filter_cons]
      split <;> simp
    rw [hc, sendResults_append, ih]
    cases x <;> simp [nonDebug, sendResults, Call.isDebug]

/-- The two counters after a dispatch are determined by their values before
it and by the results of the sends it made. -/
theorem counters_determined (E : Externals X) (stk : Stack) (ev : UAVObjEvent) (c : Fin 2)
    (a b : World X) (hr : a.txRetries = b.txRetries) (he : a.txErrors = b.txErrors)
    (hs : sendResults (dispatchLog E stk ev c a) = sendResults (dispatchLog E stk ev c b)) :
    (processObjEvent E stk ev c a).txRetries = (processObjEvent E stk ev c b).txRetries ∧
    (processObjEvent E stk ev c a).txErrors = (processObjEvent E stk ev c b).txErrors := by
  obtain ⟨_, ha⟩ := dispatch_outcome E stk ev c a
  obtain ⟨_, hb⟩ := dispatch_outcome E stk ev c b
  rcases ha with ⟨_, _, sa, ra, ea⟩ | ⟨_, ⟨s, hne, sa, ra, ea⟩ | ⟨s, sa, ra, ea⟩⟩ <;>
    rcases hb with ⟨_, _, sb, rb, eb⟩ | ⟨_, ⟨t, hnt, sb, rb, eb⟩ | ⟨t, sb, rb, eb⟩⟩ <;>
    rw [sa, sb] at hs <;> simp at hs
  · exact ⟨by rw [ra, rb, hr], by rw [ea, eb, he]⟩
  · exact ⟨by rw [ra, rb, hr], by rw [ea, eb, he]⟩
  · exact ⟨by rw [ra, rb, hr], by rw [ea, eb, he, hs]⟩

/-- The calls of a send loop on `UAVTalkSendObject`: at least one, and each
is that send with the arguments of the loop. -/
theorem retryLoop_sends (E : Externals X) (com obj instId acked timeout : Nat) (v : World X) :
    ∃ post, (retryLoop (callSendObject E com obj instId acked timeout)
        MAX_RETRIES 0 (-1) v).2.2.trace = v.trace ++ post ∧ post ≠ [] ∧
      ∀ x ∈ post, ∃ r, x = Call.sendObject com obj instId acked timeout r := by
  rw [retryLoop_two]
  by_cases h : (callSendObject E com obj instId acked timeout v).1 = -1
  · rw [if_pos h]
    refine ⟨[Call.sendObject com obj instId acked timeout
        (callSendObject E com obj instId acked timeout v).1,
      Call.sendObject com obj instId acked timeout
        (callSendObject E com obj instId acked timeout
          (callSendObject E com obj instId acked timeout v).2).1], ?_, by simp, ?_⟩
    · simp [callSendObject, extCall]
    · intro x hx
      simp only [List.mem_cons, List.mem_singleton, List.not_mem_nil, or_false] at hx
      rcases hx with hx | hx
      · exact ⟨_, hx⟩
      · exact ⟨_, hx⟩
  · rw [if_neg h]
    refine ⟨[Call.sendObject com obj instId acked timeout
        (callSendObject E com obj instId acked timeout v).1], ?_, by simp, ?_⟩
    · simp [callSendObject, extCall]
    · intro x hx
      simp only [List.mem_singleton] at hx
      exact ⟨_, hx⟩

theorem sendOps_of_none (l : List Call) (h : ∀ x ∈ l, sendOps [x] = []) : sendOps l = [] := by
  induction l with
  | nil => rfl
  | cons x xs ih =>
    have h1 := h x (List.mem_cons_self _ _)
    have h2 := ih (fun y hy => h y (List.mem_cons_of_mem _ hy))
    have : sendOps ([x] ++ xs) = [] := by rw [sendOps_append, h1, h2]; rfl
    simpa using this

theorem committed_of_none (l : List Call) (h : ∀ x ∈ l, committed [x] = []) :
    committed l = [] := by
  induction l with
  | nil => rfl
  | cons x xs ih =>
    have h1 := h x (List.mem_cons_self _ _)
    have h2 := ih (fun y hy => h y (List.mem_cons_of_mem _ hy))
    have : committed ([x] ++ xs) = [] := by rw [committed_append, h1, h2]; rfl
    simpa using this

/-! ## Stats never gate behaviour (C21) -/

/-- C21: start two dispatches of the same event on the same link from states
that differ only in the values of `txRetries` and `txErrors`.  They make the
same calls with the same arguments and results, in the same order: the same
transport sends (operation, session, object, instance, timeout), the same
number of attempts with the same results, the same values committed to the
object store; and they leave the collaborators, the packet memory, the links
and the tick counter in the same state. -/
theorem stats_never_gate (E : Externals X) (stk : Stack) (ev : UAVObjEvent) (c : Fin 2)
    (w : World X) (r e : Nat) :
    dispatchLog E stk ev c (setStats w r e) = dispatchLog E stk ev c w ∧
    sendOps (dispatchLog E stk ev c (setStats w r e)) = sendOps (dispatchLog E stk ev c w) ∧
    sendResults (dispatchLog E stk ev c (setStats w r e)) =
      sendResults (dispatchLog E stk ev c w) ∧
    committed (dispatchLog E stk ev c (setStats w r e)) =
      committed (dispatchLog E stk ev c w) ∧
    (processObjEvent E stk ev c (setStats w r e)).ext = (processObjEvent E stk ev c w).ext ∧
    (processObjEvent E stk ev c (setStats w r e)).mem = (processObjEvent E stk ev c w).mem ∧
    (processObjEvent E stk ev c (setStats w r e)).comms = (processObjEvent E stk ev c w).comms ∧
    (processObjEvent E stk ev c (setStats w r e)).cntr = (processObjEvent E stk ev c w).cntr := by
  have hf : ∀ (l : List Call) (x : Call), id (l ++ [x]) = id l ++ id [x] := fun _ _ => rfl
  have h := alike_processObjEvent hf E stk ev c (setStats w r e) w
    (fun hne => absurd rfl hne) ⟨rfl, rfl, rfl, rfl⟩
  obtain ⟨h1, h2, h3, h4⟩ := h
  have hlog : dispatchLog E stk ev c (setStats w r e) = dispatchLog E stk ev c w := by
    unfold dispatchLog
    have h5 : (processObjEvent E stk ev c (setStats w r e)).trace =
        (processObjEvent E stk ev c w).trace := h4
    rw [h5]
    rfl
  refine ⟨hlog, by rw [hlog], by rw [hlog], by rw [hlog], h3, h2, h1, ?_⟩
  rw [processObjEvent_cntr, processObjEvent_cntr]
  rfl

/-! ## The diagnostic mode is a side channel (C26) -/

/-- C26: dispatch the same poll tick on the same link from two states that
differ only in the tick counter, 20 in one (a diagnostic tick) and any other
value in the other.  The values committed to the object store, the transport
sends with their arguments and results, every other call that is not made
for the diagnostic mode, the two statistics counters, and the states of the
collaborators, the packet memory and the links come out the same; the
diagnostic tick sends strings to the debug port and the other sends none. -/
theorem diagnostic_side_channel (E : Externals X) (stk : Stack) (ev : UAVObjEvent) (c : Fin 2)
    (w : World X) (k : Nat) (hobj : ev.obj = 0) (hk : k ≠ 20) :
    committed (dispatchLog E stk ev c (setCntr w 20)) =
      committed (dispatchLog E stk ev c (setCntr w k)) ∧
    sendOps (dispatchLog E stk ev c (setCntr w 20)) =
      sendOps (dispatchLog E stk ev c (setCntr w k)) ∧
    sendResults (dispatchLog E stk ev c (setCntr w 20)) =
      sendResults (dispatchLog E stk ev c (setCntr w k)) ∧
    nonDebug (dispatchLog E stk ev c (setCntr w 20)) =
      nonDebug (dispatchLog E stk ev c (setCntr w k)) ∧
    (processObjEvent E stk ev c (setCntr w 20)).txRetries =
      (processObjEvent E stk ev c (setCntr w k)).txRetries ∧
    (processObjEvent E stk ev c (setCntr w 20)).txErrors =
      (processObjEvent E stk ev c (setCntr w k)).txErrors ∧
    (processObjEvent E stk ev c (setCntr w 20)).ext =
      (processObjEvent E stk ev c (setCntr w k)).ext ∧
    (processObjEvent E stk ev c (setCntr w 20)).mem =
      (processObjEvent E stk ev c (setCntr w k)).mem ∧
    (processObjEvent E stk ev c (setCntr w 20)).comms =
      (processObjEvent E stk ev c (setCntr w k)).comms ∧
    debugOutput (dispatchLog E stk ev c (setCntr w 20)) ≠ [] ∧
    debugOutput (dispatchLog E stk ev c (setCntr w k)) = [] := by
  obtain ⟨h1, h2, h3, h4⟩ := alike_processObjEvent nonDebug_snoc E stk ev c (setCntr w 20)
    (setCntr w k) (fun _ x hx => nonDebug_debug x hx) ⟨rfl, rfl, rfl, rfl⟩
  have hnd : nonDebug (dispatchLog E stk ev c (setCntr w 20)) =
      nonDebug (dispatchLog E stk ev c (setCntr w k)) := by
    rw [trace_eq_append_dispatchLog, trace_eq_append_dispatchLog] at h4
    have ha : nonDebug ((setCntr w 20).trace ++ dispatchLog E stk ev c (setCntr w 20)) =
        nonDebug w.trace ++ nonDebug (dispatchLog E stk ev c (setCntr w 20)) := by
      simp [nonDebug, List.filter_append, setCntr]
    have hb : nonDebug ((setCntr w k).trace ++ dispatchLog E stk ev c (setCntr w k)) =
        nonDebug w.trace ++ nonDebug (dispatchLog E stk ev c (setCntr w k)) := by
      simp [nonDebug, List.filter_append, setCntr]
    rw [ha, hb] at h4
    exact List.append_cancel_left h4
  have hsr : sendResults (dispatchLog E stk ev c (setCntr w 20)) =
      sendResults (dispatchLog E stk ev c (setCntr w k)) := by
    rw [← sendResults_nonDebug, hnd, sendResults_nonDebug]
  obtain ⟨hr, he⟩ := counters_determined E stk ev c (setCntr w 20) (setCntr w k) rfl rfl hsr
  refine ⟨?_, ?_, hsr, hnd, hr, he, h3, h2, h1, ?_, ?_⟩
  · rw [← committed_nonDebug, hnd, committed_nonDebug]
  · rw [← sendOps_nonDebug, hnd, sendOps_nonDebug]
  · exact (debug_iff_cntr E stk ev c (setCntr w 20)).mpr ⟨hobj, rfl⟩
  · by_contra hne
    exact hk ((debug_iff_cntr E stk ev c (setCntr w k)).mp hne).2

/-- C26, evaluated: the poll tick on link 1 with the send script `[-1, 0]`,
tick counter 20 against tick counter 3. -/
theorem diagnostic_side_channel_witness :
    (evPoll.obj = 0 ∧ (3 : Nat) ≠ 20) ∧
    (committed (dispatchLog (stubExt 4) stubStack evPoll 1 (setCntr (stubWorld [-1, 0]) 20)) =
      committed (dispatchLog (stubExt 4) stubStack evPoll 1 (setCntr (stubWorld [-1, 0]) 3)) ∧
    sendOps (dispatchLog (stubExt 4) stubStack evPoll 1 (setCntr (stubWorld [-1, 0]) 20)) =
      sendOps (dispatchLog (stubExt 4) stubStack evPoll 1 (setCntr (stubWorld [-1, 0]) 3)) ∧
    sendResults (dispatchLog (stubExt 4) stubStack evPoll 1 (setCntr (stubWorld [-1, 0]) 20)) =
      sendResults (dispatchLog (stubExt 4) stubStack evPoll 1 (setCntr (stubWorld [-1, 0]) 3)) ∧
    nonDebug (dispatchLog (stubExt 4) stubStack evPoll 1 (setCntr (stubWorld [-1, 0]) 20)) =
      nonDebug (dispatchLog (stubExt 4) stubStack evPoll 1 (setCntr (stubWorld [-1, 0]) 3)) ∧
    (processObjEvent (stubExt 4) stubStack evPoll 1 (setCntr (stubWorld [-1, 0]) 20)).txRetries =
      (processObjEvent (stubExt 4) stubStack evPoll 1 (setCntr (stubWorld [-1, 0]) 3)).txRetries ∧
    (processObjEvent (stubExt 4) stubStack evPoll 1 (setCntr (stubWorld [-1, 0]) 20)).txErrors =
      (processObjEvent (stubExt 4) stubStack evPoll 1 (setCntr (stubWorld [-1, 0]) 3)).txErrors ∧
    (processObjEvent (stubExt 4) stubStack evPoll 1 (setCntr (stubWorld [-1, 0]) 20)).ext =
      (processObjEvent (stubExt 4) stubStack evPoll 1 (setCntr (stubWorld [-1, 0]) 3)).ext ∧
    (processObjEvent (stubExt 4) stubStack evPoll 1 (setCntr (stubWorld [-1, 0]) 20)).mem =
      (processObjEvent (stubExt 4) stubStack evPoll 1 (setCntr (stubWorld [-1, 0]) 3)).mem ∧
    (processObjEvent (stubExt 4) stubStack evPoll 1 (setCntr (stubWorld [-1, 0]) 20)).comms =
      (processObjEvent (stubExt 4) stubStack evPoll 1 (setCntr (stubWorld [-1, 0]) 3)).comms ∧
    debugOutput (dispatchLog (stubExt 4) stubStack evPoll 1 (setCntr (stubWorld [-1, 0]) 20)) ≠ [] ∧
    debugOutput (dispatchLog (stubExt 4) stubStack evPoll 1 (setCntr (stubWorld [-1, 0]) 3)) = []) ∧
    committed (dispatchLog (stubExt 4) stubStack evPoll 1 (setCntr (stubWorld [-1, 0]) 20)) =
      [[1001, 1002]] ∧
    sendResults (dispatchLog (stubExt 4) stubStack evPoll 1 (setCntr (stubWorld [-1, 0]) 20)) =
      [-1, 0] ∧
    debugOutput (dispatchLog (stubExt 4) stubStack evPoll 1 (setCntr (stubWorld [-1, 0]) 20)) =
      [DebugOut.rcvrHeader, DebugOut.hexPair 0 1001, DebugOut.hexPair 0 1002, DebugOut.newline] :=
  ⟨⟨by decide, by decide⟩,
    diagnostic_side_channel (stubExt 4) stubStack evPoll 1 (stubWorld [-1, 0]) 3
      (by decide) (by decide),
    by decide, by decide, by decide⟩

/-! ## The poll tick commits the sample before announcing it (C25) -/

/-- C25: for every event with a null object, whatever its tag, the calls of
the dispatch are: calls that neither commit to the object store nor send on
the transport; then one `GCSReceiverSet` whose channel `i`, for every `i`
below the number of receiver channels, is the value read from input channel
`i + 1` of the PPM group, converted to the type of the channel; then, and
only then, the sends, at least one, each a `UAVTalkSendObject` of the
receiver object, instance 0, on the session of the dispatching link.  When
every value read fits the type of the channel the committed values are the
values read. -/
theorem poll_commits_before_send (E : Externals X) (stk : Stack) (ev : UAVObjEvent) (c : Fin 2)
    (w : World X) (hobj : ev.obj = 0) :
    (∃ pre post, dispatchLog E stk ev c w =
        pre ++ Call.gcsReceiverSet (pollData E w.ext) :: post ∧
      sendOps pre = [] ∧ committed pre = [] ∧ post ≠ [] ∧
      ∀ x ∈ post, ∃ r,
        x = Call.sendObject (w.comms c).com E.GCSReceiverHandle 0 0 REQ_TIMEOUT_MS r) ∧
    (pollData E w.ext).length = E.GCSRECEIVER_CHANNEL_NUMELEM ∧
    (∀ i, i < E.GCSRECEIVER_CHANNEL_NUMELEM →
      (pollData E w.ext)[i]? =
        some (E.PIOS_RCVR_Read w.ext E.ppmGroup (i + 1) % 4294967296 % 2 ^ E.channelBits)) ∧
    ((∀ i, i < E.GCSRECEIVER_CHANNEL_NUMELEM →
        E.PIOS_RCVR_Read w.ext E.ppmGroup (i + 1) < 4294967296 ∧
        E.PIOS_RCVR_Read w.ext E.ppmGroup (i + 1) < 2 ^ E.channelBits) →
      ∀ i, i < E.GCSRECEIVER_CHANNEL_NUMELEM →
        (pollData E w.ext)[i]? = some (E.PIOS_RCVR_Read w.ext E.ppmGroup (i + 1))) := by
  have hval : ∀ i, i < E.GCSRECEIVER_CHANNEL_NUMELEM →
      (pollData E w.ext)[i]? =
        some (E.PIOS_RCVR_Read w.ext E.ppmGroup (i + 1) % 4294967296 % 2 ^ E.channelBits) := by
    intro i hi
    simp [pollData, hi]
  refine ⟨?_, by simp [pollData], hval, ?_⟩
  · have hu : processObjEvent E stk ev c w =
        addRetries (retryLoop (callSendObject E ((logCall w Call.wdgUpdateFlag).comms c).com
            E.GCSReceiverHandle 0 0 REQ_TIMEOUT_MS) MAX_RETRIES 0 (-1)
              (pollSample E stk (logCall w Call.wdgUpdateFlag))).2.2
          (retryLoop (callSendObject E ((logCall w Call.wdgUpdateFlag).comms c).com
            E.GCSReceiverHandle 0 0 REQ_TIMEOUT_MS) MAX_RETRIES 0 (-1)
              (pollSample E stk (logCall w Call.wdgUpdateFlag))).1 := by
      simp [processObjEvent, hobj]
    obtain ⟨post, tp, hne, hall⟩ := retryLoop_sends E ((logCall w Call.wdgUpdateFlag).comms c).com
      E.GCSReceiverHandle 0 0 REQ_TIMEOUT_MS (pollSample E stk (logCall w Call.wdgUpdateFlag))
    obtain ⟨l, tl, hl⟩ := logged_pollPrepared
      (fun x => sendOps [x] = [] ∧ committed [x] = []) E stk (logCall w Call.wdgUpdateFlag)
      (fun x _ h1 h2 => ⟨h1, h2⟩)
      (fun _ x hx => by cases x <;> simp [Call.isDebug] at hx <;> exact ⟨rfl, rfl⟩)
    refine ⟨Call.wdgUpdateFlag :: l, post, ?_, ?_, ?_, hne, hall⟩
    · apply dispatchLog_eq
      rw [hu]
      show (@retryLoop (World X) _ MAX_RETRIES 0 (-1) _).2.2.trace = _
      rw [tp, pollSample_closed]
      show (pollPrepared E stk (logCall w Call.wdgUpdateFlag)).trace ++ [_] ++ post = _
      rw [tl]
      simp [logCall]
    · exact sendOps_of_none _ (fun x hx => by
        rcases List.mem_cons.mp hx with h | h
        · rw [h]; rfl
        · exact (hl x h).1)
    · exact committed_of_none _ (fun x hx => by
        rcases List.mem_cons.mp hx with h | h
        · rw [h]; rfl
        · exact (hl x h).2)
  · intro hfit i hi
    rw [hval i hi, Nat.mod_eq_of_lt (hfit i hi).1, Nat.mod_eq_of_lt (hfit i hi).2]

/-- C25, evaluated: the poll tick on link 1 with the send script `[-1, 0]`;
the two channels read 1001 and 1002. -/
theorem poll_commits_before_send_witness :
    evPoll.obj = 0 ∧
    ((∃ pre post, dispatchLog (stubExt 4) stubStack evPoll 1 (stubWorld [-1, 0]) =
        pre ++ Call.gcsReceiverSet (pollData (stubExt 4) (stubWorld [-1, 0]).ext) :: post ∧
      sendOps pre = [] ∧ committed pre = [] ∧ post ≠ [] ∧
      ∀ x ∈ post, ∃ r,
        x = Call.sendObject ((stubWorld [-1, 0]).comms 1).com (stubExt 4).GCSReceiverHandle 0 0
          REQ_TIMEOUT_MS r) ∧
    (pollData (stubExt 4) (stubWorld [-1, 0]).ext).length =
      (stubExt 4).GCSRECEIVER_CHANNEL_NUMELEM ∧
    (∀ i, i < (stubExt 4).GCSRECEIVER_CHANNEL_NUMELEM →
      (pollData (stubExt 4) (stubWorld [-1, 0]).ext)[i]? =
        some ((stubExt 4).PIOS_RCVR_Read (stubWorld [-1, 0]).ext (stubExt 4).ppmGroup (i + 1)
          % 4294967296 % 2 ^ (stubExt 4).channelBits)) ∧
    ((∀ i, i < (stubExt 4).GCSRECEIVER_CHANNEL_NUMELEM →
        (stubExt 4).PIOS_RCVR_Read (stubWorld [-1, 0]).ext (stubExt 4).ppmGroup (i + 1)
          < 4294967296 ∧
        (stubExt 4).PIOS_RCVR_Read (stubWorld [-1, 0]).ext (stubExt 4).ppmGroup (i + 1)
          < 2 ^ (stubExt 4).channelBits) →
      ∀ i, i < (stubExt 4).GCSRECEIVER_CHANNEL_NUMELEM →
        (pollData (stubExt 4) (stubWorld [-1, 0]).ext)[i]? =
          some ((stubExt 4).PIOS_RCVR_Read (stubWorld [-1, 0]).ext (stubExt 4).ppmGroup
            (i + 1)))) ∧
    dispatchLog (stubExt 4) stubStack evPoll 1 (stubWorld [-1, 0]) =
      [Call.wdgUpdateFlag, Call.rcvrRead 7 1 1001, Call.rcvrRead 7 2 1002,
        Call.getMetadata 900 { access := 1, telemetryAcked := 1, rest := [] },
        Call.setMetadata 900 { access := 0, telemetryAcked := 1, rest := [] },
        Call.gcsReceiverSet [1001, 1002],
        Call.sendObject 12 900 0 0 250 (-1), Call.sendObject 12 900 0 0 250 0] :=
  ⟨by decide,
    poll_commits_before_send (stubExt 4) stubStack evPoll 1 (stubWorld [-1, 0]) (by decide),
    by decide⟩

end TransmitterControls

namespace CL_Signal_v3

theorem wrap_dec (M n : Nat) (hn : 0 < n) (h : n < M) : (n + M - 1) % M = n - 1 := by
  obtain ⟨k, rfl⟩ : ∃ k, n = k + 1 := ⟨n - 1, by omega⟩
  have e : k + 1 + M - 1 = k + M := by omega
  rw [e, Nat.add_mod_right, Nat.mod_eq_of_lt (by omega)]
  rfl

theorem wrap_dec_inc (M i : Nat) (h : i < M) : ((i + M - 1) % M + 1) % M = i := by
  rcases Nat.eq_zero_or_pos i with h0 | h0
  · subst h0
    have e : 0 + M - 1 = M - 1 := by omega
    rw [e, Nat.mod_eq_of_lt (show M - 1 < M by omega)]
    have e2 : M - 1 + 1 = M := by omega
    rw [e2, Nat.mod_self]
  · rw [wrap_dec M i h0 h]
    have e : i - 1 + 1 = i := by omega
    rw [e, Nat.mod_eq_of_lt h]


theorem cleanUpLoop_spec (bits : Nat) (fuel : Nat) :
    ∀ (slots : List CL_SlotCallback) (i : Nat), i ≤ slots.length → slots.length < 2 ^ bits →
      slots.length - i + 1 ≤ fuel →
      cleanUpLoop bits fuel slots i slots.length =
        some (slots.take i ++ (slots.drop i).filter (fun s => s.valid)) := by
  induction fuel with
  | zero => intro slots i _ _ h; omega
  | succ fuel ih =>
    intro slots i hi hlen hfuel
    unfold cleanUpLoop
    by_cases hlt : i < slots.length
    · rw [if_pos hlt]
      have hget : slots[i]? = some slots[i] := List.getElem?_eq_getElem hlt
      rw [hget]
      have hdrop : slots.drop i = slots[i] :: slots.drop (i + 1) := List.drop_eq_getElem_cons hlt
      dsimp only
      by_cases hv : slots[i].valid = false
      · rw [if_pos hv]
        have hi2 : ((i + 2 ^ bits - 1) % 2 ^ bits + 1) % 2 ^ bits = i :=
          wrap_dec_inc _ i (by omega)
        have hs2 : (slots.length + 2 ^ bits - 1) % 2 ^ bits = (slots.eraseIdx i).length := by
          rw [List.length_eraseIdx, if_pos hlt]
          exact wrap_dec _ _ (by omega) hlen
        have hlen2 : (slots.eraseIdx i).length = slots.length - 1 := by
          rw [List.length_eraseIdx, if_pos hlt]
        rw [hi2, hs2, ih (slots.eraseIdx i) i (by omega) (by omega) (by omega)]
        have he : slots.eraseIdx i = slots.take i ++ slots.drop (i + 1) :=
          List.eraseIdx_eq_take_drop_succ slots i
        have ht : (slots.take i ++ slots.drop (i + 1)).take i = slots.take i := by
          rw [List.take_append_of_le_length (by rw [List.length_take]; omega)]
          rw [List.take_take, Nat.min_self]
        have hd : (slots.take i ++ slots.drop (i + 1)).drop i = slots.drop (i + 1) := by
          have hl : (slots.take i).length = i := by rw [List.length_take]; omega
          rw [List.drop_append_of_le_length (by omega), List.drop_of_length_le (by omega)]
          rfl
        rw [he, ht, hd, hdrop, List.filter_cons_of_neg (by simp [hv])]
      · rw [if_neg hv]
        have hi2 : (i + 1) % 2 ^ bits = i + 1 := Nat.mod_eq_of_lt (by omega)
        rw [hi2, ih slots (i + 1) (by omega) hlen (by omega)]
        have hv2 : slots[i].valid = true := by
          cases h : slots[i].valid
          · exact absurd h hv
          · rfl
        rw [hdrop, List.filter_cons_of_pos (by simp [hv2]), List.take_succ, hget]
        simp only [Option.toList, List.append_assoc, List.singleton_append]
    · rw [if_neg hlt]
      have : i = slots.length := by omega
      subst this
      simp

/-! ## Clean-up of the slot list (C30) -/

/-- C30: for every list of connected slots that a `size_type` can count,
`clean_up` reaches the exit of its loop within one test more than there are
slots, and leaves exactly the slots that were valid, in their original
order: no invalid slot remains and no valid one is removed.  After `connect`
the slot list is the previously valid slots, in order, followed by the new
callback, which is valid and enabled and is the one the returned slot holds. -/
theorem clean_up_keeps_valid_slots (bits : Nat) (slots : List CL_SlotCallback) (ident : Nat)
    (hsize : slots.length < 2 ^ bits) :
    clean_up bits slots = some (slots.filter (fun s => s.valid)) ∧
    (∀ kept, clean_up bits slots = some kept →
      (∀ s ∈ kept, s.valid = true) ∧ (∀ s ∈ slots, s.valid = true → s ∈ kept) ∧
      kept.Sublist slots) ∧
    connect bits slots ident =
      some (slots.filter (fun s => s.valid) ++ [newCallback ident], newCallback ident) ∧
    (newCallback ident).valid = true ∧ (newCallback ident).enabled = true := by
  have h : clean_up bits slots = some (slots.filter (fun s => s.valid)) := by
    unfold clean_up
    rw [Nat.mod_eq_of_lt hsize, cleanUpLoop_spec bits _ slots 0 (by omega) hsize (by omega)]
    rfl
  refine ⟨h, ?_, ?_, rfl, rfl⟩
  · intro kept hk
    rw [h] at hk
    cases hk
    refine ⟨?_, ?_, List.filter_sublist slots⟩
    · intro s hs
      exact (List.mem_filter.mp hs).2
    · intro s hs hv
      exact List.mem_filter.mpr ⟨hs, hv⟩
  · unfold connect
    rw [h]
    rfl

/-- C30, evaluated with a 64-bit `size_type` on `sampleSlots`, whose first two
slots, fourth and last are invalid. -/
theorem clean_up_keeps_valid_slots_witness :
    sampleSlots.length < 2 ^ 64 ∧
    (clean_up 64 sampleSlots = some (sampleSlots.filter (fun s => s.valid)) ∧
    (∀ kept, clean_up 64 sampleSlots = some kept →
      (∀ s ∈ kept, s.valid = true) ∧ (∀ s ∈ sampleSlots, s.valid = true → s ∈ kept) ∧
      kept.Sublist sampleSlots) ∧
    connect 64 sampleSlots 7 =
      some (sampleSlots.filter (fun s => s.valid) ++ [newCallback 7], newCallback 7) ∧
    (newCallback 7).valid = true ∧ (newCallback 7).enabled = true) ∧
    connect 64 sampleSlots 7 =
      some ([{ ident := 3, valid := true, enabled := false },
        { ident := 5, valid := true, enabled := true },
        { ident := 7, valid := true, enabled := true }],
        { ident := 7, valid := true, enabled := true }) :=
  ⟨by decide,
    clean_up_keeps_valid_slots 64 sampleSlots 7 (by decide),
    by decide⟩

end CL_Signal_v3

namespace Battery

theorem onTimer_keeps_flags_ordered (s : Statics) (t : Tick)
    (h : s.BoardPowerWarning = true → s.BoardPowerOk = true) :
    (onTimer s t).1.BoardPowerWarning = true → (onTimer s t).1.BoardPowerOk = true := by
  unfold onTimer
  dsimp only
  split
  · split
    · intro hw; cases hw
    · split
      · rename_i hok; intro _; exact hok.1
      · split
        · rename_i hok; intro _; exact hok.1
        · intro hw
          show (s.BoardPowerOk || _) = true
          rw [h hw]; rfl
  · exact h

theorem runTicks_snoc (s : Statics) (ticks : List Tick) (t : Tick) :
    runTicks s (ticks ++ [t]) = (onTimer (runTicks s ticks) t).1 := by
  simp [runTicks, List.foldl_append]

theorem runTicks_append (s : Statics) (a b : List Tick) :
    runTicks s (a ++ b) = runTicks (runTicks s a) b := by
  simp [runTicks, List.foldl_append]

theorem runTicks_keeps_flags_ordered (ticks : List Tick) :
    ∀ s : Statics, (s.BoardPowerWarning = true → s.BoardPowerOk = true) →
      (runTicks s ticks).BoardPowerWarning = true → (runTicks s ticks).BoardPowerOk = true := by
  induction ticks with
  | nil => intro s h; exact h
  | cons t rest ih =>
    intro s h
    exact ih (onTimer s t).1 (onTimer_keeps_flags_ordered s t h)

theorem onTimer_error_resets (s : Statics) (t : Tick) (h : t.isErrorReading) :
    (onTimer s t).1.BoardPowerOk = false := by
  obtain ⟨h1, h2, h3⟩ := h
  unfold onTimer
  dsimp only
  rw [if_pos h1, if_pos h1, if_pos ⟨h2, h3⟩]

theorem onTimer_stays_not_ok (s : Statics) (t : Tick) (hs : s.BoardPowerOk = false)
    (ht : t.hasBoardSensor = true → ¬ t.boardVolts > BATTERY_BOARD_VOLTAGE_WARNING) :
    (onTimer s t).1.BoardPowerOk = false := by
  unfold onTimer
  dsimp only
  split
  · rename_i hsens
    split
    · rfl
    · split
      · exact hs
      · split
        · exact hs
        · show (s.BoardPowerOk || _) = false
          rw [hs]
          simp only [Bool.false_or, decide_eq_false_iff_not]
          exact ht hsens
  · exact hs

theorem runTicks_stays_not_ok (mid : List Tick) :
    ∀ s : Statics, s.BoardPowerOk = false →
      (∀ m ∈ mid, m.hasBoardSensor = true → ¬ m.boardVolts > BATTERY_BOARD_VOLTAGE_WARNING) →
      (runTicks s mid).BoardPowerOk = false := by
  induction mid with
  | nil => intro s hs _; exact hs
  | cons t rest ih =>
    intro s hs h
    exact ih (onTimer s t).1
      (onTimer_stays_not_ok s t hs (h t (List.mem_cons_self _ _)))
      (fun m hm => h m (List.mem_cons_of_mem _ hm))

theorem onTimer_guarded (s : Statics) (t : Tick) (hok : s.BoardPowerOk = false)
    (hw : s.BoardPowerWarning = false) (ht : t.hasBoardSensor = true) :
    (onTimer s t).2 =
      [if t.boardVolts ≠ -1 ∧ t.boardVolts < BATTERY_BOARD_VOLTAGE_ERROR then
          PowerAlarm.AlarmsSet Severity.SYSTEMALARMS_ALARM_ERROR
        else PowerAlarm.AlarmsClear] := by
  unfold onTimer
  dsimp only
  rw [if_pos ht, if_pos ht]
  by_cases he : t.boardVolts ≠ -1 ∧ t.boardVolts < BATTERY_BOARD_VOLTAGE_ERROR
  · rw [if_pos he, if_pos he]
  · rw [if_neg he, if_neg he, if_neg (by simp [hok]), if_neg (by simp [hok])]
    simp [hw]

/-! ## Ramp-up guard of the board supply alarm (C29) -/

/-- C29: after every sequence of ticks from start-up, with the sensor of the
board supply enabled or not, `BoardPowerWarning` implies `BoardPowerOk`.
Consequently take a point that is start-up or follows a tick that read an
error level (sensor enabled, value other than the no-sensor mark -1 and
below 1.0), and let ticks follow none of which reads a value above 4.5 with
the sensor enabled: the next tick with the sensor enabled makes exactly one
call on the alarm `POWER`, `AlarmsSet(ERROR)` when it reads an error level
and `AlarmsClear` otherwise, hence neither `WARNING` nor `CRITICAL`. -/
theorem board_power_rampup_guard (ticks pre mid : List Tick) (t : Tick) :
    ((runTicks startStatics ticks).BoardPowerWarning = true →
      (runTicks startStatics ticks).BoardPowerOk = true) ∧
    ((pre = [] ∨ ∃ p e, pre = p ++ [e] ∧ e.isErrorReading) →
      (∀ m ∈ mid, m.hasBoardSensor = true → ¬ m.boardVolts > BATTERY_BOARD_VOLTAGE_WARNING) →
      t.hasBoardSensor = true →
      (onTimer (runTicks startStatics (pre ++ mid)) t).2 =
          [if t.boardVolts ≠ -1 ∧ t.boardVolts < BATTERY_BOARD_VOLTAGE_ERROR then
              PowerAlarm.AlarmsSet Severity.SYSTEMALARMS_ALARM_ERROR
            else PowerAlarm.AlarmsClear] ∧
        (onTimer (runTicks startStatics (pre ++ mid)) t).2 ≠
          [PowerAlarm.AlarmsSet Severity.SYSTEMALARMS_ALARM_WARNING] ∧
        (onTimer (runTicks startStatics (pre ++ mid)) t).2 ≠
          [PowerAlarm.AlarmsSet Severity.SYSTEMALARMS_ALARM_CRITICAL]) := by
  have hinv : ∀ l, (runTicks startStatics l).BoardPowerWarning = true →
      (runTicks startStatics l).BoardPowerOk = true :=
    fun l => runTicks_keeps_flags_ordered l startStatics (fun h => by cases h)
  refine ⟨hinv ticks, ?_⟩
  intro hpre hmid ht
  have hpre_ok : (runTicks startStatics pre).BoardPowerOk = false := by
    rcases hpre with h | ⟨p, e, h, he⟩
    · rw [h]; rfl
    · rw [h, runTicks_snoc]
      exact onTimer_error_resets _ e he
  have hok : (runTicks startStatics (pre ++ mid)).BoardPowerOk = false := by
    rw [runTicks_append]
    exact runTicks_stays_not_ok mid _ hpre_ok hmid
  have hw : (runTicks startStatics (pre ++ mid)).BoardPowerWarning = false := by
    cases h : (runTicks startStatics (pre ++ mid)).BoardPowerWarning
    · rfl
    · have := hinv (pre ++ mid) h
      rw [hok] at this
      cases this
  have hcall := onTimer_guarded _ t hok hw ht
  refine ⟨hcall, ?_, ?_⟩
  · rw [hcall]
    split <;> simp
  · rw [hcall]
    split <;> simp

/-- C29, evaluated: the supply reads 5.0 V, then 0.5 V (error level), then
2.0 V and 4.0 V; the next tick reads 3.0 V and clears the alarm.  Without the
error reading the same tick sets the alarm to `CRITICAL`. -/
theorem board_power_rampup_guard_witness :
    ((∃ p e, sampleReset = p ++ [e] ∧ e.isErrorReading) ∧
      (∀ m ∈ sampleLow,
        m.hasBoardSensor = true → ¬ m.boardVolts > BATTERY_BOARD_VOLTAGE_WARNING) ∧
      sampleTick.hasBoardSensor = true) ∧
    ((onTimer (runTicks startStatics (sampleReset ++ sampleLow)) sampleTick).2 =
        [if sampleTick.boardVolts ≠ -1 ∧ sampleTick.boardVolts < BATTERY_BOARD_VOLTAGE_ERROR then
            PowerAlarm.AlarmsSet Severity.SYSTEMALARMS_ALARM_ERROR
          else PowerAlarm.AlarmsClear] ∧
      (onTimer (runTicks startStatics (sampleReset ++ sampleLow)) sampleTick).2 ≠
        [PowerAlarm.AlarmsSet Severity.SYSTEMALARMS_ALARM_WARNING] ∧
      (onTimer (runTicks startStatics (sampleReset ++ sampleLow)) sampleTick).2 ≠
        [PowerAlarm.AlarmsSet Severity.SYSTEMALARMS_ALARM_CRITICAL]) ∧
    (onTimer (runTicks startStatics (sampleReset ++ sampleLow)) sampleTick).2 =
      [PowerAlarm.AlarmsClear] ∧
    (onTimer (runTicks startStatics
        ({ hasBoardSensor := true, boardVolts := 5 } :: sampleLow)) sampleTick).2 =
      [PowerAlarm.AlarmsSet Severity.SYSTEMALARMS_ALARM_CRITICAL] :=
  have hreset : ∃ p e, sampleReset = p ++ [e] ∧ e.isErrorReading :=
    ⟨[{ hasBoardSensor := true, boardVolts := 5 }],
      { hasBoardSensor := true, boardVolts := 1 / 2 }, rfl, rfl,
      by norm_num, by norm_num [BATTERY_BOARD_VOLTAGE_ERROR]⟩
  have hlow : ∀ m ∈ sampleLow,
      m.hasBoardSensor = true → ¬ m.boardVolts > BATTERY_BOARD_VOLTAGE_WARNING := by
    intro m hm
    simp only [sampleLow, List.mem_cons, List.mem_singleton, List.not_mem_nil, or_false] at hm
    rcases hm with h | h <;> rw [h] <;> norm_num [BATTERY_BOARD_VOLTAGE_WARNING]
  ⟨⟨hreset, hlow, rfl⟩,
    (board_power_rampup_guard [] sampleReset sampleLow sampleTick).2 (Or.inr hreset) hlow rfl,
    by norm_num [onTimer, runTicks, sampleReset, sampleLow, sampleTick, startStatics,
      BATTERY_BOARD_VOLTAGE_WARNING, BATTERY_BOARD_VOLTAGE_CRITICAL, BATTERY_BOARD_VOLTAGE_ERROR],
    by norm_num [onTimer, runTicks, sampleLow, sampleTick, startStatics,
      BATTERY_BOARD_VOLTAGE_WARNING, BATTERY_BOARD_VOLTAGE_CRITICAL, BATTERY_BOARD_VOLTAGE_ERROR]⟩

end Battery

namespace MixerCurveWidget

theorem map_enum_snd (l : List ℚ) (g : ℚ → ℚ) :
    (l.enum.map (fun ip => g ip.2)) = l.map g := by
  have h : (fun ip : Nat × ℚ => g ip.2) = g ∘ Prod.snd := rfl
  rw [h, ← List.map_map, List.enum_map_snd]

/-- What `getCurve` returns after `initCurve`: each point clamped to the range
and shifted by twice `curveMin`. -/
theorem getCurve_initCurve (s : Widget) (points : List ℚ) (hrange : s.curveMin < s.curveMax)
    (hh : 0 < s.plotHeight) (hlen : 2 ≤ points.length) :
    getCurve (initCurve s points) = points.map (fun p => clampVal s p + 2 * s.curveMin) := by
  have hd : s.curveMax - s.curveMin ≠ 0 := by
    have : 0 < s.curveMax - s.curveMin := sub_pos.mpr hrange
    exact ne_of_gt this
  have hh2 : s.plotHeight ≠ 0 := ne_of_gt hh
  unfold getCurve initCurve
  rw [if_neg (by omega)]
  dsimp only
  rw [List.map_map]
  rw [← map_enum_snd points (fun p => clampVal s p + 2 * s.curveMin)]
  apply List.map_congr_left
  intro ip _
  simp only [Function.comp]
  field_simp
  ring

/-! ## Round trip of the mixer curve (C28) -/

/-- C28: the round trip fails when `curveMin` is not zero.  With the range
[-1, 1] set by `setRange`, a plot 100 wide and 100 high and the points 0 and
1/2, both within the range, `initCurve` followed by `getCurve` returns -2 and
-3/2.  Moving the same nodes to the same points with `setCurve`, which
subtracts `curveMin` where `initCurve` adds it, gives back 0 and 1/2, and so
does `initCurve` with the range [0, 1] of the constructor. -/
theorem initCurve_getCurve_shifts :
    (setRange (newWidget 100 100) (-1) 1).curveMin < (setRange (newWidget 100 100) (-1) 1).curveMax ∧
    (∀ p ∈ [(0 : ℚ), 1 / 2], (setRange (newWidget 100 100) (-1) 1).curveMin ≤ p ∧
      p ≤ (setRange (newWidget 100 100) (-1) 1).curveMax) ∧
    getCurve (initCurve (setRange (newWidget 100 100) (-1) 1) [0, 1 / 2]) = [-2, -3 / 2] ∧
    getCurve (initCurve (setRange (newWidget 100 100) (-1) 1) [0, 1 / 2]) ≠ [0, 1 / 2] ∧
    (setCurve (initCurve (setRange (newWidget 100 100) (-1) 1) [0, 1 / 2]) [0, 1 / 2]).map getCurve =
      some [0, 1 / 2] ∧
    getCurve (initCurve (newWidget 100 100) [0, 1 / 2]) = [0, 1 / 2] := by
  refine ⟨by norm_num [setRange, newWidget], ?_, ?_, ?_, ?_, ?_⟩
  · intro p hp
    simp only [List.mem_cons, List.mem_singleton, List.not_mem_nil, or_false] at hp
    rcases hp with h | h <;> rw [h] <;> norm_num [setRange, newWidget]
  · norm_num [getCurve, initCurve, setRange, newWidget, clampVal, nodeSpacing, List.enum,
      List.enumFrom]
  · norm_num [getCurve, initCurve, setRange, newWidget, clampVal, nodeSpacing, List.enum,
      List.enumFrom]
  · norm_num [getCurve, setCurve, initCurve, setRange, newWidget, clampVal, nodeSpacing,
      List.enum, List.enumFrom]
  · norm_num [getCurve, initCurve, newWidget, clampVal, nodeSpacing, List.enum, List.enumFrom]

end MixerCurveWidget
